import Mathlib

/-!
# Task list types of daxa

A shallow embedding of `include/daxa/utils/task_list_types.hpp` together with the
parts of the task list that its callers in `tests/3_samples/7_FSR2/main.cpp` rely on.

Conventions of the embedding

* C++ enumerations become inductive types; `toNat` gives the value the compiler
  assigns to an enumerator (declaration order, starting at zero) and `name`
  the identifier of the enumerator.
* `u32` and `usize` values are natural numbers; where the width matters (the
  loop counter of `for_each`) the arithmetic is written modulo `2 ^ 32`.
* `DAXA_DBG_ASSERT_TRUE_M` becomes a result in `Except String`: a failed
  assertion is `Except.error` carrying the message of the assertion.
-/

namespace daxa

/-! ## Access enumerations -/

/-- Enumeration `TaskBufferAccess` (task_list_types.hpp, lines 15 to 45). -/
inductive TaskBufferAccess where
  | NONE
  | SHADER_READ
  | VERTEX_SHADER_READ
  | TESSELLATION_CONTROL_SHADER_READ
  | TESSELLATION_EVALUATION_SHADER_READ
  | GEOMETRY_SHADER_READ
  | FRAGMENT_SHADER_READ
  | COMPUTE_SHADER_READ
  | SHADER_WRITE
  | VERTEX_SHADER_WRITE
  | TESSELLATION_CONTROL_SHADER_WRITE
  | TESSELLATION_EVALUATION_SHADER_WRITE
  | GEOMETRY_SHADER_WRITE
  | FRAGMENT_SHADER_WRITE
  | COMPUTE_SHADER_WRITE
  | SHADER_READ_WRITE
  | VERTEX_SHADER_READ_WRITE
  | TESSELLATION_CONTROL_SHADER_READ_WRITE
  | TESSELLATION_EVALUATION_SHADER_READ_WRITE
  | GEOMETRY_SHADER_READ_WRITE
  | FRAGMENT_SHADER_READ_WRITE
  | COMPUTE_SHADER_READ_WRITE
  | INDEX_READ
  | DRAW_INDIRECT_INFO_READ
  | TRANSFER_READ
  | TRANSFER_WRITE
  | HOST_TRANSFER_READ
  | HOST_TRANSFER_WRITE
  deriving DecidableEq, Repr, Fintype

/-- Enumeration `TaskImageAccess` (task_list_types.hpp, lines 49 to 84). -/
inductive TaskImageAccess where
  | NONE
  | SHADER_READ
  | VERTEX_SHADER_READ
  | TESSELLATION_CONTROL_SHADER_READ
  | TESSELLATION_EVALUATION_SHADER_READ
  | GEOMETRY_SHADER_READ
  | FRAGMENT_SHADER_READ
  | COMPUTE_SHADER_READ
  | SHADER_WRITE
  | VERTEX_SHADER_WRITE
  | TESSELLATION_CONTROL_SHADER_WRITE
  | TESSELLATION_EVALUATION_SHADER_WRITE
  | GEOMETRY_SHADER_WRITE
  | FRAGMENT_SHADER_WRITE
  | COMPUTE_SHADER_WRITE
  | SHADER_READ_WRITE
  | VERTEX_SHADER_READ_WRITE
  | TESSELLATION_CONTROL_SHADER_READ_WRITE
  | TESSELLATION_EVALUATION_SHADER_READ_WRITE
  | GEOMETRY_SHADER_READ_WRITE
  | FRAGMENT_SHADER_READ_WRITE
  | COMPUTE_SHADER_READ_WRITE
  | TRANSFER_READ
  | TRANSFER_WRITE
  | COLOR_ATTACHMENT
  | DEPTH_ATTACHMENT
  | STENCIL_ATTACHMENT
  | DEPTH_STENCIL_ATTACHMENT
  | DEPTH_ATTACHMENT_READ
  | STENCIL_ATTACHMENT_READ
  | DEPTH_STENCIL_ATTACHMENT_READ
  | RESOLVE_WRITE
  | PRESENT
  deriving DecidableEq, Repr, Fintype

instance : Inhabited TaskBufferAccess := ⟨TaskBufferAccess.NONE⟩

instance : Inhabited TaskImageAccess := ⟨TaskImageAccess.NONE⟩

/-- Value of an enumerator of `TaskBufferAccess`: no enumerator has an
initialiser, so the first is zero and each next one is one more. -/
def TaskBufferAccess.toNat : TaskBufferAccess → Nat
  | .NONE => 0
  | .SHADER_READ => 1
  | .VERTEX_SHADER_READ => 2
  | .TESSELLATION_CONTROL_SHADER_READ => 3
  | .TESSELLATION_EVALUATION_SHADER_READ => 4
  | .GEOMETRY_SHADER_READ => 5
  | .FRAGMENT_SHADER_READ => 6
  | .COMPUTE_SHADER_READ => 7
  | .SHADER_WRITE => 8
  | .VERTEX_SHADER_WRITE => 9
  | .TESSELLATION_CONTROL_SHADER_WRITE => 10
  | .TESSELLATION_EVALUATION_SHADER_WRITE => 11
  | .GEOMETRY_SHADER_WRITE => 12
  | .FRAGMENT_SHADER_WRITE => 13
  | .COMPUTE_SHADER_WRITE => 14
  | .SHADER_READ_WRITE => 15
  | .VERTEX_SHADER_READ_WRITE => 16
  | .TESSELLATION_CONTROL_SHADER_READ_WRITE => 17
  | .TESSELLATION_EVALUATION_SHADER_READ_WRITE => 18
  | .GEOMETRY_SHADER_READ_WRITE => 19
  | .FRAGMENT_SHADER_READ_WRITE => 20
  | .COMPUTE_SHADER_READ_WRITE => 21
  | .INDEX_READ => 22
  | .DRAW_INDIRECT_INFO_READ => 23
  | .TRANSFER_READ => 24
  | .TRANSFER_WRITE => 25
  | .HOST_TRANSFER_READ => 26
  | .HOST_TRANSFER_WRITE => 27

/-- Identifier of an enumerator of `TaskBufferAccess`. -/
def TaskBufferAccess.name : TaskBufferAccess → String
  | .NONE => "NONE"
  | .SHADER_READ => "SHADER_READ"
  | .VERTEX_SHADER_READ => "VERTEX_SHADER_READ"
  | .TESSELLATION_CONTROL_SHADER_READ => "TESSELLATION_CONTROL_SHADER_READ"
  | .TESSELLATION_EVALUATION_SHADER_READ => "TESSELLATION_EVALUATION_SHADER_READ"
  | .GEOMETRY_SHADER_READ => "GEOMETRY_SHADER_READ"
  | .FRAGMENT_SHADER_READ => "FRAGMENT_SHADER_READ"
  | .COMPUTE_SHADER_READ => "COMPUTE_SHADER_READ"
  | .SHADER_WRITE => "SHADER_WRITE"
  | .VERTEX_SHADER_WRITE => "VERTEX_SHADER_WRITE"
  | .TESSELLATION_CONTROL_SHADER_WRITE => "TESSELLATION_CONTROL_SHADER_WRITE"
  | .TESSELLATION_EVALUATION_SHADER_WRITE => "TESSELLATION_EVALUATION_SHADER_WRITE"
  | .GEOMETRY_SHADER_WRITE => "GEOMETRY_SHADER_WRITE"
  | .FRAGMENT_SHADER_WRITE => "FRAGMENT_SHADER_WRITE"
  | .COMPUTE_SHADER_WRITE => "COMPUTE_SHADER_WRITE"
  | .SHADER_READ_WRITE => "SHADER_READ_WRITE"
  | .VERTEX_SHADER_READ_WRITE => "VERTEX_SHADER_READ_WRITE"
  | .TESSELLATION_CONTROL_SHADER_READ_WRITE => "TESSELLATION_CONTROL_SHADER_READ_WRITE"
  | .TESSELLATION_EVALUATION_SHADER_READ_WRITE => "TESSELLATION_EVALUATION_SHADER_READ_WRITE"
  | .GEOMETRY_SHADER_READ_WRITE => "GEOMETRY_SHADER_READ_WRITE"
  | .FRAGMENT_SHADER_READ_WRITE => "FRAGMENT_SHADER_READ_WRITE"
  | .COMPUTE_SHADER_READ_WRITE => "COMPUTE_SHADER_READ_WRITE"
  | .INDEX_READ => "INDEX_READ"
  | .DRAW_INDIRECT_INFO_READ => "DRAW_INDIRECT_INFO_READ"
  | .TRANSFER_READ => "TRANSFER_READ"
  | .TRANSFER_WRITE => "TRANSFER_WRITE"
  | .HOST_TRANSFER_READ => "HOST_TRANSFER_READ"
  | .HOST_TRANSFER_WRITE => "HOST_TRANSFER_WRITE"

/-- Value of an enumerator of `TaskImageAccess` (declaration order from zero). -/
def TaskImageAccess.toNat : TaskImageAccess → Nat
  | .NONE => 0
  | .SHADER_READ => 1
  | .VERTEX_SHADER_READ => 2
  | .TESSELLATION_CONTROL_SHADER_READ => 3
  | .TESSELLATION_EVALUATION_SHADER_READ => 4
  | .GEOMETRY_SHADER_READ => 5
  | .FRAGMENT_SHADER_READ => 6
  | .COMPUTE_SHADER_READ => 7
  | .SHADER_WRITE => 8
  | .VERTEX_SHADER_WRITE => 9
  | .TESSELLATION_CONTROL_SHADER_WRITE => 10
  | .TESSELLATION_EVALUATION_SHADER_WRITE => 11
  | .GEOMETRY_SHADER_WRITE => 12
  | .FRAGMENT_SHADER_WRITE => 13
  | .COMPUTE_SHADER_WRITE => 14
  | .SHADER_READ_WRITE => 15
  | .VERTEX_SHADER_READ_WRITE => 16
  | .TESSELLATION_CONTROL_SHADER_READ_WRITE => 17
  | .TESSELLATION_EVALUATION_SHADER_READ_WRITE => 18
  | .GEOMETRY_SHADER_READ_WRITE => 19
  | .FRAGMENT_SHADER_READ_WRITE => 20
  | .COMPUTE_SHADER_READ_WRITE => 21
  | .TRANSFER_READ => 22
  | .TRANSFER_WRITE => 23
  | .COLOR_ATTACHMENT => 24
  | .DEPTH_ATTACHMENT => 25
  | .STENCIL_ATTACHMENT => 26
  | .DEPTH_STENCIL_ATTACHMENT => 27
  | .DEPTH_ATTACHMENT_READ => 28
  | .STENCIL_ATTACHMENT_READ => 29
  | .DEPTH_STENCIL_ATTACHMENT_READ => 30
  | .RESOLVE_WRITE => 31
  | .PRESENT => 32

/-- Identifier of an enumerator of `TaskImageAccess`. -/
def TaskImageAccess.name : TaskImageAccess → String
  | .NONE => "NONE"
  | .SHADER_READ => "SHADER_READ"
  | .VERTEX_SHADER_READ => "VERTEX_SHADER_READ"
  | .TESSELLATION_CONTROL_SHADER_READ => "TESSELLATION_CONTROL_SHADER_READ"
  | .TESSELLATION_EVALUATION_SHADER_READ => "TESSELLATION_EVALUATION_SHADER_READ"
  | .GEOMETRY_SHADER_READ => "GEOMETRY_SHADER_READ"
  | .FRAGMENT_SHADER_READ => "FRAGMENT_SHADER_READ"
  | .COMPUTE_SHADER_READ => "COMPUTE_SHADER_READ"
  | .SHADER_WRITE => "SHADER_WRITE"
  | .VERTEX_SHADER_WRITE => "VERTEX_SHADER_WRITE"
  | .TESSELLATION_CONTROL_SHADER_WRITE => "TESSELLATION_CONTROL_SHADER_WRITE"
  | .TESSELLATION_EVALUATION_SHADER_WRITE => "TESSELLATION_EVALUATION_SHADER_WRITE"
  | .GEOMETRY_SHADER_WRITE => "GEOMETRY_SHADER_WRITE"
  | .FRAGMENT_SHADER_WRITE => "FRAGMENT_SHADER_WRITE"
  | .COMPUTE_SHADER_WRITE => "COMPUTE_SHADER_WRITE"
  | .SHADER_READ_WRITE => "SHADER_READ_WRITE"
  | .VERTEX_SHADER_READ_WRITE => "VERTEX_SHADER_READ_WRITE"
  | .TESSELLATION_CONTROL_SHADER_READ_WRITE => "TESSELLATION_CONTROL_SHADER_READ_WRITE"
  | .TESSELLATION_EVALUATION_SHADER_READ_WRITE => "TESSELLATION_EVALUATION_SHADER_READ_WRITE"
  | .GEOMETRY_SHADER_READ_WRITE => "GEOMETRY_SHADER_READ_WRITE"
  | .FRAGMENT_SHADER_READ_WRITE => "FRAGMENT_SHADER_READ_WRITE"
  | .COMPUTE_SHADER_READ_WRITE => "COMPUTE_SHADER_READ_WRITE"
  | .TRANSFER_READ => "TRANSFER_READ"
  | .TRANSFER_WRITE => "TRANSFER_WRITE"
  | .COLOR_ATTACHMENT => "COLOR_ATTACHMENT"
  | .DEPTH_ATTACHMENT => "DEPTH_ATTACHMENT"
  | .STENCIL_ATTACHMENT => "STENCIL_ATTACHMENT"
  | .DEPTH_STENCIL_ATTACHMENT => "DEPTH_STENCIL_ATTACHMENT"
  | .DEPTH_ATTACHMENT_READ => "DEPTH_ATTACHMENT_READ"
  | .STENCIL_ATTACHMENT_READ => "STENCIL_ATTACHMENT_READ"
  | .DEPTH_STENCIL_ATTACHMENT_READ => "DEPTH_STENCIL_ATTACHMENT_READ"
  | .RESOLVE_WRITE => "RESOLVE_WRITE"
  | .PRESENT => "PRESENT"

/-- The seven shader scopes the access enumerations distinguish; `ANY` is the
scope of the enumerators that start with `SHADER_`. -/
inductive ShaderScope where
  | ANY
  | VERTEX
  | TESSELLATION_CONTROL
  | TESSELLATION_EVALUATION
  | GEOMETRY
  | FRAGMENT
  | COMPUTE
  deriving DecidableEq, Repr, Fintype

/-- The three directions of a shader access. -/
inductive ShaderAccessKind where
  | READ
  | WRITE
  | READ_WRITE
  deriving DecidableEq, Repr, Fintype

/-- Identifier stem of a shader scope, as it occurs in the enumerator names. -/
def ShaderScope.stem : ShaderScope → String
  | .ANY => "SHADER"
  | .VERTEX => "VERTEX_SHADER"
  | .TESSELLATION_CONTROL => "TESSELLATION_CONTROL_SHADER"
  | .TESSELLATION_EVALUATION => "TESSELLATION_EVALUATION_SHADER"
  | .GEOMETRY => "GEOMETRY_SHADER"
  | .FRAGMENT => "FRAGMENT_SHADER"
  | .COMPUTE => "COMPUTE_SHADER"

/-- Identifier ending of a shader access direction. -/
def ShaderAccessKind.ending : ShaderAccessKind → String
  | .READ => "_READ"
  | .WRITE => "_WRITE"
  | .READ_WRITE => "_READ_WRITE"

/-- Position of a scope inside one block of seven enumerators. -/
def ShaderScope.toNat : ShaderScope → Nat
  | .ANY => 0
  | .VERTEX => 1
  | .TESSELLATION_CONTROL => 2
  | .TESSELLATION_EVALUATION => 3
  | .GEOMETRY => 4
  | .FRAGMENT => 5
  | .COMPUTE => 6

/-- Position of a direction: the READ block comes first, then WRITE, then READ_WRITE. -/
def ShaderAccessKind.toNat : ShaderAccessKind → Nat
  | .READ => 0
  | .WRITE => 1
  | .READ_WRITE => 2

/-- The shader-stage matrix read off the claim: the buffer access for a scope and a direction. -/
def specShaderBufferAccess : ShaderScope → ShaderAccessKind → TaskBufferAccess
  | .ANY, .READ => .SHADER_READ
  | .VERTEX, .READ => .VERTEX_SHADER_READ
  | .TESSELLATION_CONTROL, .READ => .TESSELLATION_CONTROL_SHADER_READ
  | .TESSELLATION_EVALUATION, .READ => .TESSELLATION_EVALUATION_SHADER_READ
  | .GEOMETRY, .READ => .GEOMETRY_SHADER_READ
  | .FRAGMENT, .READ => .FRAGMENT_SHADER_READ
  | .COMPUTE, .READ => .COMPUTE_SHADER_READ
  | .ANY, .WRITE => .SHADER_WRITE
  | .VERTEX, .WRITE => .VERTEX_SHADER_WRITE
  | .TESSELLATION_CONTROL, .WRITE => .TESSELLATION_CONTROL_SHADER_WRITE
  | .TESSELLATION_EVALUATION, .WRITE => .TESSELLATION_EVALUATION_SHADER_WRITE
  | .GEOMETRY, .WRITE => .GEOMETRY_SHADER_WRITE
  | .FRAGMENT, .WRITE => .FRAGMENT_SHADER_WRITE
  | .COMPUTE, .WRITE => .COMPUTE_SHADER_WRITE
  | .ANY, .READ_WRITE => .SHADER_READ_WRITE
  | .VERTEX, .READ_WRITE => .VERTEX_SHADER_READ_WRITE
  | .TESSELLATION_CONTROL, .READ_WRITE => .TESSELLATION_CONTROL_SHADER_READ_WRITE
  | .TESSELLATION_EVALUATION, .READ_WRITE => .TESSELLATION_EVALUATION_SHADER_READ_WRITE
  | .GEOMETRY, .READ_WRITE => .GEOMETRY_SHADER_READ_WRITE
  | .FRAGMENT, .READ_WRITE => .FRAGMENT_SHADER_READ_WRITE
  | .COMPUTE, .READ_WRITE => .COMPUTE_SHADER_READ_WRITE

/-- The shader-stage matrix read off the claim: the image access for a scope and a direction. -/
def specShaderImageAccess : ShaderScope → ShaderAccessKind → TaskImageAccess
  | .ANY, .READ => .SHADER_READ
  | .VERTEX, .READ => .VERTEX_SHADER_READ
  | .TESSELLATION_CONTROL, .READ => .TESSELLATION_CONTROL_SHADER_READ
  | .TESSELLATION_EVALUATION, .READ => .TESSELLATION_EVALUATION_SHADER_READ
  | .GEOMETRY, .READ => .GEOMETRY_SHADER_READ
  | .FRAGMENT, .READ => .FRAGMENT_SHADER_READ
  | .COMPUTE, .READ => .COMPUTE_SHADER_READ
  | .ANY, .WRITE => .SHADER_WRITE
  | .VERTEX, .WRITE => .VERTEX_SHADER_WRITE
  | .TESSELLATION_CONTROL, .WRITE => .TESSELLATION_CONTROL_SHADER_WRITE
  | .TESSELLATION_EVALUATION, .WRITE => .TESSELLATION_EVALUATION_SHADER_WRITE
  | .GEOMETRY, .WRITE => .GEOMETRY_SHADER_WRITE
  | .FRAGMENT, .WRITE => .FRAGMENT_SHADER_WRITE
  | .COMPUTE, .WRITE => .COMPUTE_SHADER_WRITE
  | .ANY, .READ_WRITE => .SHADER_READ_WRITE
  | .VERTEX, .READ_WRITE => .VERTEX_SHADER_READ_WRITE
  | .TESSELLATION_CONTROL, .READ_WRITE => .TESSELLATION_CONTROL_SHADER_READ_WRITE
  | .TESSELLATION_EVALUATION, .READ_WRITE => .TESSELLATION_EVALUATION_SHADER_READ_WRITE
  | .GEOMETRY, .READ_WRITE => .GEOMETRY_SHADER_READ_WRITE
  | .FRAGMENT, .READ_WRITE => .FRAGMENT_SHADER_READ_WRITE
  | .COMPUTE, .READ_WRITE => .COMPUTE_SHADER_READ_WRITE

/-- The six buffer accesses outside the shader-stage matrix, as the claim lists them. -/
def specOtherBufferAccesses : List TaskBufferAccess :=
  [.INDEX_READ, .DRAW_INDIRECT_INFO_READ, .TRANSFER_READ, .TRANSFER_WRITE,
   .HOST_TRANSFER_READ, .HOST_TRANSFER_WRITE]

/-- The eleven image accesses outside the shader-stage matrix, as the claim lists them. -/
def specOtherImageAccesses : List TaskImageAccess :=
  [.TRANSFER_READ, .TRANSFER_WRITE, .COLOR_ATTACHMENT, .DEPTH_ATTACHMENT,
   .STENCIL_ATTACHMENT, .DEPTH_STENCIL_ATTACHMENT, .DEPTH_ATTACHMENT_READ,
   .STENCIL_ATTACHMENT_READ, .DEPTH_STENCIL_ATTACHMENT_READ, .RESOLVE_WRITE, .PRESENT]


/-! ## Types of the device layer

`BufferId`, `ImageId`, `ImageViewId`, `ImageMipArraySlice`, `ImageViewType`,
`Access` and `ImageLayout` are declared in headers of daxa that are not among
the sources at hand; `task_list_types.hpp` only stores and copies values of
these types. -/

/-- Modelled from the spec: `BufferId` of the device layer (resource kinds of
section 6), an opaque handle; its declaration is not among the sources. -/
structure BufferId where
  value : Nat := 0
  deriving DecidableEq, Repr

/-- Modelled from the spec: `ImageId` of the device layer, an opaque handle. -/
structure ImageId where
  value : Nat := 0
  deriving DecidableEq, Repr

/-- Modelled from the spec: `ImageViewId` of the device layer, an opaque handle. -/
structure ImageViewId where
  value : Nat := 0
  deriving DecidableEq, Repr

/-- Modelled from the spec: `ImageMipArraySlice`, the ImageSlice of section 3
(base-mip, mip-count, base-array-layer, array-layer-count, aspect-mask). Its
declaration is not among the sources; the default member values are taken to be
one mip level and one array layer starting at zero in the colour aspect (bit
one). No theorem below depends on these numbers, only on there being one
value-initialised slice. -/
structure ImageMipArraySlice where
  image_aspect : Nat := 1
  base_mip_level : Nat := 0
  level_count : Nat := 1
  base_array_layer : Nat := 0
  layer_count : Nat := 1
  deriving DecidableEq, Repr

/-- Modelled from the spec: `ImageViewType` of the device layer. The only
enumerator the task list header names is the sentinel `MAX_ENUM`; the others
are the view types of the device API. -/
inductive ImageViewType where
  | REGULAR_1D
  | REGULAR_2D
  | REGULAR_3D
  | CUBE
  | REGULAR_1D_ARRAY
  | REGULAR_2D_ARRAY
  | CUBE_ARRAY
  | MAX_ENUM
  deriving DecidableEq, Repr

/-- Modelled from the spec: `Access` of the device layer, a pair of a
pipeline-stage mask and an access-flag mask (section 4.2); value-initialised
it holds two empty masks, which is what `none` maps to (section 3). -/
structure Access where
  stages : Nat := 0
  type : Nat := 0
  deriving DecidableEq, Repr

/-- Modelled from the spec: `ImageLayout` of the device layer, with the layouts
that the spec and the FSR2 sample name. `UNDEFINED` is the zero value: it is
the layout of the initial state `none` (section 3). -/
inductive ImageLayout where
  | UNDEFINED
  | GENERAL
  | TRANSFER_SRC_OPTIMAL
  | TRANSFER_DST_OPTIMAL
  | SHADER_READ_ONLY
  | COLOR_ATTACHMENT_OPTIMAL
  | DEPTH_STENCIL_ATTACHMENT_OPTIMAL
  | DEPTH_STENCIL_READ_ONLY
  | PRESENT_SRC
  deriving DecidableEq, Repr

instance : Inhabited BufferId := ⟨{}⟩

instance : Inhabited ImageId := ⟨{}⟩

instance : Inhabited ImageViewId := ⟨{}⟩

instance : Inhabited ImageMipArraySlice := ⟨{}⟩

instance : Inhabited Access := ⟨{}⟩

instance : Inhabited ImageLayout := ⟨ImageLayout.UNDEFINED⟩

/-- Modelled from the spec: `DAXA_DBG_ASSERT_TRUE_M(cond, msg)` of
`daxa/core.hpp`, a debug-build assertion (section 7): it lets the caller go on
when the condition holds and traps with the message otherwise. -/
def DAXA_DBG_ASSERT_TRUE_M (cond : Bool) (msg : String) : Except String Unit :=
  if cond then Except.ok () else Except.error msg

/-! ## Resource ids -/

/-- Struct `TaskGPUResourceId`: two `u32` members, both zero by default. -/
structure TaskGPUResourceId where
  task_list_index : Nat := 0
  index : Nat := 0
  deriving DecidableEq, Repr

/-- Struct `TaskBufferId`: derives publicly from `TaskGPUResourceId`, adds nothing. -/
structure TaskBufferId extends TaskGPUResourceId where
  deriving DecidableEq, Repr

/-- Struct `TaskImageId`: derives publicly from `TaskGPUResourceId`, adds nothing. -/
structure TaskImageId extends TaskGPUResourceId where
  deriving DecidableEq, Repr

instance : Inhabited TaskGPUResourceId := ⟨{}⟩

instance : Inhabited TaskBufferId := ⟨{}⟩

instance : Inhabited TaskImageId := ⟨{}⟩

/-- Three-way comparison of two `u32` members. -/
def u32_three_way (a b : Nat) : Ordering :=
  if a < b then Ordering.lt else if a = b then Ordering.eq else Ordering.gt

/-- The defaulted `operator<=>` of `TaskGPUResourceId`: the members are compared
in declaration order and the first one that differs decides. -/
def TaskGPUResourceId.three_way (a other : TaskGPUResourceId) : Ordering :=
  match u32_three_way a.task_list_index other.task_list_index with
  | Ordering.eq => u32_three_way a.index other.index
  | c => c

/-- The `operator==` that the defaulted `operator<=>` declares: memberwise equality. -/
def TaskGPUResourceId.equals (a other : TaskGPUResourceId) : Bool :=
  a.task_list_index == other.task_list_index && a.index == other.index

/-- Expression `a < b`, rewritten by the compiler to `(a <=> b) < 0`. -/
def TaskGPUResourceId.less (a other : TaskGPUResourceId) : Bool :=
  a.three_way other == Ordering.lt

/-- Expression `a > b`, rewritten by the compiler to `(a <=> b) > 0`. -/
def TaskGPUResourceId.greater (a other : TaskGPUResourceId) : Bool :=
  a.three_way other == Ordering.gt

/-- Comparison of two buffer ids: both convert to their base. -/
def TaskBufferId.equals (a other : TaskBufferId) : Bool :=
  a.toTaskGPUResourceId.equals other.toTaskGPUResourceId

/-- Comparison of two image ids: both convert to their base. -/
def TaskImageId.equals (a other : TaskImageId) : Bool :=
  a.toTaskGPUResourceId.equals other.toTaskGPUResourceId

/-- Lexicographic order on pairs read off the claim, first component first. -/
def specLexLess (a b : Nat × Nat) : Prop :=
  a.1 < b.1 ∨ (a.1 = b.1 ∧ a.2 < b.2)

/-! ## Use declarations -/

/-- Struct `TaskBufferUseInit`. -/
structure TaskBufferUseInit where
  id : TaskBufferId := {}
  access : TaskBufferAccess := TaskBufferAccess.NONE
  name : String := ""
  deriving DecidableEq, Repr

/-- Struct `TaskImageUseInit`. -/
structure TaskImageUseInit where
  id : TaskImageId := {}
  access : TaskImageAccess := TaskImageAccess.NONE
  slice : ImageMipArraySlice := {}
  view_type : ImageViewType := ImageViewType.MAX_ENUM
  name : String := ""
  deriving DecidableEq, Repr

/-- Struct `ImageSliceState`. -/
structure ImageSliceState where
  latest_access : Access := {}
  latest_layout : ImageLayout := ImageLayout.UNDEFINED
  slice : ImageMipArraySlice := {}
  deriving DecidableEq, Repr

/-- Enumeration `TaskResourceUseType`, stored in a `u32`. -/
inductive TaskResourceUseType where
  | NONE
  | BUFFER
  | IMAGE
  | CONSTANT
  deriving DecidableEq, Repr

/-- Value of an enumerator of `TaskResourceUseType`, as written in the source. -/
def TaskResourceUseType.toNat : TaskResourceUseType → Nat
  | .NONE => 0
  | .BUFFER => 1
  | .IMAGE => 2
  | .CONSTANT => 3

/-- Constant `TASK_INPUT_FIELD_SIZE`. -/
def TASK_INPUT_FIELD_SIZE : Nat := 128

/-- Struct `TaskBufferUse`. The private member `type` is `const` and always
`BUFFER`, so it is the function `TaskBufferUse.type` below and not a field;
`buffers` is the span of runtime buffers the task list attaches. -/
structure TaskBufferUse where
  buffers : List BufferId := []
  id : TaskBufferId := {}
  access : TaskBufferAccess := TaskBufferAccess.NONE
  deriving DecidableEq, Repr

/-- Struct `TaskImageUse`. The private member `type` is initialised to `IMAGE`
and nothing in the header assigns it, so it is the function
`TaskImageUse.type` below; `images` and `views` are the spans of runtime
images and views the task list attaches. -/
structure TaskImageUse where
  images : List ImageId := []
  views : List ImageViewId := []
  id : TaskImageId := {}
  access : TaskImageAccess := TaskImageAccess.NONE
  slice : ImageMipArraySlice := {}
  view_type : ImageViewType := ImageViewType.MAX_ENUM
  deriving DecidableEq, Repr

instance : Inhabited TaskBufferUse := ⟨{}⟩

instance : Inhabited TaskImageUse := ⟨{}⟩

/-- Member `type` of a `TaskBufferUse`. -/
def TaskBufferUse.type (_u : TaskBufferUse) : TaskResourceUseType :=
  TaskResourceUseType.BUFFER

/-- Member `type` of a `TaskImageUse`. -/
def TaskImageUse.type (_u : TaskImageUse) : TaskResourceUseType :=
  TaskResourceUseType.IMAGE

/-- Constructor `TaskBufferUse(TaskBufferUseInit const &)`: copies `id` and
`access`; the other members keep their default initialisers. -/
def TaskBufferUse.ofInit (init : TaskBufferUseInit) : TaskBufferUse :=
  { id := init.id, access := init.access }

/-- Constructor `TaskImageUse(TaskImageUseInit const &)`: copies `id`, `access`,
`slice` and `view_type`; the other members keep their default initialisers. -/
def TaskImageUse.ofInit (init : TaskImageUseInit) : TaskImageUse :=
  { id := init.id, access := init.access, slice := init.slice, view_type := init.view_type }

/-- Struct `GenericTaskResourceUse`: one 128-byte field that starts with the
tag. The bytes after the tag are the object that lives in the field: a
`TaskBufferUse` under the tag `BUFFER`, a `TaskImageUse` under the tag `IMAGE`,
and unused bytes under `NONE` and `CONSTANT`. -/
inductive GenericTaskResourceUse where
  | none
  | buffer (use : TaskBufferUse)
  | image (use : TaskImageUse)
  | constant
  deriving DecidableEq, Repr

/-- A default-constructed generic use has the tag `NONE`. -/
instance : Inhabited GenericTaskResourceUse := ⟨GenericTaskResourceUse.none⟩

/-- Member `type` of a `GenericTaskResourceUse`. -/
def GenericTaskResourceUse.type : GenericTaskResourceUse → TaskResourceUseType
  | .none => TaskResourceUseType.NONE
  | .buffer u => u.type
  | .image u => u.type
  | .constant => TaskResourceUseType.CONSTANT

/-- The `reinterpret_cast` to `TaskBufferUse`: the object in the field when it
is a buffer use; for any other field the bytes are not a buffer use and the
value-initialised use stands for them. -/
def GenericTaskResourceUse.asBufferUse : GenericTaskResourceUse → TaskBufferUse
  | .buffer u => u
  | _ => {}

/-- The `reinterpret_cast` to `TaskImageUse`, as `asBufferUse`. -/
def GenericTaskResourceUse.asImageUse : GenericTaskResourceUse → TaskImageUse
  | .image u => u
  | _ => {}

/-- Function `TaskBufferUse::from` (both overloads have the same body). -/
def TaskBufferUse.from (input : GenericTaskResourceUse) : Except String TaskBufferUse := do
  DAXA_DBG_ASSERT_TRUE_M (input.type == TaskResourceUseType.BUFFER) "invalid TaskResourceUse cast"
  return input.asBufferUse

/-- Function `TaskImageUse::from` (both overloads have the same body). -/
def TaskImageUse.from (input : GenericTaskResourceUse) : Except String TaskImageUse := do
  DAXA_DBG_ASSERT_TRUE_M (input.type == TaskResourceUseType.IMAGE) "invalid TaskResourceUse cast"
  return input.asImageUse

/-- Function `TaskBufferUse::to_generic`: the same field seen as a generic use. -/
def TaskBufferUse.to_generic (u : TaskBufferUse) : GenericTaskResourceUse :=
  GenericTaskResourceUse.buffer u

/-- Function `TaskImageUse::to_generic`: the same field seen as a generic use. -/
def TaskImageUse.to_generic (u : TaskImageUse) : GenericTaskResourceUse :=
  GenericTaskResourceUse.image u

/-- Function `TaskBufferUse::buffer`. The outer result is the assertion; the
inner one is the element read from the span, `none` when `index` lies outside
the span (a read the C++ code does not guard). -/
def TaskBufferUse.buffer (u : TaskBufferUse) (index : Nat := 0) : Except String (Option BufferId) := do
  DAXA_DBG_ASSERT_TRUE_M (decide (u.buffers.length > 0))
    "this function is only allowed to be called within a task callback"
  return u.buffers[index]?

/-- Function `TaskImageUse::image`, read as `TaskBufferUse.buffer`. -/
def TaskImageUse.image (u : TaskImageUse) (index : Nat := 0) : Except String (Option ImageId) := do
  DAXA_DBG_ASSERT_TRUE_M (decide (u.images.length > 0))
    "this function is only allowed to be called within a task callback"
  return u.images[index]?

/-- Function `TaskImageUse::view`, read as `TaskBufferUse.buffer`. -/
def TaskImageUse.view (u : TaskImageUse) (index : Nat := 0) : Except String (Option ImageViewId) := do
  DAXA_DBG_ASSERT_TRUE_M (decide (u.views.length > 0))
    "this function is only allowed to be called within a task callback"
  return u.views[index]?

/-- Whether a result is a tripped assertion. -/
def tripped {α : Type} : Except String α → Bool
  | Except.error _ => true
  | Except.ok _ => false

/-! ## The container of generic uses -/

/-- A `std::span<GenericTaskResourceUse>`: the fields the data pointer points
at and the element count, which the span stores by itself. -/
structure UseSpan where
  data : List GenericTaskResourceUse := []
  size : Nat := 0
  deriving DecidableEq, Repr

/-- Struct `GenericTaskArgsContainer`. `memory` is the byte vector seen as the
sequence of 128-byte fields it holds; `count` is a separate `usize` member. -/
structure GenericTaskArgsContainer where
  memory : List GenericTaskResourceUse := []
  count : Nat := 0
  deriving DecidableEq, Repr

/-- Function `GenericTaskArgsContainer::span` (both overloads): the start of the
memory together with `count`. -/
def GenericTaskArgsContainer.span (c : GenericTaskArgsContainer) : UseSpan :=
  { data := c.memory, size := c.count }

/-- One callback invocation made by `for_each`. -/
inductive TaskUseCall where
  | buf_fn (index : Nat) (arg : TaskBufferUse)
  | img_fn (index : Nat) (arg : TaskImageUse)
  deriving DecidableEq, Repr

/-- Index a callback invocation was given. -/
def TaskUseCall.index : TaskUseCall → Nat
  | .buf_fn i _ => i
  | .img_fn i _ => i

/-- How a run of `for_each` stands after a number of loop steps, with the
callback invocations made so far in the order they were made. -/
inductive ForEachRun where
  | finished (calls : List TaskUseCall)
  | faulted (calls : List TaskUseCall) (msg : String)
  | running (calls : List TaskUseCall)
  deriving DecidableEq, Repr

/-- The loop of `for_each`: `for (u32 index = 0; index < s.size(); ++index)`.
`index` is a `u32`, so `++index` is taken modulo `2 ^ 32`, while `s.size()` is
a `usize`. `fuel` bounds the number of loop tests that are run. A read of
`s[index]` outside the memory of the container is a fault. -/
def for_each_loop (s : UseSpan) : Nat → Nat → List TaskUseCall → ForEachRun
  | 0, _, calls => ForEachRun.running calls
  | fuel + 1, index, calls =>
    if index < s.size then
      match s.data[index]? with
      | Option.none => ForEachRun.faulted calls "read outside of the container memory"
      | some use =>
        match use.type with
        | TaskResourceUseType.BUFFER =>
          match TaskBufferUse.from use with
          | Except.ok arg =>
            for_each_loop s fuel ((index + 1) % 2 ^ 32) (calls ++ [TaskUseCall.buf_fn index arg])
          | Except.error msg => ForEachRun.faulted calls msg
        | TaskResourceUseType.IMAGE =>
          match TaskImageUse.from use with
          | Except.ok arg =>
            for_each_loop s fuel ((index + 1) % 2 ^ 32) (calls ++ [TaskUseCall.img_fn index arg])
          | Except.error msg => ForEachRun.faulted calls msg
        | _ => for_each_loop s fuel ((index + 1) % 2 ^ 32) calls
    else ForEachRun.finished calls

/-- Function `GenericTaskArgsContainer::for_each`, non-const overload: the
callbacks are recorded as the sequence of invocations they receive. -/
def GenericTaskArgsContainer.for_each (c : GenericTaskArgsContainer) (fuel : Nat) : ForEachRun :=
  for_each_loop c.span fuel 0 []

/-- What the claim says `for_each` does with the use at one position. -/
def specCallAt (index : Nat) : GenericTaskResourceUse → List TaskUseCall
  | .buffer u => [TaskUseCall.buf_fn index u]
  | .image u => [TaskUseCall.img_fn index u]
  | .none => []
  | .constant => []

/-- What the claim says `for_each` does with the uses from position `start` on. -/
def specCallsFrom : Nat → List GenericTaskResourceUse → List TaskUseCall
  | _, [] => []
  | start, u :: rest => specCallAt start u ++ specCallsFrom (start + 1) rest

/-- The invocations the claim describes for a container: positions in
ascending order, one invocation for each use tagged `BUFFER` or `IMAGE`. -/
def specForEachCalls (c : GenericTaskArgsContainer) : List TaskUseCall :=
  specCallsFrom 0 c.memory

/-- Whether a use is tagged `BUFFER` or `IMAGE`. -/
def GenericTaskResourceUse.isResource (u : GenericTaskResourceUse) : Bool :=
  u.type == TaskResourceUseType.BUFFER || u.type == TaskResourceUseType.IMAGE

/-- A container of `2 ^ 32` buffer uses. -/
def hugeContainer : GenericTaskArgsContainer :=
  { memory := List.replicate 4294967296 (GenericTaskResourceUse.buffer {}), count := 4294967296 }

/-- A container of four uses, one for each tag. -/
def sampleContainer : GenericTaskArgsContainer :=
  { memory := [GenericTaskResourceUse.constant,
               GenericTaskResourceUse.buffer { access := TaskBufferAccess.COMPUTE_SHADER_READ },
               GenericTaskResourceUse.none,
               GenericTaskResourceUse.image { access := TaskImageAccess.COMPUTE_SHADER_READ_WRITE }],
    count := 4 }

/-! ## The task list: registry, builder, compiler, executor

`task_list.cpp`, which implements the task list, is not among the sources; only
the calls of the FSR2 sample are. What follows is the task list as sections 3
to 6 of the specification describe it. Concrete GPU handles, fetch callbacks,
task callbacks and the barrier records of a plan are outside this model; it
keeps the registry, the declared tasks, the batches of the plan, the state
machine and the tracked state of each resource. -/

/-- Modelled from the spec: `is_read` of the Access Classifier (section 4.2) on a
decoded access, whose access-flag mask has READ as bit 0 and WRITE as bit 1, so
that a read-write access counts as both. -/
def Access.is_read (a : Access) : Bool :=
  a.type.testBit 0

/-- Modelled from the spec: `is_write` of the Access Classifier (section 4.2). -/
def Access.is_write (a : Access) : Bool :=
  a.type.testBit 1

/-- Modelled from the spec: `is_compatible(a, b)` of section 4.2, true iff both are reads. -/
def Access.is_compatible (a b : Access) : Bool :=
  a.is_read && b.is_read

/-- Modelled from the spec: the two decoding functions of the Access Classifier
(section 4.2). Their tables are part of `task_list.cpp`; every definition and
theorem about the task list takes the classifier as a parameter. -/
structure AccessClassifier where
  buffer_access_to_stage_access : TaskBufferAccess → Access
  image_access_to_stage_access_layout : TaskImageAccess → Access × ImageLayout

/-- One sub-resource of an image: a mip level, an array layer and one aspect
(the position of its bit in an aspect mask). -/
structure SubResource where
  mip : Nat
  layer : Nat
  aspect : Nat
  deriving DecidableEq, Repr

/-- Whether a slice covers a sub-resource. -/
def ImageMipArraySlice.covers (s : ImageMipArraySlice) (r : SubResource) : Bool :=
  decide (s.base_mip_level ≤ r.mip) && decide (r.mip < s.base_mip_level + s.level_count) &&
  decide (s.base_array_layer ≤ r.layer) && decide (r.layer < s.base_array_layer + s.layer_count) &&
  s.image_aspect.testBit r.aspect

/-- The sub-resources a slice covers, for the 32 bits of an aspect mask. -/
def ImageMipArraySlice.subresources (s : ImageMipArraySlice) : List SubResource :=
  ((List.range 32).filter (fun b => s.image_aspect.testBit b)).flatMap (fun a =>
    (List.range' s.base_mip_level s.level_count).flatMap (fun m =>
      (List.range' s.base_array_layer s.layer_count).map (fun l =>
        { mip := m, layer := l, aspect := a })))

/-- Modelled from the spec: `contains` of the slice algebra (section 3): the
mip range, the layer range and the aspects of `inner` lie within `outer`. -/
def ImageMipArraySlice.contains (outer inner : ImageMipArraySlice) : Bool :=
  decide (outer.base_mip_level ≤ inner.base_mip_level) &&
  decide (inner.base_mip_level + inner.level_count ≤ outer.base_mip_level + outer.level_count) &&
  decide (outer.base_array_layer ≤ inner.base_array_layer) &&
  decide (inner.base_array_layer + inner.layer_count
    ≤ outer.base_array_layer + outer.layer_count) &&
  decide (inner.image_aspect &&& outer.image_aspect = inner.image_aspect)

/-- Modelled from the spec: the test whether the `intersect` of two slices
(section 3) is non-empty: the mip ranges overlap, the layer ranges overlap and
the aspect masks share a bit. -/
def ImageMipArraySlice.intersects (a b : ImageMipArraySlice) : Bool :=
  decide (max a.base_mip_level b.base_mip_level
    < min (a.base_mip_level + a.level_count) (b.base_mip_level + b.level_count)) &&
  decide (max a.base_array_layer b.base_array_layer
    < min (a.base_array_layer + a.layer_count) (b.base_array_layer + b.layer_count)) &&
  decide (a.image_aspect &&& b.image_aspect ≠ 0)

/-- Modelled from the spec: one buffer entry of `TaskInfo.resources.buffers`
(section 6), a pair of an id and an access. -/
structure TaskBufferUseInfo where
  id : TaskBufferId := {}
  access : TaskBufferAccess := TaskBufferAccess.NONE
  deriving DecidableEq, Repr

/-- Modelled from the spec: one image entry of `TaskInfo.resources.images`
(section 6): an id, an access, an optional slice and an optional view type. -/
structure TaskImageUseInfo where
  id : TaskImageId := {}
  access : TaskImageAccess := TaskImageAccess.NONE
  slice : Option ImageMipArraySlice := Option.none
  view_type : Option ImageViewType := Option.none
  deriving DecidableEq, Repr

/-- Modelled from the spec: the member `resources` of `TaskInfo` (section 6). -/
structure TaskResources where
  buffers : List TaskBufferUseInfo := []
  images : List TaskImageUseInfo := []
  deriving DecidableEq, Repr

/-- Modelled from the spec: `TaskInfo` (section 6). The callback of a task is
not modelled; the executor records that it was invoked. -/
structure TaskInfo where
  resources : TaskResources := {}
  debug_name : String := ""
  deriving DecidableEq, Repr

/-- Modelled from the spec: `TaskBufferInfo` (section 4.1). `persistent` tells
a resource registered with a fixed handle from one registered with a fetch
callback (glossary: persistent and transient resource). -/
structure TaskBufferInfo where
  persistent : Bool := false
  debug_name : String := ""
  deriving DecidableEq, Repr

/-- Modelled from the spec: `TaskImageInfo` (section 4.1); `slice` is the
default slice of the image, which is also its declared extent. -/
structure TaskImageInfo where
  persistent : Bool := false
  slice : ImageMipArraySlice := {}
  debug_name : String := ""
  deriving DecidableEq, Repr

/-- Modelled from the spec: the states of a task list (section 6). -/
inductive TaskListState where
  | Building
  | Compiled
  | Executing
  deriving DecidableEq, Repr

/-- Modelled from the spec: the task list. `buffer_access` is the BufferState
of each task buffer (by local index); `image_state` gives, for each task image
and each of its sub-resources, the latest access and latest layout of the
slice state that covers the sub-resource (sections 3 and 4.3). `plan` holds
the batches of the compiled plan. -/
structure TaskList where
  task_list_index : Nat := 0
  debug_name : String := ""
  state : TaskListState := TaskListState.Building
  buffers : List TaskBufferInfo := []
  images : List TaskImageInfo := []
  tasks : List TaskInfo := []
  plan : List (List TaskInfo) := []
  buffer_access : Nat → Access := fun _ => {}
  image_state : Nat → SubResource → Access × ImageLayout := fun _ _ => ({}, ImageLayout.UNDEFINED)

/-- Modelled from the spec: `TaskList::new` (section 6); `task_list_index` is
the graph index that the ids of this task list carry. -/
def TaskList.new (task_list_index : Nat) (debug_name : String) : TaskList :=
  { task_list_index := task_list_index, debug_name := debug_name }

/-- Modelled from the spec: `create_task_buffer` (section 4.1): registers the
buffer and returns its id; fails when called after `compile()`. -/
def TaskList.create_task_buffer (tl : TaskList) (info : TaskBufferInfo) :
    Except String (TaskList × TaskBufferId) :=
  if tl.state = TaskListState.Building then
    Except.ok ({ tl with buffers := tl.buffers ++ [info] },
      { task_list_index := tl.task_list_index, index := tl.buffers.length })
  else Except.error "create_task_buffer: the task list is already compiled"

/-- Modelled from the spec: `create_task_image` (section 4.1). -/
def TaskList.create_task_image (tl : TaskList) (info : TaskImageInfo) :
    Except String (TaskList × TaskImageId) :=
  if tl.state = TaskListState.Building then
    Except.ok ({ tl with images := tl.images ++ [info] },
      { task_list_index := tl.task_list_index, index := tl.images.length })
  else Except.error "create_task_image: the task list is already compiled"

/-- Whether a buffer id exists in the registry of the task list. -/
def TaskList.has_buffer (tl : TaskList) (id : TaskBufferId) : Bool :=
  decide (id.task_list_index = tl.task_list_index) && decide (id.index < tl.buffers.length)

/-- Whether an image id exists in the registry of the task list. -/
def TaskList.has_image (tl : TaskList) (id : TaskImageId) : Bool :=
  decide (id.task_list_index = tl.task_list_index) && decide (id.index < tl.images.length)

/-- The declared extent (default slice) of a task image. -/
def TaskList.image_slice (tl : TaskList) (id : TaskImageId) : ImageMipArraySlice :=
  match tl.images[id.index]? with
  | some info => info.slice
  | Option.none => {}

/-- The slice an image use refers to: its own one, or else the default slice of the image. -/
def TaskList.use_slice (tl : TaskList) (u : TaskImageUseInfo) : ImageMipArraySlice :=
  match u.slice with
  | some s => s
  | Option.none => tl.image_slice u.id

/-- Modelled from the spec: the conflict test of the compiler (section 4.5,
step 3) between two accesses of one resource: one of them is a write and the
other one reads or writes. -/
def Access.conflicts (current u : Access) : Bool :=
  (current.is_write && (u.is_read || u.is_write)) ||
  (u.is_write && (current.is_read || current.is_write))

/-- Whether two buffer uses conflict: same buffer and conflicting accesses. -/
def buffer_uses_conflict (k : AccessClassifier) (v u : TaskBufferUseInfo) : Bool :=
  decide (v.id = u.id) &&
  (k.buffer_access_to_stage_access v.access).conflicts (k.buffer_access_to_stage_access u.access)

/-- Whether two image uses conflict: same image, intersecting slices, and
either conflicting accesses or different required layouts (section 4.5, step 3). -/
def TaskList.image_uses_conflict (tl : TaskList) (k : AccessClassifier)
    (v u : TaskImageUseInfo) : Bool :=
  decide (v.id = u.id) && (tl.use_slice v).intersects (tl.use_slice u) &&
  (((k.image_access_to_stage_access_layout v.access).1.conflicts
      (k.image_access_to_stage_access_layout u.access).1) ||
   decide ((k.image_access_to_stage_access_layout v.access).2
      ≠ (k.image_access_to_stage_access_layout u.access).2))

/-- Whether a task conflicts with a task already placed in the current batch. -/
def TaskList.tasks_conflict (tl : TaskList) (k : AccessClassifier) (placed t : TaskInfo) : Bool :=
  placed.resources.buffers.any (fun v => t.resources.buffers.any (fun u =>
    buffer_uses_conflict k v u)) ||
  placed.resources.images.any (fun v => t.resources.images.any (fun u =>
    tl.image_uses_conflict k v u))

/-- All pairs of an earlier and a later element of a list. -/
def orderedPairs {α : Type} : List α → List (α × α)
  | [] => []
  | x :: rest => rest.map (fun y => (x, y)) ++ orderedPairs rest

/-- Modelled from the spec: the add-time validation of section 4.4. All
referenced ids exist in the registry; within the task no resource is used twice
with incompatible accesses (two uses of overlapping slices of an image with
the identical access are allowed, section 8); every referenced image slice
fits within the declared extent of its image. -/
def TaskList.validate_task (tl : TaskList) (k : AccessClassifier) (t : TaskInfo) :
    Except String Unit :=
  if ¬ (t.resources.buffers.all (fun u => tl.has_buffer u.id) &&
        t.resources.images.all (fun u => tl.has_image u.id)) then
    Except.error "unknown resource"
  else if (orderedPairs t.resources.buffers).any (fun p =>
        decide (p.1.id = p.2.id) &&
        ! (k.buffer_access_to_stage_access p.1.access).is_compatible
            (k.buffer_access_to_stage_access p.2.access)) ||
      (orderedPairs t.resources.images).any (fun p =>
        decide (p.1.id = p.2.id) && (tl.use_slice p.1).intersects (tl.use_slice p.2) &&
        decide (p.1.access ≠ p.2.access) &&
        ! (k.image_access_to_stage_access_layout p.1.access).1.is_compatible
            (k.image_access_to_stage_access_layout p.2.access).1) then
    Except.error "self-conflict"
  else if ¬ t.resources.images.all (fun u => (tl.image_slice u.id).contains (tl.use_slice u)) then
    Except.error "slice out of range"
  else Except.ok ()

/-- The validation of every task of a list, stopping at the first error. -/
def TaskList.validate_tasks (tl : TaskList) (k : AccessClassifier) :
    List TaskInfo → Except String Unit
  | [] => Except.ok ()
  | t :: rest =>
    match tl.validate_task k t with
    | Except.ok _ => tl.validate_tasks k rest
    | Except.error e => Except.error e

/-- Modelled from the spec: `add_task` (section 4.4): validates the task and
appends it to the ordered task list; fails after `compile()`; a failed call
leaves the task list as it was. -/
def TaskList.add_task (tl : TaskList) (k : AccessClassifier) (t : TaskInfo) :
    Except String TaskList :=
  if tl.state = TaskListState.Building then
    match tl.validate_task k t with
    | Except.ok _ => Except.ok { tl with tasks := tl.tasks ++ [t] }
    | Except.error e => Except.error e
  else Except.error "add_task: the task list is already compiled"

/-- Modelled from the spec: the batching of the compiler (section 4.5, steps 4
and 7). `done` are the closed batches and `current` is the open one; a task
that conflicts with a task of the open batch closes it and opens a new one. -/
def TaskList.place_task (tl : TaskList) (k : AccessClassifier)
    (acc : List (List TaskInfo) × List TaskInfo) (t : TaskInfo) :
    List (List TaskInfo) × List TaskInfo :=
  if acc.2.any (fun placed => tl.tasks_conflict k placed t) then (acc.1 ++ [acc.2], [t])
  else (acc.1, acc.2 ++ [t])

/-- The batches for a list of tasks, walked in declaration order. -/
def TaskList.compile_batches (tl : TaskList) (k : AccessClassifier) (tasks : List TaskInfo) :
    List (List TaskInfo) :=
  let acc := tasks.foldl (tl.place_task k) ([], [])
  if acc.2.isEmpty then acc.1 else acc.1 ++ [acc.2]

/-- Modelled from the spec: `compile()` (sections 4.4 and 4.5): reports the
fatal compilation errors, else freezes the builder and stores the plan; on an
error the task list stays in the Building state. -/
def TaskList.compile (tl : TaskList) (k : AccessClassifier) : Except String TaskList :=
  if tl.state = TaskListState.Building then
    match tl.validate_tasks k tl.tasks with
    | Except.ok _ =>
      Except.ok { tl with state := TaskListState.Compiled, plan := tl.compile_batches k tl.tasks }
    | Except.error e => Except.error e
  else Except.error "compile: the task list is already compiled"

/-- Modelled from the spec: the update of a BufferState by a use (section 4.5,
step 6): the latest access becomes the access of the use. -/
def track_buffer_use (k : AccessClassifier) (st : Nat → Access) (u : TaskBufferUseInfo) :
    Nat → Access :=
  fun i => if i = u.id.index then k.buffer_access_to_stage_access u.access else st i

/-- Modelled from the spec: the update of an ImageState by the Slice Tracker
(section 4.3, step 4): the part of the image that the new slice covers gets the
new access and the new layout, the rest keeps its state. -/
def TaskList.track_image_use (tl : TaskList) (k : AccessClassifier)
    (st : Nat → SubResource → Access × ImageLayout) (u : TaskImageUseInfo) :
    Nat → SubResource → Access × ImageLayout :=
  fun i r =>
    if i = u.id.index ∧ (tl.use_slice u).covers r = true then
      k.image_access_to_stage_access_layout u.access
    else st i r

/-- The buffer uses of a list of tasks, in declaration order. -/
def buffer_uses (tasks : List TaskInfo) : List TaskBufferUseInfo :=
  tasks.flatMap (fun t => t.resources.buffers)

/-- The image uses of a list of tasks, in declaration order. -/
def image_uses (tasks : List TaskInfo) : List TaskImageUseInfo :=
  tasks.flatMap (fun t => t.resources.images)

/-- Modelled from the spec: the state a buffer has when an execute starts
(section 3, lifecycles): a persistent resource keeps its last access, a
transient one starts from `none`. -/
def TaskList.initial_buffer_access (tl : TaskList) : Nat → Access :=
  fun i =>
    match tl.buffers[i]? with
    | some info => if info.persistent then tl.buffer_access i else {}
    | Option.none => {}

/-- Modelled from the spec: the state an image has when an execute starts. -/
def TaskList.initial_image_state (tl : TaskList) : Nat → SubResource → Access × ImageLayout :=
  fun i r =>
    match tl.images[i]? with
    | some info => if info.persistent then tl.image_state i r else ({}, ImageLayout.UNDEFINED)
    | Option.none => ({}, ImageLayout.UNDEFINED)

/-- Modelled from the spec: `execute()` (section 4.6): valid in the Compiled
state; walks the batches of the plan in order, tracks the state of every
resource through the uses of each task, and returns, with the task list back
in the Compiled state, the command lists, here one list for each batch with
the names of the tasks whose callbacks were recorded. -/
def TaskList.execute (tl : TaskList) (k : AccessClassifier) :
    Except String (TaskList × List (List String)) :=
  if tl.state = TaskListState.Compiled then
    let executing : TaskList := { tl with state := TaskListState.Executing }
    let walked := tl.plan.flatten
    Except.ok
      ({ executing with
          state := TaskListState.Compiled,
          buffer_access := (buffer_uses walked).foldl (track_buffer_use k) tl.initial_buffer_access,
          image_state := (image_uses walked).foldl (tl.track_image_use k) tl.initial_image_state },
       tl.plan.map (fun batch => batch.map (fun t => t.debug_name)))
  else Except.error "execute: the task list is not compiled"

/-- The common value of a non-empty list whose elements are all equal. -/
def uniform_value {α : Type} [DecidableEq α] : List α → Option α
  | [] => Option.none
  | x :: rest => if rest.all (fun y => decide (y = x)) then some x else Option.none

/-- Modelled from the spec: `last_access(id)` for a task buffer (sections 4.1
and 6): valid only in the Compiled state. -/
def TaskList.last_access (tl : TaskList) (id : TaskBufferId) : Except String Access :=
  if tl.state ≠ TaskListState.Compiled then Except.error "last_access: the task list is not compiled"
  else if ¬ tl.has_buffer id = true then Except.error "unknown resource"
  else Except.ok (tl.buffer_access id.index)

/-- Modelled from the spec: `last_access(id)` for a task image: the latest
access of the queried slice, by default the default slice of the image; the
call fails when the slice is empty or not in one state. -/
def TaskList.last_access_image (tl : TaskList) (id : TaskImageId)
    (slice : Option ImageMipArraySlice := Option.none) : Except String Access :=
  if tl.state ≠ TaskListState.Compiled then Except.error "last_access: the task list is not compiled"
  else if ¬ tl.has_image id = true then Except.error "unknown resource"
  else
    match uniform_value (((slice.getD (tl.image_slice id)).subresources).map
        (fun r => (tl.image_state id.index r).1)) with
    | some a => Except.ok a
    | Option.none => Except.error "last_access: the slice has no single state"

/-- Modelled from the spec: `last_layout(id, slice)` (section 4.1), with the
slice left out as in section 6 meaning the default slice of the image. -/
def TaskList.last_layout (tl : TaskList) (id : TaskImageId)
    (slice : Option ImageMipArraySlice := Option.none) : Except String ImageLayout :=
  if tl.state ≠ TaskListState.Compiled then Except.error "last_layout: the task list is not compiled"
  else if ¬ tl.has_image id = true then Except.error "unknown resource"
  else
    match uniform_value (((slice.getD (tl.image_slice id)).subresources).map
        (fun r => (tl.image_state id.index r).2)) with
    | some l => Except.ok l
    | Option.none => Except.error "last_layout: the slice has no single state"

/-! ## The FSR2 sample

`tests/3_samples/7_FSR2/main.cpp`, functions `App::record_loop_task_list` and
`App::draw`. The sample spells three accesses `VERTEX_SHADER_READ_ONLY`,
`SHADER_READ_ONLY` and `SHADER_WRITE_ONLY`; they are read here as the
enumerators `VERTEX_SHADER_READ`, `SHADER_READ` and `SHADER_WRITE`. -/

/-- Modelled from the spec: aspect bit COLOR of the device layer. -/
def ImageAspectFlagBits.COLOR : Nat := 1

/-- Modelled from the spec: aspect bit DEPTH of the device layer. -/
def ImageAspectFlagBits.DEPTH : Nat := 2

/-- The task resource ids that `App` keeps as members. -/
structure AppTaskIds where
  task_swapchain_image : TaskImageId := {}
  task_color_image : TaskImageId := {}
  task_display_image : TaskImageId := {}
  task_motion_vectors_image : TaskImageId := {}
  task_depth_image : TaskImageId := {}
  task_raster_input_buffer : TaskBufferId := {}
  task_staging_raster_input_buffer : TaskBufferId := {}
  deriving DecidableEq, Repr

/-- Function `App::record_loop_task_list` up to, and without, its last call `compile()`. -/
def record_loop_tasks (k : AccessClassifier) : Except String (TaskList × AppTaskIds) := do
  let new_task_list := TaskList.new 0 "task_list"
  let (new_task_list, task_swapchain_image) ←
    new_task_list.create_task_image { debug_name := "task_swapchain_image" }
  let (new_task_list, task_color_image) ←
    new_task_list.create_task_image { debug_name := "task_color_image" }
  let (new_task_list, task_display_image) ←
    new_task_list.create_task_image { debug_name := "task_display_image" }
  let (new_task_list, task_motion_vectors_image) ←
    new_task_list.create_task_image { debug_name := "task_motion_vectors_image" }
  let (new_task_list, task_depth_image) ←
    new_task_list.create_task_image
      { slice := { image_aspect := ImageAspectFlagBits.DEPTH }, debug_name := "task_depth_image" }
  let (new_task_list, task_raster_input_buffer) ←
    new_task_list.create_task_buffer { debug_name := "task_raster_input_buffer" }
  let (new_task_list, task_staging_raster_input_buffer) ←
    new_task_list.create_task_buffer { debug_name := "task_staging_raster_input_buffer" }
  let new_task_list ← new_task_list.add_task k
    { resources := { buffers := [
        { id := task_staging_raster_input_buffer, access := TaskBufferAccess.HOST_TRANSFER_WRITE }] },
      debug_name := "Input MemMap" }
  let new_task_list ← new_task_list.add_task k
    { resources := { buffers := [
        { id := task_raster_input_buffer, access := TaskBufferAccess.TRANSFER_WRITE },
        { id := task_staging_raster_input_buffer, access := TaskBufferAccess.TRANSFER_READ }] },
      debug_name := "Input Transfer" }
  let new_task_list ← new_task_list.add_task k
    { resources := {
        buffers := [
          { id := task_raster_input_buffer, access := TaskBufferAccess.VERTEX_SHADER_READ }],
        images := [
          { id := task_color_image, access := TaskImageAccess.COLOR_ATTACHMENT },
          { id := task_motion_vectors_image, access := TaskImageAccess.COLOR_ATTACHMENT },
          { id := task_depth_image, access := TaskImageAccess.DEPTH_ATTACHMENT }] },
      debug_name := "Draw Task" }
  let new_task_list ← new_task_list.add_task k
    { resources := { images := [
        { id := task_color_image, access := TaskImageAccess.TRANSFER_READ },
        { id := task_display_image, access := TaskImageAccess.TRANSFER_WRITE }] },
      debug_name := "Blit Task (render to display)" }
  let new_task_list ← new_task_list.add_task k
    { resources := { images := [
        { id := task_color_image, access := TaskImageAccess.SHADER_READ },
        { id := task_motion_vectors_image, access := TaskImageAccess.SHADER_READ },
        { id := task_depth_image, access := TaskImageAccess.SHADER_READ },
        { id := task_display_image, access := TaskImageAccess.SHADER_WRITE }] },
      debug_name := "Upscale Task" }
  let new_task_list ← new_task_list.add_task k
    { resources := { images := [
        { id := task_display_image, access := TaskImageAccess.TRANSFER_READ },
        { id := task_swapchain_image, access := TaskImageAccess.TRANSFER_WRITE }] },
      debug_name := "Blit Task (display to swapchain)" }
  let new_task_list ← new_task_list.add_task k
    { resources := { images := [
        { id := task_swapchain_image, access := TaskImageAccess.COLOR_ATTACHMENT }] },
      debug_name := "ImGui Task" }
  return (new_task_list,
    { task_swapchain_image := task_swapchain_image,
      task_color_image := task_color_image,
      task_display_image := task_display_image,
      task_motion_vectors_image := task_motion_vectors_image,
      task_depth_image := task_depth_image,
      task_raster_input_buffer := task_raster_input_buffer,
      task_staging_raster_input_buffer := task_staging_raster_input_buffer })

/-- Function `App::record_loop_task_list`. -/
def record_loop_task_list (k : AccessClassifier) : Except String (TaskList × AppTaskIds) := do
  let (new_task_list, ids) ← record_loop_tasks k
  let new_task_list ← new_task_list.compile k
  return (new_task_list, ids)

/-- The task list of the sample as it stands before `compile()`. -/
def fsr2_tasks_recorded : TaskList :=
  { task_list_index := 0,
    debug_name := "task_list",
    images := [
      { debug_name := "task_swapchain_image" },
      { debug_name := "task_color_image" },
      { debug_name := "task_display_image" },
      { debug_name := "task_motion_vectors_image" },
      { slice := { image_aspect := 2 }, debug_name := "task_depth_image" }],
    buffers := [
      { debug_name := "task_raster_input_buffer" },
      { debug_name := "task_staging_raster_input_buffer" }],
    tasks := [
      { resources := { buffers := [
          { id := { index := 1 }, access := TaskBufferAccess.HOST_TRANSFER_WRITE }] },
        debug_name := "Input MemMap" },
      { resources := { buffers := [
          { id := { index := 0 }, access := TaskBufferAccess.TRANSFER_WRITE },
          { id := { index := 1 }, access := TaskBufferAccess.TRANSFER_READ }] },
        debug_name := "Input Transfer" },
      { resources := {
          buffers := [{ id := { index := 0 }, access := TaskBufferAccess.VERTEX_SHADER_READ }],
          images := [
            { id := { index := 1 }, access := TaskImageAccess.COLOR_ATTACHMENT },
            { id := { index := 3 }, access := TaskImageAccess.COLOR_ATTACHMENT },
            { id := { index := 4 }, access := TaskImageAccess.DEPTH_ATTACHMENT }] },
        debug_name := "Draw Task" },
      { resources := { images := [
          { id := { index := 1 }, access := TaskImageAccess.TRANSFER_READ },
          { id := { index := 2 }, access := TaskImageAccess.TRANSFER_WRITE }] },
        debug_name := "Blit Task (render to display)" },
      { resources := { images := [
          { id := { index := 1 }, access := TaskImageAccess.SHADER_READ },
          { id := { index := 3 }, access := TaskImageAccess.SHADER_READ },
          { id := { index := 4 }, access := TaskImageAccess.SHADER_READ },
          { id := { index := 2 }, access := TaskImageAccess.SHADER_WRITE }] },
        debug_name := "Upscale Task" },
      { resources := { images := [
          { id := { index := 2 }, access := TaskImageAccess.TRANSFER_READ },
          { id := { index := 0 }, access := TaskImageAccess.TRANSFER_WRITE }] },
        debug_name := "Blit Task (display to swapchain)" },
      { resources := { images := [
          { id := { index := 0 }, access := TaskImageAccess.COLOR_ATTACHMENT }] },
        debug_name := "ImGui Task" }] }

/-- The ids that the sample receives from its `create_task_image` and `create_task_buffer` calls. -/
def fsr2_ids : AppTaskIds :=
  { task_swapchain_image := { index := 0 },
    task_color_image := { index := 1 },
    task_display_image := { index := 2 },
    task_motion_vectors_image := { index := 3 },
    task_depth_image := { index := 4 },
    task_raster_input_buffer := { index := 0 },
    task_staging_raster_input_buffer := { index := 1 } }

/-! ## A table for the Access Classifier

The table of the classifier is part of `task_list.cpp`. The one below follows
the names of the enumerators and the pairs that sections 3, 4.2 and 8 of the
specification state; it serves as a concrete classifier, and no theorem about
an arbitrary classifier depends on it. -/

/-- Modelled from the spec: access-flag mask READ. -/
def AccessTypeFlagBits.READ : Nat := 1

/-- Modelled from the spec: access-flag mask WRITE. -/
def AccessTypeFlagBits.WRITE : Nat := 2

/-- Modelled from the spec: access-flag mask READ_WRITE, both bits. -/
def AccessTypeFlagBits.READ_WRITE : Nat := 3

/-- Modelled from the spec: the pipeline-stage bits of the device layer, one bit for each stage. -/
def PipelineStageFlagBits.DRAW_INDIRECT : Nat := 2 ^ 1

/-- Modelled from the spec: pipeline-stage bit of the vertex shader. -/
def PipelineStageFlagBits.VERTEX_SHADER : Nat := 2 ^ 3

/-- Modelled from the spec: pipeline-stage bit of the tessellation control shader. -/
def PipelineStageFlagBits.TESSELLATION_CONTROL_SHADER : Nat := 2 ^ 4

/-- Modelled from the spec: pipeline-stage bit of the tessellation evaluation shader. -/
def PipelineStageFlagBits.TESSELLATION_EVALUATION_SHADER : Nat := 2 ^ 5

/-- Modelled from the spec: pipeline-stage bit of the geometry shader. -/
def PipelineStageFlagBits.GEOMETRY_SHADER : Nat := 2 ^ 6

/-- Modelled from the spec: pipeline-stage bit of the fragment shader. -/
def PipelineStageFlagBits.FRAGMENT_SHADER : Nat := 2 ^ 7

/-- Modelled from the spec: pipeline-stage bit of the early fragment tests. -/
def PipelineStageFlagBits.EARLY_FRAGMENT_TESTS : Nat := 2 ^ 8

/-- Modelled from the spec: pipeline-stage bit of the late fragment tests. -/
def PipelineStageFlagBits.LATE_FRAGMENT_TESTS : Nat := 2 ^ 9

/-- Modelled from the spec: pipeline-stage bit of the colour output (section 8, scenario D). -/
def PipelineStageFlagBits.COLOR_ATTACHMENT_OUTPUT : Nat := 2 ^ 10

/-- Modelled from the spec: pipeline-stage bit of the compute shader. -/
def PipelineStageFlagBits.COMPUTE_SHADER : Nat := 2 ^ 11

/-- Modelled from the spec: pipeline-stage bit of transfers. -/
def PipelineStageFlagBits.TRANSFER : Nat := 2 ^ 12

/-- Modelled from the spec: pipeline-stage bit of the bottom of the pipe (section 8, scenario D). -/
def PipelineStageFlagBits.BOTTOM_OF_PIPE : Nat := 2 ^ 13

/-- Modelled from the spec: pipeline-stage bit of the host. -/
def PipelineStageFlagBits.HOST : Nat := 2 ^ 14

/-- Modelled from the spec: pipeline-stage bit of resolves. -/
def PipelineStageFlagBits.RESOLVE : Nat := 2 ^ 33

/-- Modelled from the spec: pipeline-stage bit of the index input. -/
def PipelineStageFlagBits.INDEX_INPUT : Nat := 2 ^ 36

/-- Pipeline stages of a shader scope; the scope `ANY` is every shader stage. -/
def ShaderScope.stages : ShaderScope → Nat
  | .ANY =>
    PipelineStageFlagBits.VERTEX_SHADER + PipelineStageFlagBits.TESSELLATION_CONTROL_SHADER +
    PipelineStageFlagBits.TESSELLATION_EVALUATION_SHADER + PipelineStageFlagBits.GEOMETRY_SHADER +
    PipelineStageFlagBits.FRAGMENT_SHADER + PipelineStageFlagBits.COMPUTE_SHADER
  | .VERTEX => PipelineStageFlagBits.VERTEX_SHADER
  | .TESSELLATION_CONTROL => PipelineStageFlagBits.TESSELLATION_CONTROL_SHADER
  | .TESSELLATION_EVALUATION => PipelineStageFlagBits.TESSELLATION_EVALUATION_SHADER
  | .GEOMETRY => PipelineStageFlagBits.GEOMETRY_SHADER
  | .FRAGMENT => PipelineStageFlagBits.FRAGMENT_SHADER
  | .COMPUTE => PipelineStageFlagBits.COMPUTE_SHADER

/-- Access-flag mask of a shader access direction. -/
def ShaderAccessKind.flags : ShaderAccessKind → Nat
  | .READ => AccessTypeFlagBits.READ
  | .WRITE => AccessTypeFlagBits.WRITE
  | .READ_WRITE => AccessTypeFlagBits.READ_WRITE

/-- Image layout of a shader access direction: reads use the read-only
layout, writes the general one (section 8, scenarios A and F). -/
def ShaderAccessKind.layout : ShaderAccessKind → ImageLayout
  | .READ => ImageLayout.SHADER_READ_ONLY
  | .WRITE => ImageLayout.GENERAL
  | .READ_WRITE => ImageLayout.GENERAL

/-- The scope and the direction of a buffer access of the shader-stage matrix. -/
def TaskBufferAccess.shaderEntry (a : TaskBufferAccess) : Option (ShaderScope × ShaderAccessKind) :=
  if a.toNat = 0 ∨ 21 < a.toNat then Option.none
  else
    some (
      (match (a.toNat - 1) % 7 with
        | 0 => ShaderScope.ANY
        | 1 => ShaderScope.VERTEX
        | 2 => ShaderScope.TESSELLATION_CONTROL
        | 3 => ShaderScope.TESSELLATION_EVALUATION
        | 4 => ShaderScope.GEOMETRY
        | 5 => ShaderScope.FRAGMENT
        | _ => ShaderScope.COMPUTE),
      (match (a.toNat - 1) / 7 with
        | 0 => ShaderAccessKind.READ
        | 1 => ShaderAccessKind.WRITE
        | _ => ShaderAccessKind.READ_WRITE))

/-- The scope and the direction of an image access of the shader-stage matrix. -/
def TaskImageAccess.shaderEntry (a : TaskImageAccess) : Option (ShaderScope × ShaderAccessKind) :=
  if a.toNat = 0 ∨ 21 < a.toNat then Option.none
  else
    some (
      (match (a.toNat - 1) % 7 with
        | 0 => ShaderScope.ANY
        | 1 => ShaderScope.VERTEX
        | 2 => ShaderScope.TESSELLATION_CONTROL
        | 3 => ShaderScope.TESSELLATION_EVALUATION
        | 4 => ShaderScope.GEOMETRY
        | 5 => ShaderScope.FRAGMENT
        | _ => ShaderScope.COMPUTE),
      (match (a.toNat - 1) / 7 with
        | 0 => ShaderAccessKind.READ
        | 1 => ShaderAccessKind.WRITE
        | _ => ShaderAccessKind.READ_WRITE))

/-- Modelled from the spec: `buffer_access_to_stage_access` (section 4.2). -/
def spec_buffer_access_to_stage_access (a : TaskBufferAccess) : Access :=
  match a.shaderEntry with
  | some (scope, kind) => { stages := scope.stages, type := kind.flags }
  | Option.none =>
    match a with
    | .INDEX_READ =>
      { stages := PipelineStageFlagBits.INDEX_INPUT, type := AccessTypeFlagBits.READ }
    | .DRAW_INDIRECT_INFO_READ =>
      { stages := PipelineStageFlagBits.DRAW_INDIRECT, type := AccessTypeFlagBits.READ }
    | .TRANSFER_READ =>
      { stages := PipelineStageFlagBits.TRANSFER, type := AccessTypeFlagBits.READ }
    | .TRANSFER_WRITE =>
      { stages := PipelineStageFlagBits.TRANSFER, type := AccessTypeFlagBits.WRITE }
    | .HOST_TRANSFER_READ =>
      { stages := PipelineStageFlagBits.HOST, type := AccessTypeFlagBits.READ }
    | .HOST_TRANSFER_WRITE =>
      { stages := PipelineStageFlagBits.HOST, type := AccessTypeFlagBits.WRITE }
    | _ => {}

/-- Modelled from the spec: `image_access_to_stage_access_layout` (section
4.2): `none` maps to empty masks and `UNDEFINED`, `present` is a read and the
only access with the layout `PRESENT_SRC` (section 3). -/
def spec_image_access_to_stage_access_layout (a : TaskImageAccess) : Access × ImageLayout :=
  match a.shaderEntry with
  | some (scope, kind) => ({ stages := scope.stages, type := kind.flags }, kind.layout)
  | Option.none =>
    match a with
    | .TRANSFER_READ =>
      ({ stages := PipelineStageFlagBits.TRANSFER, type := AccessTypeFlagBits.READ },
        ImageLayout.TRANSFER_SRC_OPTIMAL)
    | .TRANSFER_WRITE =>
      ({ stages := PipelineStageFlagBits.TRANSFER, type := AccessTypeFlagBits.WRITE },
        ImageLayout.TRANSFER_DST_OPTIMAL)
    | .COLOR_ATTACHMENT =>
      ({ stages := PipelineStageFlagBits.COLOR_ATTACHMENT_OUTPUT,
         type := AccessTypeFlagBits.READ_WRITE }, ImageLayout.COLOR_ATTACHMENT_OPTIMAL)
    | .DEPTH_ATTACHMENT | .STENCIL_ATTACHMENT | .DEPTH_STENCIL_ATTACHMENT =>
      ({ stages := PipelineStageFlagBits.EARLY_FRAGMENT_TESTS
           + PipelineStageFlagBits.LATE_FRAGMENT_TESTS,
         type := AccessTypeFlagBits.READ_WRITE }, ImageLayout.DEPTH_STENCIL_ATTACHMENT_OPTIMAL)
    | .DEPTH_ATTACHMENT_READ | .STENCIL_ATTACHMENT_READ | .DEPTH_STENCIL_ATTACHMENT_READ =>
      ({ stages := PipelineStageFlagBits.EARLY_FRAGMENT_TESTS
           + PipelineStageFlagBits.LATE_FRAGMENT_TESTS,
         type := AccessTypeFlagBits.READ }, ImageLayout.DEPTH_STENCIL_READ_ONLY)
    | .RESOLVE_WRITE =>
      ({ stages := PipelineStageFlagBits.RESOLVE, type := AccessTypeFlagBits.WRITE },
        ImageLayout.COLOR_ATTACHMENT_OPTIMAL)
    | .PRESENT =>
      ({ stages := PipelineStageFlagBits.BOTTOM_OF_PIPE, type := AccessTypeFlagBits.READ },
        ImageLayout.PRESENT_SRC)
    | _ => ({}, ImageLayout.UNDEFINED)

/-- The classifier with the two tables above. -/
def specAccessClassifier : AccessClassifier :=
  { buffer_access_to_stage_access := spec_buffer_access_to_stage_access,
    image_access_to_stage_access_layout := spec_image_access_to_stage_access_layout }

/-- Scenario E of section 8: buffers S and D; T1 uses S as HOST_TRANSFER_WRITE,
T2 uses S as TRANSFER_READ and D as TRANSFER_WRITE, T3 uses D as
VERTEX_SHADER_READ; the task list is compiled. -/
def scenario_E (k : AccessClassifier) : Except String TaskList := do
  let task_list := TaskList.new 0 "scenario E"
  let (task_list, buffer_S) ← task_list.create_task_buffer { debug_name := "S" }
  let (task_list, buffer_D) ← task_list.create_task_buffer { debug_name := "D" }
  let task_list ← task_list.add_task k
    { resources := { buffers := [
        { id := buffer_S, access := TaskBufferAccess.HOST_TRANSFER_WRITE }] },
      debug_name := "T1" }
  let task_list ← task_list.add_task k
    { resources := { buffers := [
        { id := buffer_S, access := TaskBufferAccess.TRANSFER_READ },
        { id := buffer_D, access := TaskBufferAccess.TRANSFER_WRITE }] },
      debug_name := "T2" }
  let task_list ← task_list.add_task k
    { resources := { buffers := [
        { id := buffer_D, access := TaskBufferAccess.VERTEX_SHADER_READ }] },
      debug_name := "T3" }
  task_list.compile k

/-- The names of the tasks of each batch of a plan. -/
def TaskList.batch_names (tl : TaskList) : List (List String) :=
  tl.plan.map (fun batch => batch.map (fun t => t.debug_name))

/-! ## The Slice Tracker

The slice algebra and the Slice Tracker of sections 3 and 4.3. Their code
(`ImageMipArraySlice` in the device headers, the tracker in `task_list.cpp`)
is not among the sources. The transitions that step 3 of the tracker emits
belong to the barrier records and are left out, as above. -/

/-- Whether a slice covers no sub-resource at all. -/
def ImageMipArraySlice.is_empty (s : ImageMipArraySlice) : Bool :=
  decide (s.image_aspect = 0) || decide (s.level_count = 0) || decide (s.layer_count = 0)

/-- Modelled from the spec: `intersect` of the slice algebra (section 3): the
common aspects, the common mip levels and the common array layers. -/
def ImageMipArraySlice.intersect (a b : ImageMipArraySlice) : ImageMipArraySlice :=
  { image_aspect := a.image_aspect &&& b.image_aspect,
    base_mip_level := max a.base_mip_level b.base_mip_level,
    level_count := min (a.base_mip_level + a.level_count) (b.base_mip_level + b.level_count)
      - max a.base_mip_level b.base_mip_level,
    base_array_layer := max a.base_array_layer b.base_array_layer,
    layer_count := min (a.base_array_layer + a.layer_count) (b.base_array_layer + b.layer_count)
      - max a.base_array_layer b.base_array_layer }

/-- Modelled from the spec: `subtract` of the slice algebra (section 3), whose
result is a set of slices. The part of `a` outside `b` is cut into at most five
slices: the aspects of `a` that `b` lacks; then, within the common aspects,
the mip levels of `a` below and above those of `b`; then, within the common
aspects and mip levels, the array layers of `a` below and above those of `b`.
Slices that come out empty are dropped. -/
def ImageMipArraySlice.subtract (a b : ImageMipArraySlice) : List ImageMipArraySlice :=
  let common := a.image_aspect &&& b.image_aspect
  let a_mip_end := a.base_mip_level + a.level_count
  let b_mip_end := b.base_mip_level + b.level_count
  let a_layer_end := a.base_array_layer + a.layer_count
  let b_layer_end := b.base_array_layer + b.layer_count
  let mip_low := max a.base_mip_level b.base_mip_level
  let mip_high := min a_mip_end b_mip_end
  ([ { a with image_aspect := a.image_aspect ^^^ common },
     { a with
        image_aspect := common,
        level_count := min a_mip_end b.base_mip_level - a.base_mip_level },
     { a with
        image_aspect := common,
        base_mip_level := max a.base_mip_level b_mip_end,
        level_count := a_mip_end - max a.base_mip_level b_mip_end },
     { image_aspect := common,
       base_mip_level := mip_low,
       level_count := mip_high - mip_low,
       base_array_layer := a.base_array_layer,
       layer_count := min a_layer_end b.base_array_layer - a.base_array_layer },
     { image_aspect := common,
       base_mip_level := mip_low,
       level_count := mip_high - mip_low,
       base_array_layer := max a.base_array_layer b_layer_end,
       layer_count := a_layer_end - max a.base_array_layer b_layer_end } ] :
    List ImageMipArraySlice).filter (fun s => ! s.is_empty)

/-- Modelled from the spec: `disjoint` of the slice algebra (section 3): no
sub-resource lies in both slices. -/
def ImageMipArraySlice.disjoint (a b : ImageMipArraySlice) : Prop :=
  ∀ r : SubResource, ¬ (a.covers r = true ∧ b.covers r = true)

/-- Modelled from the spec: `ImageState` (section 3), the ordered list of the
slice states of one image. -/
abbrev ImageState := List ImageSliceState

/-- The state of an image that no task has used yet: one slice state for the
full extent, with the access `none` and the layout `UNDEFINED`. -/
def ImageState.initial (extent : ImageMipArraySlice) : ImageState :=
  [{ slice := extent }]

/-- Modelled from the spec: steps 1, 2 and the first half of step 4 of the
Slice Tracker (section 4.3): every old partition is cut down to its part
outside the new slice, and the new slice is put in with the new access and
layout. -/
def ImageState.replace_covered (state : ImageState) (new : ImageSliceState) : ImageState :=
  state.flatMap (fun old =>
    (old.slice.subtract new.slice).map (fun rest => { old with slice := rest })) ++ [new]

/-- The order `(aspect, base-mip, base-layer)` ascending of section 4.3. -/
def ImageSliceState.key_le (a b : ImageSliceState) : Prop :=
  a.slice.image_aspect < b.slice.image_aspect ∨
  (a.slice.image_aspect = b.slice.image_aspect ∧
    (a.slice.base_mip_level < b.slice.base_mip_level ∨
     (a.slice.base_mip_level = b.slice.base_mip_level ∧
      a.slice.base_array_layer ≤ b.slice.base_array_layer)))

instance : DecidableRel ImageSliceState.key_le :=
  fun a b => by unfold ImageSliceState.key_le; exact inferInstance

/-- Modelled from the spec: the merge of two adjacent partitions with equal
states (section 4.3, step 4), `a` being the one that comes first in the order
of `key_le`. Two partitions are adjacent when they agree in two of the three
dimensions and touch in the third: `b` continues the array layers of `a`, or
its mip levels, or it has the same levels and layers in other aspects. -/
def ImageSliceState.merge (a b : ImageSliceState) : Option ImageSliceState :=
  if a.latest_access = b.latest_access ∧ a.latest_layout = b.latest_layout then
    if a.slice.image_aspect = b.slice.image_aspect ∧
        a.slice.base_mip_level = b.slice.base_mip_level ∧
        a.slice.level_count = b.slice.level_count ∧
        a.slice.base_array_layer + a.slice.layer_count = b.slice.base_array_layer then
      some { a with slice := { a.slice with
        layer_count := a.slice.layer_count + b.slice.layer_count } }
    else if a.slice.image_aspect = b.slice.image_aspect ∧
        a.slice.base_array_layer = b.slice.base_array_layer ∧
        a.slice.layer_count = b.slice.layer_count ∧
        a.slice.base_mip_level + a.slice.level_count = b.slice.base_mip_level then
      some { a with slice := { a.slice with
        level_count := a.slice.level_count + b.slice.level_count } }
    else if a.slice.image_aspect &&& b.slice.image_aspect = 0 ∧
        a.slice.base_mip_level = b.slice.base_mip_level ∧
        a.slice.level_count = b.slice.level_count ∧
        a.slice.base_array_layer = b.slice.base_array_layer ∧
        a.slice.layer_count = b.slice.layer_count then
      some { a with slice := { a.slice with
        image_aspect := a.slice.image_aspect ||| b.slice.image_aspect } }
    else Option.none
  else Option.none

/-- Merges `a` with the first partition of the list it can be merged with. -/
def ImageState.merge_with_first (a : ImageSliceState) : ImageState → Option ImageState
  | [] => Option.none
  | b :: rest =>
    match a.merge b with
    | some merged => some (merged :: rest)
    | Option.none =>
      match ImageState.merge_with_first a rest with
      | some done => some (b :: done)
      | Option.none => Option.none

/-- One merge: the first partition of the list that can be merged with a later
one is merged with the first such one; `none` when no two can be merged. -/
def ImageState.merge_pass : ImageState → Option ImageState
  | [] => Option.none
  | a :: rest =>
    match ImageState.merge_with_first a rest with
    | some done => some done
    | Option.none =>
      match ImageState.merge_pass rest with
      | some done => some (a :: done)
      | Option.none => Option.none

/-- Modelled from the spec: the second half of step 4 of the Slice Tracker:
the partitions are put in the order `(aspect, base-mip, base-layer)` and
adjacent ones with equal states are merged, one pair at a time, until no pair
is left or `fuel` merges were made. -/
def ImageState.merge_adjacent : Nat → ImageState → ImageState
  | 0, state => List.insertionSort ImageSliceState.key_le state
  | fuel + 1, state =>
    match ImageState.merge_pass (List.insertionSort ImageSliceState.key_le state) with
    | some merged => ImageState.merge_adjacent fuel merged
    | Option.none => List.insertionSort ImageSliceState.key_le state

/-- Modelled from the spec: the update of the Slice Tracker with (new-slice,
new-access, new-layout), steps 1 to 4 of section 4.3. Every merge shortens
the list by one, so as many merges as there are partitions are enough. -/
def ImageState.update (state : ImageState) (new : ImageSliceState) : ImageState :=
  ImageState.merge_adjacent (state.replace_covered new).length (state.replace_covered new)

/-- Modelled from the spec: an update as the compiler issues it (section 4.5): a
slice that is out of the bounds of the image is the fatal error "slice out of
range"; the tracker is only run for a slice within the full extent. -/
def ImageState.try_update (extent : ImageMipArraySlice) (state : ImageState)
    (new : ImageSliceState) : Except String ImageState :=
  if extent.contains new.slice then Except.ok (state.update new)
  else Except.error "slice out of range"

/-- A finite sequence of updates; an update that fails leaves the state as it was. -/
def ImageState.apply_updates (extent : ImageMipArraySlice) (state : ImageState)
    (updates : List ImageSliceState) : ImageState :=
  updates.foldl (fun st new =>
    match ImageState.try_update extent st new with
    | Except.ok st2 => st2
    | Except.error _ => st) state

/-- The invariant of section 3 in the words of the spec: the union of the slices
is the full extent, and any two distinct slices of the list are disjoint. -/
def specPartitions (extent : ImageMipArraySlice) (state : ImageState) : Prop :=
  (∀ r : SubResource, extent.covers r = true ↔ ∃ s ∈ state, s.slice.covers r = true) ∧
  state.Pairwise (fun a b => a.slice.disjoint b.slice)

/-- An image of four mip levels and two array layers in the colour aspect. -/
def sampleExtent : ImageMipArraySlice :=
  { image_aspect := 1, base_mip_level := 0, level_count := 4,
    base_array_layer := 0, layer_count := 2 }

/-- Three updates of `sampleExtent`: a write of mip 1, a read of layer 1 of the
mips 1 and 2, and an update out of range (mip level 7). -/
def sampleUpdates : List ImageSliceState :=
  [ { latest_access := { stages := 4096, type := 2 },
      latest_layout := ImageLayout.TRANSFER_DST_OPTIMAL,
      slice := { image_aspect := 1, base_mip_level := 1, level_count := 1,
                 base_array_layer := 0, layer_count := 2 } },
    { latest_access := { stages := 128, type := 1 },
      latest_layout := ImageLayout.SHADER_READ_ONLY,
      slice := { image_aspect := 1, base_mip_level := 1, level_count := 2,
                 base_array_layer := 1, layer_count := 1 } },
    { latest_access := { stages := 128, type := 1 },
      latest_layout := ImageLayout.SHADER_READ_ONLY,
      slice := { image_aspect := 1, base_mip_level := 7, level_count := 1,
                 base_array_layer := 0, layer_count := 1 } } ]

/-- How many slice states of an image state cover a sub-resource. -/
def ImageState.cover_count (state : ImageState) (r : SubResource) : Nat :=
  state.countP (fun s => s.slice.covers r)

/-- The invariant of section 3 by counting: a sub-resource of the full extent
is covered by exactly one slice state, any other sub-resource by none. -/
def ImageState.covers_once (extent : ImageMipArraySlice) (state : ImageState) : Prop :=
  ∀ r : SubResource, state.cover_count r = if extent.covers r = true then 1 else 0

/-! ## Conflicts, in the words of the spec -/

/-- Two accesses of one resource conflict when one writes while the other reads
or writes (section 4.5, step 3). -/
def specAccessesConflict (x y : Access) : Prop :=
  (x.is_write = true ∧ (y.is_read = true ∨ y.is_write = true)) ∨
  (y.is_write = true ∧ (x.is_read = true ∨ x.is_write = true))

/-- Two tasks have conflicting accesses to a shared resource: they use the same
buffer with conflicting accesses, or they use the same image in slices that
overlap, with conflicting accesses or with different required layouts. -/
def TaskList.specTasksConflict (tl : TaskList) (k : AccessClassifier) (a b : TaskInfo) : Prop :=
  (∃ v ∈ a.resources.buffers, ∃ u ∈ b.resources.buffers, v.id = u.id ∧
    specAccessesConflict (k.buffer_access_to_stage_access v.access)
      (k.buffer_access_to_stage_access u.access)) ∨
  (∃ v ∈ a.resources.images, ∃ u ∈ b.resources.images, v.id = u.id ∧
    (∃ r : SubResource, (tl.use_slice v).covers r = true ∧ (tl.use_slice u).covers r = true) ∧
    (specAccessesConflict (k.image_access_to_stage_access_layout v.access).1
        (k.image_access_to_stage_access_layout u.access).1 ∨
      (k.image_access_to_stage_access_layout v.access).2
        ≠ (k.image_access_to_stage_access_layout u.access).2))

/-- The "Draw Task" of the FSR2 sample, its third task. -/
def fsr2_draw_task : TaskInfo :=
  { resources := {
      buffers := [{ id := { index := 0 }, access := TaskBufferAccess.VERTEX_SHADER_READ }],
      images := [
        { id := { index := 1 }, access := TaskImageAccess.COLOR_ATTACHMENT },
        { id := { index := 3 }, access := TaskImageAccess.COLOR_ATTACHMENT },
        { id := { index := 4 }, access := TaskImageAccess.DEPTH_ATTACHMENT }] },
    debug_name := "Draw Task" }

/-- The "Blit Task (render to display)" of the FSR2 sample, its fourth task. -/
def fsr2_blit_task : TaskInfo :=
  { resources := { images := [
      { id := { index := 1 }, access := TaskImageAccess.TRANSFER_READ },
      { id := { index := 2 }, access := TaskImageAccess.TRANSFER_WRITE }] },
    debug_name := "Blit Task (render to display)" }

/-! ## The state machine of a task list -/

/-- Modelled from the spec: one call of the public task list API (section 6). -/
inductive ApiCall where
  | create_task_buffer (info : TaskBufferInfo)
  | create_task_image (info : TaskImageInfo)
  | add_task (task : TaskInfo)
  | compile
  | execute
  | last_access (id : TaskBufferId)
  | last_access_image (id : TaskImageId) (slice : Option ImageMipArraySlice)
  | last_layout (id : TaskImageId) (slice : Option ImageMipArraySlice)

/-- Whether a call returned a value and not an error. -/
def accepted {α : Type} : Except String α → Bool
  | Except.ok _ => true
  | Except.error _ => false

/-- A call made on a task list: the task list after the call, and whether the
call was accepted. A call that fails leaves the task list as it was
(section 7); the two queries never change it. -/
def TaskList.apply (tl : TaskList) (k : AccessClassifier) : ApiCall → TaskList × Bool
  | .create_task_buffer info =>
    match tl.create_task_buffer info with
    | Except.ok (tl2, _) => (tl2, true)
    | Except.error _ => (tl, false)
  | .create_task_image info =>
    match tl.create_task_image info with
    | Except.ok (tl2, _) => (tl2, true)
    | Except.error _ => (tl, false)
  | .add_task task =>
    match tl.add_task k task with
    | Except.ok tl2 => (tl2, true)
    | Except.error _ => (tl, false)
  | .compile =>
    match tl.compile k with
    | Except.ok tl2 => (tl2, true)
    | Except.error _ => (tl, false)
  | .execute =>
    match tl.execute k with
    | Except.ok (tl2, _) => (tl2, true)
    | Except.error _ => (tl, false)
  | .last_access id => (tl, accepted (tl.last_access id))
  | .last_access_image id slice => (tl, accepted (tl.last_access_image id slice))
  | .last_layout id slice => (tl, accepted (tl.last_layout id slice))

/-- A sequence of calls made one after the other: the task list after the last
call, and whether every call was accepted. -/
def TaskList.run (tl : TaskList) (k : AccessClassifier) : List ApiCall → TaskList × Bool
  | [] => (tl, true)
  | call :: rest =>
    match tl.apply k call with
    | (tl2, ok) =>
      match TaskList.run tl2 k rest with
      | (tl3, ok_rest) => (tl3, ok && ok_rest)

/-- A task list that was compiled: it is in the Compiled state, its tasks
passed the validation, and the batches of its plan are its tasks in order. -/
def TaskList.frozen (tl : TaskList) (k : AccessClassifier) : Prop :=
  tl.state = TaskListState.Compiled ∧
  tl.validate_tasks k tl.tasks = Except.ok () ∧
  tl.plan.flatten = tl.tasks

/-- The calls of `App::record_loop_task_list`, in the order of the source: five
`create_task_image`, two `create_task_buffer`, seven `add_task`, `compile`. -/
def fsr2_record_calls : List ApiCall :=
  (fsr2_tasks_recorded.images.map ApiCall.create_task_image) ++
  (fsr2_tasks_recorded.buffers.map ApiCall.create_task_buffer) ++
  (fsr2_tasks_recorded.tasks.map ApiCall.add_task) ++ [ApiCall.compile]

/-- The task list calls of one `App::draw`: `execute`, then `last_access` and
`last_layout` of the swapchain image. -/
def fsr2_draw_calls : List ApiCall :=
  [ApiCall.execute,
   ApiCall.last_access_image fsr2_ids.task_swapchain_image Option.none,
   ApiCall.last_layout fsr2_ids.task_swapchain_image Option.none]

/-- The task list calls of the sample when it draws `n` frames. -/
def fsr2_calls (n : Nat) : List ApiCall :=
  fsr2_record_calls ++ (List.replicate n fsr2_draw_calls).flatten


/-! ## The predicates of the Access Classifier on the enumerations -/

/-- Modelled from the spec: `is_read` (section 4.2) of a buffer access: the
READ bit of the access it decodes to. -/
def TaskBufferAccess.is_read (k : AccessClassifier) (a : TaskBufferAccess) : Bool :=
  (k.buffer_access_to_stage_access a).is_read

/-- Modelled from the spec: `is_write` (section 4.2) of a buffer access. -/
def TaskBufferAccess.is_write (k : AccessClassifier) (a : TaskBufferAccess) : Bool :=
  (k.buffer_access_to_stage_access a).is_write

/-- Modelled from the spec: `is_compatible(a, b)` (section 4.2) of two buffer
accesses, the test the add-time validation makes on two uses of one buffer. -/
def TaskBufferAccess.is_compatible (k : AccessClassifier) (a b : TaskBufferAccess) : Bool :=
  (k.buffer_access_to_stage_access a).is_compatible (k.buffer_access_to_stage_access b)

/-- Modelled from the spec: `is_read` (section 4.2) of an image access. -/
def TaskImageAccess.is_read (k : AccessClassifier) (a : TaskImageAccess) : Bool :=
  (k.image_access_to_stage_access_layout a).1.is_read

/-- Modelled from the spec: `is_write` (section 4.2) of an image access. -/
def TaskImageAccess.is_write (k : AccessClassifier) (a : TaskImageAccess) : Bool :=
  (k.image_access_to_stage_access_layout a).1.is_write

/-- Modelled from the spec: `is_compatible(a, b)` (section 4.2) of two image accesses. -/
def TaskImageAccess.is_compatible (k : AccessClassifier) (a b : TaskImageAccess) : Bool :=
  (k.image_access_to_stage_access_layout a).1.is_compatible
    (k.image_access_to_stage_access_layout b).1

/-- Whether an identifier ends in `_READ_WRITE`. -/
def ends_in_READ_WRITE (identifier : String) : Bool :=
  "_READ_WRITE".data.isSuffixOf identifier.data

/-- A task that uses one buffer twice, with the accesses `a` and `b`. -/
def task_using_twice (id : TaskBufferId) (a b : TaskBufferAccess) : TaskInfo :=
  { resources := { buffers := [{ id := id, access := a }, { id := id, access := b }] },
    debug_name := "two uses of one buffer" }

/-! ## Uses with attached runtime resources -/

/-- A buffer use to which the task list has attached one runtime buffer. -/
def attachedBufferUse : TaskBufferUse :=
  { buffers := [{ value := 7 }], access := TaskBufferAccess.TRANSFER_READ }

/-- An image use to which the task list has attached one runtime image and its view. -/
def attachedImageUse : TaskImageUse :=
  { images := [{ value := 8 }], views := [{ value := 9 }],
    access := TaskImageAccess.TRANSFER_WRITE }

/-! ## The two overloads of `for_each` -/

/-- The loop of the const overload of `for_each`: the span is a
`std::span<GenericTaskResourceUse const>` and the callbacks receive const
references; the loop itself is written as in the non-const overload, with a
`u32` index against the `usize` size of the span. -/
def for_each_loop_const (s : UseSpan) : Nat → Nat → List TaskUseCall → ForEachRun
  | 0, _, calls => ForEachRun.running calls
  | fuel + 1, index, calls =>
    if index < s.size then
      match s.data[index]? with
      | Option.none => ForEachRun.faulted calls "read outside of the container memory"
      | some use =>
        match use.type with
        | TaskResourceUseType.BUFFER =>
          match TaskBufferUse.from use with
          | Except.ok arg =>
            for_each_loop_const s fuel ((index + 1) % 2 ^ 32)
              (calls ++ [TaskUseCall.buf_fn index arg])
          | Except.error msg => ForEachRun.faulted calls msg
        | TaskResourceUseType.IMAGE =>
          match TaskImageUse.from use with
          | Except.ok arg =>
            for_each_loop_const s fuel ((index + 1) % 2 ^ 32)
              (calls ++ [TaskUseCall.img_fn index arg])
          | Except.error msg => ForEachRun.faulted calls msg
        | _ => for_each_loop_const s fuel ((index + 1) % 2 ^ 32) calls
    else ForEachRun.finished calls

/-- Function `GenericTaskArgsContainer::for_each`, const overload. -/
def GenericTaskArgsContainer.for_each_const (c : GenericTaskArgsContainer) (fuel : Nat) :
    ForEachRun :=
  for_each_loop_const c.span fuel 0 []

/-- The loop of the non-const overload with callbacks that write through the
reference they are given: `buf_fn index arg` and `img_fn index arg` are the use
as the callback leaves it, and it is stored back in the field the reference
points at. The invocation is recorded with the use the callback received. -/
def for_each_loop_mut (buf_fn : Nat → TaskBufferUse → TaskBufferUse)
    (img_fn : Nat → TaskImageUse → TaskImageUse) :
    UseSpan → Nat → Nat → List TaskUseCall → UseSpan × ForEachRun
  | s, 0, _, calls => (s, ForEachRun.running calls)
  | s, fuel + 1, index, calls =>
    if index < s.size then
      match s.data[index]? with
      | Option.none => (s, ForEachRun.faulted calls "read outside of the container memory")
      | some use =>
        match use.type with
        | TaskResourceUseType.BUFFER =>
          match TaskBufferUse.from use with
          | Except.ok arg =>
            for_each_loop_mut buf_fn img_fn
              { s with data := s.data.set index (GenericTaskResourceUse.buffer (buf_fn index arg)) }
              fuel ((index + 1) % 2 ^ 32) (calls ++ [TaskUseCall.buf_fn index arg])
          | Except.error msg => (s, ForEachRun.faulted calls msg)
        | TaskResourceUseType.IMAGE =>
          match TaskImageUse.from use with
          | Except.ok arg =>
            for_each_loop_mut buf_fn img_fn
              { s with data := s.data.set index (GenericTaskResourceUse.image (img_fn index arg)) }
              fuel ((index + 1) % 2 ^ 32) (calls ++ [TaskUseCall.img_fn index arg])
          | Except.error msg => (s, ForEachRun.faulted calls msg)
        | _ => for_each_loop_mut buf_fn img_fn s fuel ((index + 1) % 2 ^ 32) calls
    else (s, ForEachRun.finished calls)

/-- Function `GenericTaskArgsContainer::for_each`, non-const overload, with
callbacks that write to the uses: the container as the call leaves it, and the
run. `count` is a member the loop only reads. -/
def GenericTaskArgsContainer.for_each_mut (c : GenericTaskArgsContainer)
    (buf_fn : Nat → TaskBufferUse → TaskBufferUse) (img_fn : Nat → TaskImageUse → TaskImageUse)
    (fuel : Nat) : GenericTaskArgsContainer × ForEachRun :=
  let r := for_each_loop_mut buf_fn img_fn c.span fuel 0 []
  ({ memory := r.1.data, count := c.count }, r.2)

/-- A callback that sets the id of every buffer use it is given. -/
def sample_buf_fn (index : Nat) (u : TaskBufferUse) : TaskBufferUse :=
  { u with id := { task_list_index := 1, index := index } }

/-- A callback that sets the access of every image use it is given. -/
def sample_img_fn (_index : Nat) (u : TaskImageUse) : TaskImageUse :=
  { u with access := TaskImageAccess.TRANSFER_READ }

/-! ## The add-time validation of the FSR2 sample -/

/-- The task buffer ids the FSR2 sample received from `create_task_buffer`. -/
def AppTaskIds.buffer_ids (ids : AppTaskIds) : List TaskBufferId :=
  [ids.task_raster_input_buffer, ids.task_staging_raster_input_buffer]

/-- The task image ids the FSR2 sample received from `create_task_image`. -/
def AppTaskIds.image_ids (ids : AppTaskIds) : List TaskImageId :=
  [ids.task_swapchain_image, ids.task_color_image, ids.task_display_image,
   ids.task_motion_vectors_image, ids.task_depth_image]

/-- Whether a call is an `add_task` call. -/
def ApiCall.is_add_task : ApiCall → Bool
  | ApiCall.add_task _ => true
  | _ => false

/-! ## The access identifiers of the FSR2 sample -/

/-- The identifiers that follow `daxa::TaskBufferAccess::` in the task
declarations of `App::record_loop_task_list`, in the order of the source
(lines 418, 447, 448 and 466 of `main.cpp`). -/
def fsr2_buffer_access_names : List String :=
  ["HOST_TRANSFER_WRITE", "TRANSFER_WRITE", "TRANSFER_READ", "VERTEX_SHADER_READ_ONLY"]

/-- The identifiers that follow `daxa::TaskImageAccess::` in the task
declarations of `App::record_loop_task_list`, in the order of the source
(lines 469 to 471, 508, 509, 535 to 538, 572, 573 and 596 of `main.cpp`). -/
def fsr2_image_access_names : List String :=
  ["COLOR_ATTACHMENT", "COLOR_ATTACHMENT", "DEPTH_ATTACHMENT",
   "TRANSFER_READ", "TRANSFER_WRITE",
   "SHADER_READ_ONLY", "SHADER_READ_ONLY", "SHADER_READ_ONLY", "SHADER_WRITE_ONLY",
   "TRANSFER_READ", "TRANSFER_WRITE",
   "COLOR_ATTACHMENT"]

/-- Whether an identifier is an enumerator of `TaskBufferAccess`. -/
def TaskBufferAccess.declares (identifier : String) : Bool :=
  decide (∃ a : TaskBufferAccess, a.name = identifier)

/-- Whether an identifier is an enumerator of `TaskImageAccess`. -/
def TaskImageAccess.declares (identifier : String) : Bool :=
  decide (∃ a : TaskImageAccess, a.name = identifier)

/-! ## The render context of DaxaMeshview

`DaxaMeshview/renderer/RenderContext.hpp`. The device layer it calls
(`Daxa.hpp`) is not among the sources: a swapchain and an image are kept here
as the values they were created or resized with. -/

/-- Modelled from the spec: the window of the device layer (section 1 leaves the
device, queue and swapchain abstraction outside the core), as far as
`RenderContext` reads it: `getWidth()` and `getHeight()`. -/
structure Window where
  width : Nat := 0
  height : Nat := 0
  deriving DecidableEq, Repr

/-- Modelled from the spec: a swapchain of the device layer, kept as the extent
and the present mode it was created with; `resize` replaces the extent. -/
structure Swapchain where
  width : Nat := 0
  height : Nat := 0
  presentMode : String := ""
  deriving DecidableEq, Repr

/-- Modelled from the spec: an image acquired from a swapchain, kept as the
extent the swapchain had when it was acquired. -/
structure SwapchainImage where
  width : Nat := 0
  height : Nat := 0
  deriving DecidableEq, Repr

/-- Modelled from the spec: an image made by `createImage2d` of the device
layer, kept as the create info it was made with; `memoryPropertyFlags` is
`none` where the create info leaves the member out. -/
structure Image2d where
  width : Nat := 0
  height : Nat := 0
  format : String := ""
  imageUsage : List String := []
  imageAspekt : String := ""
  memoryPropertyFlags : Option String := Option.none
  deriving DecidableEq, Repr

/-- Modelled from the spec: `Swapchain::aquireNextImage` of the device layer. -/
def Swapchain.aquireNextImage (s : Swapchain) : SwapchainImage :=
  { width := s.width, height := s.height }

/-- Modelled from the spec: `Swapchain::resize` of the device layer. -/
def Swapchain.resize (s : Swapchain) (width height : Nat) : Swapchain :=
  { s with width := width, height := height }

/-- The width and the height of an image. -/
def Image2d.extent (i : Image2d) : Nat × Nat :=
  (i.width, i.height)

/-- Class `RenderContext`, the members that depend on the size of the window. -/
structure RenderContext where
  swapchain : Swapchain := {}
  swapchainImage : SwapchainImage := {}
  depthImage : Image2d := {}
  normalsBuffer : Image2d := {}
  deriving DecidableEq, Repr

/-- Constructor `RenderContext::RenderContext(daxa::Window&)`. -/
def RenderContext.new (window : Window) : RenderContext :=
  let swapchain : Swapchain :=
    { width := window.width, height := window.height,
      presentMode := "VK_PRESENT_MODE_IMMEDIATE_KHR" }
  { swapchain := swapchain,
    swapchainImage := swapchain.aquireNextImage,
    depthImage :=
      { width := window.width, height := window.height,
        format := "VK_FORMAT_D32_SFLOAT",
        imageUsage := ["VK_IMAGE_USAGE_DEPTH_STENCIL_ATTACHMENT_BIT"],
        imageAspekt := "VK_IMAGE_ASPECT_DEPTH_BIT" },
    normalsBuffer :=
      { width := window.width, height := window.height,
        format := "VK_FORMAT_R16G16_SNORM",
        imageUsage := ["VK_IMAGE_USAGE_SAMPLED_BIT", "VK_IMAGE_USAGE_COLOR_ATTACHMENT_BIT"],
        imageAspekt := "VK_IMAGE_ASPECT_COLOR_BIT" } }

/-- Function `RenderContext::resize(u32 width, u32 height)`: it resizes the
swapchain, acquires its next image and makes a new depth image; it has no
statement for `normalsBuffer`. -/
def RenderContext.resize (rc : RenderContext) (width height : Nat) : RenderContext :=
  let swapchain := rc.swapchain.resize width height
  { rc with
    swapchain := swapchain,
    swapchainImage := swapchain.aquireNextImage,
    depthImage :=
      { width := width, height := height,
        format := "VK_FORMAT_D32_SFLOAT",
        imageUsage := ["VK_IMAGE_USAGE_DEPTH_STENCIL_ATTACHMENT_BIT"],
        imageAspekt := "VK_IMAGE_ASPECT_DEPTH_BIT",
        memoryPropertyFlags := some "VMA_MEMORY_USAGE_GPU_ONLY" } }

/-! ## The size of a task use and `TaskUses::USE_COUNT`

The sizes are in bytes. `u32` and `u8` are four bytes and one byte; the sizes
and alignments of the types that are declared outside `task_list_types.hpp`
depend on the platform and are the members of `Abi`. -/

/-- A non-static data member of a struct, as far as the layout needs it: the
size and the alignment of its type. -/
structure Member where
  size : Nat
  align : Nat
  deriving DecidableEq, Repr

/-- The first offset at or after `offset` that is a multiple of `align`. -/
def align_up (offset align : Nat) : Nat :=
  (offset + align - 1) / align * align

/-- The offset after the last member of a struct whose members are laid out in
declaration order, each at the first offset that suits its alignment. -/
def layout_end (members : List Member) : Nat :=
  members.foldl (fun offset m => align_up offset m.align + m.size) 0

/-- The alignment of a struct: the strictest of `alignas` (1 when there is
none) and the alignments of its members. -/
def struct_align (alignas : Nat) (members : List Member) : Nat :=
  members.foldl (fun a m => max a m.align) (max alignas 1)

/-- Operator `sizeof` on a struct: the end of its last member rounded up to the
alignment of the struct; a struct without members has size 1. -/
def struct_sizeof (alignas : Nat) (members : List Member) : Nat :=
  align_up (max (layout_end members) 1) (struct_align alignas members)

/-- Modelled from the spec: the sizes and alignments of the types of the device
layer and of the standard library that the use structs have as members; their
declarations are not among the sources. `int` is the underlying type of the
access enumerations, which name none. -/
structure Abi where
  int_size : Nat
  int_align : Nat
  span_size : Nat
  span_align : Nat
  slice_size : Nat
  slice_align : Nat
  view_type_size : Nat
  view_type_align : Nat
  deriving DecidableEq, Repr

/-- A platform with 64-bit pointers: a span is a pointer and a `usize`, an
`ImageMipArraySlice` is five `u32`, enumerations are four bytes. -/
def Abi.pointers_64 : Abi :=
  { int_size := 4, int_align := 4, span_size := 16, span_align := 8,
    slice_size := 20, slice_align := 4, view_type_size := 4, view_type_align := 4 }

/-- A platform with 32-bit pointers. -/
def Abi.pointers_32 : Abi :=
  { int_size := 4, int_align := 4, span_size := 8, span_align := 4,
    slice_size := 20, slice_align := 4, view_type_size := 4, view_type_align := 4 }

/-- Type `u32`. -/
def member_u32 : Member := { size := 4, align := 4 }

/-- Type `TaskResourceUseType`, an enumeration stored in a `u32`. -/
def member_TaskResourceUseType : Member := member_u32

/-- The members of `TaskGPUResourceId`, and so of `TaskBufferId` and
`TaskImageId`, which add none: `task_list_index` and `index`. -/
def members_TaskGPUResourceId : List Member := [member_u32, member_u32]

/-- Types `TaskBufferId` and `TaskImageId`. -/
def member_TaskGPUResourceId : Member :=
  { size := struct_sizeof 0 members_TaskGPUResourceId,
    align := struct_align 0 members_TaskGPUResourceId }

/-- The members of `GenericTaskResourceUse`: `type` and the array
`u8 raw[TASK_INPUT_FIELD_SIZE - sizeof(TaskResourceUseType)]`. -/
def members_GenericTaskResourceUse : List Member :=
  [member_TaskResourceUseType,
   { size := TASK_INPUT_FIELD_SIZE - member_TaskResourceUseType.size, align := 1 }]

/-- Expression `sizeof(GenericTaskResourceUse)`. -/
def sizeof_GenericTaskResourceUse : Nat :=
  struct_sizeof 0 members_GenericTaskResourceUse

/-- The non-static data members of `TaskBufferUse` in declaration order:
`type`, `buffers`, `id`, `access`. -/
def members_TaskBufferUse (abi : Abi) : List Member :=
  [member_TaskResourceUseType,
   { size := abi.span_size, align := abi.span_align },
   member_TaskGPUResourceId,
   { size := abi.int_size, align := abi.int_align }]

/-- The non-static data members of `TaskImageUse` in declaration order: `type`,
`images`, `views`, `id`, `access`, `slice`, `view_type`. -/
def members_TaskImageUse (abi : Abi) : List Member :=
  [member_TaskResourceUseType,
   { size := abi.span_size, align := abi.span_align },
   { size := abi.span_size, align := abi.span_align },
   member_TaskGPUResourceId,
   { size := abi.int_size, align := abi.int_align },
   { size := abi.slice_size, align := abi.slice_align },
   { size := abi.view_type_size, align := abi.view_type_align }]

/-- Constant `TASK_BUFFER_INPUT_SIZE`, which is `sizeof(TaskBufferUse)`; the
struct is declared `alignas(TASK_INPUT_FIELD_SIZE)`. -/
def TASK_BUFFER_INPUT_SIZE (abi : Abi) : Nat :=
  struct_sizeof TASK_INPUT_FIELD_SIZE (members_TaskBufferUse abi)

/-- Constant `TASK_IMAGE_INPUT_SIZE`, which is `sizeof(TaskImageUse)`; the
struct is declared `alignas(TASK_INPUT_FIELD_SIZE)`. -/
def TASK_IMAGE_INPUT_SIZE (abi : Abi) : Nat :=
  struct_sizeof TASK_INPUT_FIELD_SIZE (members_TaskImageUse abi)

/-- The two `static_assert`s that follow the size constants: the header
compiles only where both hold. -/
def header_static_asserts (abi : Abi) : Bool :=
  decide (TASK_BUFFER_INPUT_SIZE abi = TASK_IMAGE_INPUT_SIZE abi) &&
  decide (TASK_BUFFER_INPUT_SIZE abi = TASK_INPUT_FIELD_SIZE)

/-- Type `TaskBufferUse` as the type of a member. -/
def member_TaskBufferUse (abi : Abi) : Member :=
  { size := TASK_BUFFER_INPUT_SIZE abi,
    align := struct_align TASK_INPUT_FIELD_SIZE (members_TaskBufferUse abi) }

/-- Type `TaskImageUse` as the type of a member. -/
def member_TaskImageUse (abi : Abi) : Member :=
  { size := TASK_IMAGE_INPUT_SIZE abi,
    align := struct_align TASK_INPUT_FIELD_SIZE (members_TaskImageUse abi) }

/-- The kind of a task-use field of a uses struct. -/
inductive UseField where
  | buffer
  | image
  deriving DecidableEq, Repr

/-- The type of a task-use field as the type of a member. -/
def UseField.member (abi : Abi) : UseField → Member
  | .buffer => member_TaskBufferUse abi
  | .image => member_TaskImageUse abi

/-- Expression `sizeof(ReflectedT)` for a uses struct whose data members are
the given task-use fields; its base `TaskUses<ReflectedT, SHADER_BINDING_T>`
has no data member and takes no room. -/
def sizeof_uses (abi : Abi) (fields : List UseField) : Nat :=
  struct_sizeof 0 (fields.map (UseField.member abi))

/-- Declaration `static_assert(cond, msg)`: where the condition is false the
compiler rejects the program with the message. -/
def static_assert (cond : Bool) (msg : String) : Except String Unit :=
  if cond then Except.ok () else Except.error msg

/-- Constant `TaskUses::USE_COUNT` as a function of `sizeof(ReflectedT)`: the
two `static_assert`s of the initialiser reject the struct, and otherwise the
value is the quotient. -/
def TaskUses.USE_COUNT (sizeof_ReflectedT : Nat) : Except String Nat := do
  static_assert (sizeof_ReflectedT != 0) "TaskUse must be non zero size"
  static_assert (sizeof_ReflectedT % TASK_INPUT_FIELD_SIZE == 0)
    "TaskUse struct must only contain task uses!"
  return sizeof_ReflectedT / TASK_INPUT_FIELD_SIZE

/-- Modelled from the spec: struct `ShaderIntegrationTaskListUses` of
`shader_integration.inl`, an ordered list of task uses (section 3). The macros
that declare it are in `daxa/utils/task_list.inl`, which is not among the
sources; they are read as declaring the image use `image` and the buffer use
`settings`, in this order. -/
def ShaderIntegrationTaskListUses : List UseField :=
  [UseField.image, UseField.buffer]

/-! ## A task list whose last use of an image names a part of it -/

end daxa

namespace daxa

/-! ## Theorems: `for_each` -/

theorem specCallsFrom_index_ge (l : List GenericTaskResourceUse) :
    ∀ start call, call ∈ specCallsFrom start l → start ≤ call.index := by
  induction l with
  | nil => intro start call h; simp [specCallsFrom] at h
  | cons u rest ih =>
    intro start call h
    simp only [specCallsFrom, List.mem_append] at h
    rcases h with h | h
    · cases u <;> simp [specCallAt] at h <;> subst h <;> simp [TaskUseCall.index]
    · have := ih (start + 1) call h
      omega

theorem specCallAt_index (start : Nat) (u : GenericTaskResourceUse) :
    ∀ call, call ∈ specCallAt start u → call.index = start := by
  intro call h
  cases u <;> simp [specCallAt] at h <;> subst h <;> simp [TaskUseCall.index]

theorem specCallsFrom_ascending (l : List GenericTaskResourceUse) :
    ∀ start, (specCallsFrom start l).Pairwise (fun a b => a.index < b.index) := by
  induction l with
  | nil => intro start; simp [specCallsFrom]
  | cons u rest ih =>
    intro start
    simp only [specCallsFrom]
    rw [List.pairwise_append]
    refine ⟨?_, ih (start + 1), ?_⟩
    · cases u <;> simp [specCallAt]
    · intro a ha b hb
      have h1 := specCallAt_index start u a ha
      have h2 := specCallsFrom_index_ge rest (start + 1) b hb
      omega

theorem specCallsFrom_length (l : List GenericTaskResourceUse) :
    ∀ start, (specCallsFrom start l).length = l.countP (fun u => u.isResource) := by
  induction l with
  | nil => intro start; simp [specCallsFrom]
  | cons u rest ih =>
    intro start
    simp only [specCallsFrom, List.length_append, ih (start + 1), List.countP_cons]
    cases u <;>
      simp [specCallAt, GenericTaskResourceUse.isResource, GenericTaskResourceUse.type,
        TaskBufferUse.type, TaskImageUse.type] <;> omega

theorem specCallsFrom_buf_mem (l : List GenericTaskResourceUse) :
    ∀ start i u, TaskUseCall.buf_fn i u ∈ specCallsFrom start l ↔
      start ≤ i ∧ l[i - start]? = some (GenericTaskResourceUse.buffer u) := by
  induction l with
  | nil => intro start i u; simp [specCallsFrom]
  | cons g rest ih =>
    intro start i u
    simp only [specCallsFrom, List.mem_append, ih (start + 1)]
    by_cases hi : i = start
    · subst hi
      cases g <;> simp [specCallAt]
      exact eq_comm
    · have hne : ∀ call, call ∈ specCallAt start g → call.index = start :=
        specCallAt_index start g
      constructor
      · rintro (h | ⟨h1, h2⟩)
        · have := hne _ h
          simp [TaskUseCall.index] at this
          exact absurd this hi
        · refine ⟨by omega, ?_⟩
          have : i - start = (i - (start + 1)) + 1 := by omega
          rw [this, List.getElem?_cons_succ]
          exact h2
      · rintro ⟨h1, h2⟩
        right
        refine ⟨by omega, ?_⟩
        have : i - start = (i - (start + 1)) + 1 := by omega
        rw [this, List.getElem?_cons_succ] at h2
        exact h2

theorem specCallsFrom_img_mem (l : List GenericTaskResourceUse) :
    ∀ start i u, TaskUseCall.img_fn i u ∈ specCallsFrom start l ↔
      start ≤ i ∧ l[i - start]? = some (GenericTaskResourceUse.image u) := by
  induction l with
  | nil => intro start i u; simp [specCallsFrom]
  | cons g rest ih =>
    intro start i u
    simp only [specCallsFrom, List.mem_append, ih (start + 1)]
    by_cases hi : i = start
    · subst hi
      cases g <;> simp [specCallAt]
      exact eq_comm
    · have hne : ∀ call, call ∈ specCallAt start g → call.index = start :=
        specCallAt_index start g
      constructor
      · rintro (h | ⟨h1, h2⟩)
        · have := hne _ h
          simp [TaskUseCall.index] at this
          exact absurd this hi
        · refine ⟨by omega, ?_⟩
          have : i - start = (i - (start + 1)) + 1 := by omega
          rw [this, List.getElem?_cons_succ]
          exact h2
      · rintro ⟨h1, h2⟩
        right
        refine ⟨by omega, ?_⟩
        have : i - start = (i - (start + 1)) + 1 := by omega
        rw [this, List.getElem?_cons_succ] at h2
        exact h2

/-- The loop, started at the end of the already visited uses `pre`, finishes
with the invocations the claim describes for the remaining uses `rest`. -/
theorem for_each_loop_finishes (s : UseSpan) (hsize : s.size < 2 ^ 32) :
    ∀ (rest pre : List GenericTaskResourceUse) (calls : List TaskUseCall) (fuel : Nat),
      s.data = pre ++ rest → s.size = (pre ++ rest).length → rest.length < fuel →
      for_each_loop s fuel pre.length calls
        = ForEachRun.finished (calls ++ specCallsFrom pre.length rest) := by
  intro rest
  induction rest with
  | nil =>
    intro pre calls fuel hdata hlen hfuel
    obtain ⟨f, rfl⟩ : ∃ f, fuel = f + 1 := ⟨fuel - 1, by simp at hfuel; omega⟩
    simp at hlen
    simp [for_each_loop, specCallsFrom, hlen]
  | cons u rest ih =>
    intro pre calls fuel hdata hlen hfuel
    obtain ⟨f, rfl⟩ : ∃ f, fuel = f + 1 := ⟨fuel - 1, by simp at hfuel; omega⟩
    have hlt : pre.length < s.size := by rw [hlen]; simp
    have hget : s.data[pre.length]? = some u := by
      rw [hdata, List.getElem?_append_right (le_refl _)]; simp
    have hnext : (pre.length + 1) % 2 ^ 32 = (pre ++ [u]).length := by
      simp only [List.length_append, List.length_singleton]
      apply Nat.mod_eq_of_lt
      omega
    have hdata2 : s.data = (pre ++ [u]) ++ rest := by simp [hdata]
    have hlen2 : s.size = ((pre ++ [u]) ++ rest).length := by simp [hlen]
    have hfuel2 : rest.length < f := by simp at hfuel; omega
    have hplen : (pre ++ [u]).length = pre.length + 1 := by simp
    unfold for_each_loop
    rw [if_pos hlt, hget]
    cases u with
    | none =>
      simp only [GenericTaskResourceUse.type, hnext]
      rw [ih (pre ++ [GenericTaskResourceUse.none]) calls f hdata2 hlen2 hfuel2, hplen]
      simp [specCallsFrom, specCallAt]
    | constant =>
      simp only [GenericTaskResourceUse.type, hnext]
      rw [ih (pre ++ [GenericTaskResourceUse.constant]) calls f hdata2 hlen2 hfuel2, hplen]
      simp [specCallsFrom, specCallAt]
    | buffer b =>
      have hfrom : TaskBufferUse.from (GenericTaskResourceUse.buffer b) = Except.ok b := rfl
      simp only [GenericTaskResourceUse.type, TaskBufferUse.type, hfrom, hnext]
      rw [ih (pre ++ [GenericTaskResourceUse.buffer b]) _ f hdata2 hlen2 hfuel2, hplen]
      simp [specCallsFrom, specCallAt]
    | image m =>
      have hfrom : TaskImageUse.from (GenericTaskResourceUse.image m) = Except.ok m := rfl
      simp only [GenericTaskResourceUse.type, TaskImageUse.type, hfrom, hnext]
      rw [ih (pre ++ [GenericTaskResourceUse.image m]) _ f hdata2 hlen2 hfuel2, hplen]
      simp [specCallsFrom, specCallAt]

/-- On a span of at least `2 ^ 32` buffer uses the loop counter wraps to zero
before it can reach the size: every step makes one more invocation and the loop
is still running when the fuel is used up. -/
theorem for_each_loop_wraps (n : Nat) (hn : 2 ^ 32 ≤ n) (u : TaskBufferUse) :
    ∀ (fuel index : Nat) (calls : List TaskUseCall), index < 2 ^ 32 →
      ∃ calls2, for_each_loop
          { data := List.replicate n (GenericTaskResourceUse.buffer u), size := n } fuel index calls
          = ForEachRun.running calls2 ∧ calls2.length = calls.length + fuel := by
  intro fuel
  induction fuel with
  | zero => intro index calls _; exact ⟨calls, rfl, rfl⟩
  | succ f ih =>
    intro index calls hindex
    have hlt : index < n := by omega
    have hget : (List.replicate n (GenericTaskResourceUse.buffer u))[index]?
        = some (GenericTaskResourceUse.buffer u) := by
      rw [List.getElem?_replicate]; simp [hlt]
    have hfrom : TaskBufferUse.from (GenericTaskResourceUse.buffer u) = Except.ok u := rfl
    have hmod : (index + 1) % 2 ^ 32 < 2 ^ 32 := Nat.mod_lt _ (by norm_num)
    obtain ⟨calls2, h1, h2⟩ := ih ((index + 1) % 2 ^ 32) (calls ++ [TaskUseCall.buf_fn index u]) hmod
    refine ⟨calls2, ?_, ?_⟩
    · unfold for_each_loop
      simp only [if_pos hlt, hget, GenericTaskResourceUse.type, TaskBufferUse.type, hfrom]
      exact h1
    · rw [h2]; simp; omega

/-- Claim C1, as amended: for every container that holds exactly `count` uses
and whose `count` is below `2 ^ 32`, `for_each` returns once it is given more
than `count` loop tests, and the callback invocations it has made are the ones
of `specForEachCalls`: their indices ascend strictly, `buf_fn (i, u)` is among
them exactly when the use at position `i` is the buffer use `u`, `img_fn (i, u)`
exactly when it is the image use `u` (so nothing is called for `NONE` and
`CONSTANT`), and their number is the number of uses tagged `BUFFER` or `IMAGE`. -/
theorem for_each_visits_uses_in_order (c : GenericTaskArgsContainer)
    (hmem : c.memory.length = c.count) (hcount : c.count < 2 ^ 32) :
    ∃ calls : List TaskUseCall,
      (∀ fuel, c.count < fuel → c.for_each fuel = ForEachRun.finished calls) ∧
      calls = specForEachCalls c ∧
      calls.Pairwise (fun a b => a.index < b.index) ∧
      (∀ i u, TaskUseCall.buf_fn i u ∈ calls ↔ c.memory[i]? = some (GenericTaskResourceUse.buffer u)) ∧
      (∀ i u, TaskUseCall.img_fn i u ∈ calls ↔ c.memory[i]? = some (GenericTaskResourceUse.image u)) ∧
      (∀ call ∈ calls, call.index < c.count) ∧
      calls.length = c.memory.countP (fun u => u.isResource) := by
  refine ⟨specForEachCalls c, ?_, rfl, specCallsFrom_ascending _ 0, ?_, ?_, ?_,
    specCallsFrom_length _ 0⟩
  · intro fuel hfuel
    have h := for_each_loop_finishes c.span hcount c.memory [] [] fuel rfl
      (by simp [GenericTaskArgsContainer.span, hmem]) (by omega)
    simpa [GenericTaskArgsContainer.for_each, specForEachCalls] using h
  · intro i u
    simp [specForEachCalls, specCallsFrom_buf_mem]
  · intro i u
    simp [specForEachCalls, specCallsFrom_img_mem]
  · intro call hcall
    cases call with
    | buf_fn i u =>
      have h := (specCallsFrom_buf_mem c.memory 0 i u).1 hcall
      have h2 := h.2
      simp only [Nat.sub_zero] at h2
      have := (List.getElem?_eq_some_iff.1 h2).1
      simp [TaskUseCall.index]; omega
    | img_fn i u =>
      have h := (specCallsFrom_img_mem c.memory 0 i u).1 hcall
      have h2 := h.2
      simp only [Nat.sub_zero] at h2
      have := (List.getElem?_eq_some_iff.1 h2).1
      simp [TaskUseCall.index]; omega

/-- Witness of `for_each_visits_uses_in_order` on a container with one use of each tag. -/
theorem for_each_visits_uses_in_order_witness :
    sampleContainer.memory.length = sampleContainer.count ∧ sampleContainer.count < 2 ^ 32 ∧
    ∃ calls : List TaskUseCall,
      (∀ fuel, sampleContainer.count < fuel →
        sampleContainer.for_each fuel = ForEachRun.finished calls) ∧
      calls = specForEachCalls sampleContainer ∧
      calls.Pairwise (fun a b => a.index < b.index) ∧
      (∀ i u, TaskUseCall.buf_fn i u ∈ calls ↔
        sampleContainer.memory[i]? = some (GenericTaskResourceUse.buffer u)) ∧
      (∀ i u, TaskUseCall.img_fn i u ∈ calls ↔
        sampleContainer.memory[i]? = some (GenericTaskResourceUse.image u)) ∧
      (∀ call ∈ calls, call.index < sampleContainer.count) ∧
      calls.length = sampleContainer.memory.countP (fun u => u.isResource) :=
  ⟨by decide, by decide, for_each_visits_uses_in_order sampleContainer (by decide) (by decide)⟩

/-- Claim C1 fails as stated: the container of `2 ^ 32` buffer uses holds
exactly `count` uses, yet `for_each` never returns on it, and after `fuel`
loop tests it has made `fuel` invocations of `buf_fn`, which exceeds the
`2 ^ 32` uses of the container as soon as `fuel` does. -/
theorem for_each_wraps_on_huge_container :
    hugeContainer.memory.length = hugeContainer.count ∧
    (∀ fuel calls, hugeContainer.for_each fuel ≠ ForEachRun.finished calls) ∧
    (∀ fuel, ∃ calls, hugeContainer.for_each fuel = ForEachRun.running calls ∧
      calls.length = fuel) := by
  have key : ∀ fuel, ∃ calls, hugeContainer.for_each fuel = ForEachRun.running calls ∧
      calls.length = fuel := by
    intro fuel
    obtain ⟨calls2, h1, h2⟩ :=
      for_each_loop_wraps 4294967296 (by norm_num) {} fuel 0 [] (by norm_num)
    exact ⟨calls2, h1, by simpa using h2⟩
  refine ⟨List.length_replicate _ _, ?_, key⟩
  · intro fuel calls h
    obtain ⟨calls2, h1, _⟩ := key fuel
    rw [h1] at h
    cases h

/-! ## Theorems: the access enumerations -/

/-- Claim C2: `TaskBufferAccess` has exactly 28 values with the pairwise
distinct ordinals 0 to 27; every value is `NONE`, or the READ, WRITE or
READ_WRITE access of one of the seven shader scopes (named by the scope and
the direction), or one of the six accesses INDEX_READ, DRAW_INDIRECT_INFO_READ,
TRANSFER_READ, TRANSFER_WRITE, HOST_TRANSFER_READ, HOST_TRANSFER_WRITE; these
three groups do not overlap and the matrix has no repeated entry. -/
theorem TaskBufferAccess_closed_enumeration :
    Fintype.card TaskBufferAccess = 28 ∧
    (∀ a b : TaskBufferAccess, a.toNat = b.toNat → a = b) ∧
    (∀ a : TaskBufferAccess, a.toNat < 28) ∧
    (∀ a : TaskBufferAccess, a = TaskBufferAccess.NONE ∨
      (∃ s k, a = specShaderBufferAccess s k) ∨ a ∈ specOtherBufferAccesses) ∧
    (∀ s k t l, specShaderBufferAccess s k = specShaderBufferAccess t l → s = t ∧ k = l) ∧
    (∀ s k, (specShaderBufferAccess s k).name = s.stem ++ k.ending) ∧
    (∀ s k, specShaderBufferAccess s k ≠ TaskBufferAccess.NONE ∧
      specShaderBufferAccess s k ∉ specOtherBufferAccesses) ∧
    TaskBufferAccess.NONE ∉ specOtherBufferAccesses ∧
    specOtherBufferAccesses.Nodup ∧
    specOtherBufferAccesses.map TaskBufferAccess.name =
      ["INDEX_READ", "DRAW_INDIRECT_INFO_READ", "TRANSFER_READ", "TRANSFER_WRITE",
       "HOST_TRANSFER_READ", "HOST_TRANSFER_WRITE"] ∧
    Fintype.card ShaderScope = 7 ∧ Fintype.card ShaderAccessKind = 3 := by
  refine ⟨rfl, by decide, by decide, by decide, by decide, by decide, by decide, by decide,
    by decide, rfl, rfl, rfl⟩

/-- Claim C3: `NONE` and the 21 entries of the shader-stage matrix exist in
`TaskBufferAccess` and in `TaskImageAccess` under the same name and with the
same ordinal, and these are the image accesses with the ordinals 0 to 21; the
image accesses from ordinal 22 on are exactly the eleven values TRANSFER_READ
to PRESENT of the claim, which makes 33 values; `PRESENT` names an image
access and no buffer access. -/
theorem TaskImageAccess_shares_shader_matrix :
    TaskBufferAccess.NONE.toNat = 0 ∧ TaskImageAccess.NONE.toNat = 0 ∧
    TaskBufferAccess.NONE.name = TaskImageAccess.NONE.name ∧
    (∀ s k, (specShaderBufferAccess s k).toNat = (specShaderImageAccess s k).toNat ∧
      (specShaderBufferAccess s k).name = (specShaderImageAccess s k).name ∧
      (specShaderImageAccess s k).toNat = 1 + 7 * k.toNat + s.toNat) ∧
    (∀ m : TaskImageAccess, m.toNat < 22 ↔
      (m = TaskImageAccess.NONE ∨ ∃ s k, m = specShaderImageAccess s k)) ∧
    (∀ b : TaskBufferAccess, b.toNat < 22 ↔
      (b = TaskBufferAccess.NONE ∨ ∃ s k, b = specShaderBufferAccess s k)) ∧
    (∀ (b : TaskBufferAccess) (m : TaskImageAccess),
      b.toNat < 22 → (b.toNat = m.toNat ↔ b.name = m.name)) ∧
    (∀ m : TaskImageAccess, 22 ≤ m.toNat ↔ m ∈ specOtherImageAccesses) ∧
    specOtherImageAccesses.length = 11 ∧ specOtherImageAccesses.Nodup ∧
    specOtherImageAccesses.map TaskImageAccess.name =
      ["TRANSFER_READ", "TRANSFER_WRITE", "COLOR_ATTACHMENT", "DEPTH_ATTACHMENT",
       "STENCIL_ATTACHMENT", "DEPTH_STENCIL_ATTACHMENT", "DEPTH_ATTACHMENT_READ",
       "STENCIL_ATTACHMENT_READ", "DEPTH_STENCIL_ATTACHMENT_READ", "RESOLVE_WRITE", "PRESENT"] ∧
    Fintype.card TaskImageAccess = 33 ∧
    (∀ a b : TaskImageAccess, a.toNat = b.toNat → a = b) ∧
    (∀ m : TaskImageAccess, m.toNat < 33) ∧
    TaskImageAccess.PRESENT.name = "PRESENT" ∧
    (∀ m : TaskImageAccess, m.name = "PRESENT" → m = TaskImageAccess.PRESENT) ∧
    (∀ b : TaskBufferAccess, b.name ≠ "PRESENT") := by
  refine ⟨rfl, rfl, rfl, by decide, by decide, by decide, by decide, by decide, rfl,
    by decide, rfl, rfl, by decide, by decide, rfl, by decide, by decide⟩

/-! ## Theorems: casts, accessors and constructors -/

/-- Claim C4: `TaskBufferUse::from` passes its assertion exactly on the generic
uses tagged `BUFFER` and `TaskImageUse::from` exactly on those tagged `IMAGE`;
on every other use the assertion fires with the message "invalid
TaskResourceUse cast". No generic use passes both casts, and the
default-constructed generic use, tagged `NONE`, passes neither. -/
theorem from_succeeds_iff_tag_matches :
    (∀ g : GenericTaskResourceUse,
      ((∃ u, TaskBufferUse.from g = Except.ok u) ↔ g.type = TaskResourceUseType.BUFFER) ∧
      (g.type ≠ TaskResourceUseType.BUFFER →
        TaskBufferUse.from g = Except.error "invalid TaskResourceUse cast") ∧
      ((∃ u, TaskImageUse.from g = Except.ok u) ↔ g.type = TaskResourceUseType.IMAGE) ∧
      (g.type ≠ TaskResourceUseType.IMAGE →
        TaskImageUse.from g = Except.error "invalid TaskResourceUse cast") ∧
      ¬ ((∃ u, TaskBufferUse.from g = Except.ok u) ∧ (∃ u, TaskImageUse.from g = Except.ok u))) ∧
    (default : GenericTaskResourceUse).type = TaskResourceUseType.NONE ∧
    TaskBufferUse.from default = Except.error "invalid TaskResourceUse cast" ∧
    TaskImageUse.from default = Except.error "invalid TaskResourceUse cast" := by
  refine ⟨?_, rfl, rfl, rfl⟩
  intro g
  cases g with
  | none =>
    refine ⟨⟨?_, ?_⟩, fun _ => rfl, ⟨?_, ?_⟩, fun _ => rfl, ?_⟩
    · rintro ⟨u, h⟩; cases h
    · intro h; cases h
    · rintro ⟨u, h⟩; cases h
    · intro h; cases h
    · rintro ⟨⟨u, h⟩, _⟩; cases h
  | constant =>
    refine ⟨⟨?_, ?_⟩, fun _ => rfl, ⟨?_, ?_⟩, fun _ => rfl, ?_⟩
    · rintro ⟨u, h⟩; cases h
    · intro h; cases h
    · rintro ⟨u, h⟩; cases h
    · intro h; cases h
    · rintro ⟨⟨u, h⟩, _⟩; cases h
  | buffer b =>
    refine ⟨⟨fun _ => rfl, fun _ => ⟨b, rfl⟩⟩, fun h => absurd rfl h, ⟨?_, ?_⟩, fun _ => rfl, ?_⟩
    · rintro ⟨u, h⟩; cases h
    · intro h; cases h
    · rintro ⟨_, ⟨u, h⟩⟩; cases h
  | image m =>
    refine ⟨⟨?_, ?_⟩, fun _ => rfl, ⟨fun _ => rfl, fun _ => ⟨m, rfl⟩⟩, fun h => absurd rfl h, ?_⟩
    · rintro ⟨u, h⟩; cases h
    · intro h; cases h
    · rintro ⟨⟨u, h⟩, _⟩; cases h

/-- Claim C5: on a `TaskBufferUse` or `TaskImageUse` that is default-constructed
or constructed from its init, no runtime buffer, image or view is attached, and
`buffer(i)`, `image(i)` and `view(i)` trip the assertion "this function is
only allowed to be called within a task callback" for every index `i`, also
when the index is left at its default of zero. -/
theorem accessors_trip_outside_task_callback :
    (∀ (init : TaskBufferUseInit) (i : Nat),
      (TaskBufferUse.ofInit init).buffers = [] ∧
      (TaskBufferUse.ofInit init).buffer i =
        Except.error "this function is only allowed to be called within a task callback") ∧
    (∀ (init : TaskImageUseInit) (i : Nat),
      (TaskImageUse.ofInit init).images = [] ∧ (TaskImageUse.ofInit init).views = [] ∧
      (TaskImageUse.ofInit init).image i =
        Except.error "this function is only allowed to be called within a task callback" ∧
      (TaskImageUse.ofInit init).view i =
        Except.error "this function is only allowed to be called within a task callback") ∧
    (∀ i : Nat,
      ({} : TaskBufferUse).buffer i =
        Except.error "this function is only allowed to be called within a task callback" ∧
      ({} : TaskImageUse).image i =
        Except.error "this function is only allowed to be called within a task callback" ∧
      ({} : TaskImageUse).view i =
        Except.error "this function is only allowed to be called within a task callback") ∧
    (∀ init : TaskBufferUseInit, tripped ((TaskBufferUse.ofInit init).buffer) = true) ∧
    (∀ init : TaskImageUseInit, tripped ((TaskImageUse.ofInit init).image) = true ∧
      tripped ((TaskImageUse.ofInit init).view) = true) ∧
    tripped (({} : TaskBufferUse).buffer) = true ∧
    tripped (({} : TaskImageUse).image) = true ∧
    tripped (({} : TaskImageUse).view) = true := by
  refine ⟨fun _ _ => ⟨rfl, rfl⟩, fun _ _ => ⟨rfl, rfl, rfl, rfl⟩, fun _ => ⟨rfl, rfl, rfl⟩,
    fun _ => rfl, fun _ => ⟨rfl, rfl⟩, rfl, rfl, rfl⟩

/-- Claim C6: a use constructed from its init keeps exactly the declared fields.
`TaskBufferUse(b)` is tagged `BUFFER` and has the id and access of `b`;
`TaskImageUse(m)` is tagged `IMAGE` and has the id, access, slice and view type
of `m`, the view type being `MAX_ENUM` when the init is built without one; the
name of the init does not enter the use: inits that differ in the name alone
give the same use. -/
theorem use_of_init_keeps_declared_fields :
    (∀ b : TaskBufferUseInit,
      (TaskBufferUse.ofInit b).type = TaskResourceUseType.BUFFER ∧
      (TaskBufferUse.ofInit b).to_generic.type = TaskResourceUseType.BUFFER ∧
      (TaskBufferUse.ofInit b).id = b.id ∧
      (TaskBufferUse.ofInit b).access = b.access ∧
      (∀ n : String, TaskBufferUse.ofInit { b with name := n } = TaskBufferUse.ofInit b)) ∧
    (∀ m : TaskImageUseInit,
      (TaskImageUse.ofInit m).type = TaskResourceUseType.IMAGE ∧
      (TaskImageUse.ofInit m).to_generic.type = TaskResourceUseType.IMAGE ∧
      (TaskImageUse.ofInit m).id = m.id ∧
      (TaskImageUse.ofInit m).access = m.access ∧
      (TaskImageUse.ofInit m).slice = m.slice ∧
      (TaskImageUse.ofInit m).view_type = m.view_type ∧
      (∀ n : String, TaskImageUse.ofInit { m with name := n } = TaskImageUse.ofInit m)) ∧
    (∀ (i : TaskImageId) (a : TaskImageAccess) (s : ImageMipArraySlice) (n : String),
      (TaskImageUse.ofInit { id := i, access := a, slice := s, name := n }).view_type
        = ImageViewType.MAX_ENUM) ∧
    (∀ (b c : TaskBufferUse), b.id = c.id → b.access = c.access → b.buffers = c.buffers → b = c) ∧
    (∀ (m k : TaskImageUse), m.id = k.id → m.access = k.access → m.slice = k.slice →
      m.view_type = k.view_type → m.images = k.images → m.views = k.views → m = k) := by
  refine ⟨fun _ => ⟨rfl, rfl, rfl, rfl, fun _ => rfl⟩,
    fun _ => ⟨rfl, rfl, rfl, rfl, rfl, rfl, fun _ => rfl⟩, fun _ _ _ _ => rfl, ?_, ?_⟩
  · intro b c h1 h2 h3
    cases b; cases c; simp_all
  · intro m k h1 h2 h3 h4 h5 h6
    cases m; cases k; simp_all

/-! ## Theorems: resource ids -/

theorem u32_three_way_eq (a b : Nat) : u32_three_way a b = Ordering.eq ↔ a = b := by
  unfold u32_three_way
  by_cases h1 : a < b
  · simp [h1]; omega
  · by_cases h2 : a = b
    · simp [h2]
    · simp [h1, h2]

theorem u32_three_way_lt (a b : Nat) : u32_three_way a b = Ordering.lt ↔ a < b := by
  unfold u32_three_way
  by_cases h1 : a < b
  · simp [h1]
  · by_cases h2 : a = b
    · simp [h2]
    · simp [h1, h2]

theorem u32_three_way_gt (a b : Nat) : u32_three_way a b = Ordering.gt ↔ b < a := by
  unfold u32_three_way
  by_cases h1 : a < b
  · simp [h1]; omega
  · by_cases h2 : a = b
    · simp [h2]
    · simp [h1, h2]; omega

theorem ordering_beq_iff (o p : Ordering) : (o == p) = true ↔ o = p := by
  cases o <;> cases p <;> decide

theorem three_way_lt_iff (a b : TaskGPUResourceId) :
    a.three_way b = Ordering.lt ↔
      specLexLess (a.task_list_index, a.index) (b.task_list_index, b.index) := by
  unfold TaskGPUResourceId.three_way specLexLess
  have h1 := u32_three_way_eq a.task_list_index b.task_list_index
  have h2 := u32_three_way_lt a.task_list_index b.task_list_index
  have h3 := u32_three_way_gt a.task_list_index b.task_list_index
  have h4 := u32_three_way_lt a.index b.index
  cases h : u32_three_way a.task_list_index b.task_list_index <;> simp_all

theorem three_way_gt_iff (a b : TaskGPUResourceId) :
    a.three_way b = Ordering.gt ↔
      specLexLess (b.task_list_index, b.index) (a.task_list_index, a.index) := by
  unfold TaskGPUResourceId.three_way specLexLess
  have h1 := u32_three_way_eq a.task_list_index b.task_list_index
  have h2 := u32_three_way_lt a.task_list_index b.task_list_index
  have h3 := u32_three_way_gt a.task_list_index b.task_list_index
  have h4 := u32_three_way_gt a.index b.index
  cases h : u32_three_way a.task_list_index b.task_list_index <;> simp_all
  omega

theorem equals_iff (a b : TaskGPUResourceId) :
    a.equals b = true ↔ a.task_list_index = b.task_list_index ∧ a.index = b.index := by
  simp [TaskGPUResourceId.equals]

theorem id_eq_iff (a b : TaskGPUResourceId) :
    a = b ↔ a.task_list_index = b.task_list_index ∧ a.index = b.index := by
  cases a; cases b; simp

/-- Claim C7: two `TaskGPUResourceId` values, and so two `TaskBufferId` or two
`TaskImageId` values, are equal exactly when both members are equal; the
defaulted three-way comparison orders ids lexicographically with
`task_list_index` first; `<` is irreflexive and transitive, and for every pair
exactly one of `a < b`, `a == b`, `a > b` holds. -/
theorem resource_id_order_is_lexicographic :
    (∀ a b : TaskGPUResourceId,
      (a.equals b = true ↔ a.task_list_index = b.task_list_index ∧ a.index = b.index) ∧
      (a.equals b = true ↔ a = b) ∧
      (a.three_way b = Ordering.eq ↔ a.equals b = true) ∧
      (a.less b = true ↔
        specLexLess (a.task_list_index, a.index) (b.task_list_index, b.index)) ∧
      (a.greater b = true ↔ b.less a = true) ∧
      ((a.less b = true ∧ a.equals b = false ∧ a.greater b = false) ∨
       (a.less b = false ∧ a.equals b = true ∧ a.greater b = false) ∨
       (a.less b = false ∧ a.equals b = false ∧ a.greater b = true))) ∧
    (∀ a : TaskGPUResourceId, a.less a = false) ∧
    (∀ a b c : TaskGPUResourceId, a.less b = true → b.less c = true → a.less c = true) ∧
    (∀ a b : TaskBufferId, a.equals b = true ↔ a = b) ∧
    (∀ a b : TaskBufferId, a.equals b = true ↔
      a.task_list_index = b.task_list_index ∧ a.index = b.index) ∧
    (∀ a b : TaskImageId, a.equals b = true ↔ a = b) ∧
    (∀ a b : TaskImageId, a.equals b = true ↔
      a.task_list_index = b.task_list_index ∧ a.index = b.index) := by
  have hless : ∀ a b : TaskGPUResourceId, a.less b = true ↔
      specLexLess (a.task_list_index, a.index) (b.task_list_index, b.index) := by
    intro a b
    rw [← three_way_lt_iff]
    exact ordering_beq_iff _ _
  have hgreater : ∀ a b : TaskGPUResourceId, a.greater b = true ↔
      specLexLess (b.task_list_index, b.index) (a.task_list_index, a.index) := by
    intro a b
    rw [← three_way_gt_iff]
    exact ordering_beq_iff _ _
  refine ⟨?_, ?_, ?_, ?_, ?_, ?_, ?_⟩
  · intro a b
    refine ⟨equals_iff a b, ?_, ?_, hless a b, ?_, ?_⟩
    · rw [equals_iff, id_eq_iff]
    · rw [equals_iff]
      unfold TaskGPUResourceId.three_way
      have h1 := u32_three_way_eq a.task_list_index b.task_list_index
      have h4 := u32_three_way_eq a.index b.index
      cases h : u32_three_way a.task_list_index b.task_list_index <;> simp_all
    · rw [hgreater, hless]
    · have e := equals_iff a b
      have l := hless a b
      have g := hgreater a b
      unfold specLexLess at l g
      simp only at l g
      rcases Nat.lt_trichotomy a.task_list_index b.task_list_index with h | h | h
      · left
        refine ⟨l.2 (Or.inl h), ?_, ?_⟩
        · rw [Bool.eq_false_iff]; intro he; have := (e.1 he).1; omega
        · rw [Bool.eq_false_iff]; intro hg; have := g.1 hg; omega
      · rcases Nat.lt_trichotomy a.index b.index with k | k | k
        · left
          refine ⟨l.2 (Or.inr ⟨h, k⟩), ?_, ?_⟩
          · rw [Bool.eq_false_iff]; intro he; have := (e.1 he).2; omega
          · rw [Bool.eq_false_iff]; intro hg; have := g.1 hg; omega
        · right; left
          refine ⟨?_, e.2 ⟨h, k⟩, ?_⟩
          · rw [Bool.eq_false_iff]; intro hl; have := l.1 hl; omega
          · rw [Bool.eq_false_iff]; intro hg; have := g.1 hg; omega
        · right; right
          refine ⟨?_, ?_, g.2 (Or.inr ⟨h.symm, k⟩)⟩
          · rw [Bool.eq_false_iff]; intro hl; have := l.1 hl; omega
          · rw [Bool.eq_false_iff]; intro he; have := (e.1 he).2; omega
      · right; right
        refine ⟨?_, ?_, g.2 (Or.inl h)⟩
        · rw [Bool.eq_false_iff]; intro hl; have := l.1 hl; omega
        · rw [Bool.eq_false_iff]; intro he; have := (e.1 he).1; omega
  · intro a
    rw [Bool.eq_false_iff]
    intro h
    have := (hless a a).1 h
    unfold specLexLess at this
    simp at this
  · intro a b c hab hbc
    have h1 := (hless a b).1 hab
    have h2 := (hless b c).1 hbc
    apply (hless a c).2
    unfold specLexLess at *
    simp only at *
    omega
  · intro a b
    unfold TaskBufferId.equals
    rw [equals_iff]
    obtain ⟨⟨a1, a2⟩⟩ := a
    obtain ⟨⟨b1, b2⟩⟩ := b
    simp
  · intro a b
    unfold TaskBufferId.equals
    rw [equals_iff]
  · intro a b
    unfold TaskImageId.equals
    rw [equals_iff]
    obtain ⟨⟨a1, a2⟩⟩ := a
    obtain ⟨⟨b1, b2⟩⟩ := b
    simp
  · intro a b
    unfold TaskImageId.equals
    rw [equals_iff]

/-! ## Theorems: initial values -/

/-- Claim C8: `NONE` is the first enumerator, with value zero, of
`TaskBufferAccess` and of `TaskImageAccess`, so it is the value a
value-initialised access has; the default-constructed `TaskBufferUseInit`,
`TaskImageUseInit`, `TaskBufferUse` and `TaskImageUse` declare the access
`NONE`, and the default-constructed `ImageSliceState` has an empty latest
access (no stage, no access flag), the layout `UNDEFINED` and the default
slice. -/
theorem none_is_the_initial_state :
    TaskBufferAccess.NONE.toNat = 0 ∧ TaskImageAccess.NONE.toNat = 0 ∧
    (∀ a : TaskBufferAccess, a.toNat = 0 ↔ a = TaskBufferAccess.NONE) ∧
    (∀ a : TaskImageAccess, a.toNat = 0 ↔ a = TaskImageAccess.NONE) ∧
    ({} : TaskBufferUseInit).access = TaskBufferAccess.NONE ∧
    ({} : TaskImageUseInit).access = TaskImageAccess.NONE ∧
    ({} : TaskBufferUse).access = TaskBufferAccess.NONE ∧
    ({} : TaskImageUse).access = TaskImageAccess.NONE ∧
    (TaskBufferUse.ofInit {}).access = TaskBufferAccess.NONE ∧
    (TaskImageUse.ofInit {}).access = TaskImageAccess.NONE ∧
    ({} : ImageSliceState).latest_access = { stages := 0, type := 0 } ∧
    ({} : ImageSliceState).latest_layout = ImageLayout.UNDEFINED ∧
    ({} : ImageSliceState).slice = ({} : ImageMipArraySlice) := by
  refine ⟨rfl, rfl, by decide, by decide, rfl, rfl, rfl, rfl, rfl, rfl, rfl, rfl, rfl⟩



/-! ## Theorems: the task list -/

theorem foldl_place_task_flatten (tl : TaskList) (k : AccessClassifier) :
    ∀ (tasks : List TaskInfo) (acc : List (List TaskInfo) × List TaskInfo),
      (tasks.foldl (tl.place_task k) acc).1.flatten ++ (tasks.foldl (tl.place_task k) acc).2
        = acc.1.flatten ++ acc.2 ++ tasks := by
  intro tasks
  induction tasks with
  | nil => intro acc; simp
  | cons t rest ih =>
    intro acc
    rw [List.foldl_cons, ih]
    unfold TaskList.place_task
    split_ifs <;> simp

/-- The batches of a plan, put end to end, are the tasks in declaration order. -/
theorem compile_batches_flatten (tl : TaskList) (k : AccessClassifier) (tasks : List TaskInfo) :
    (tl.compile_batches k tasks).flatten = tasks := by
  have h := foldl_place_task_flatten tl k tasks ([], [])
  simp only [List.flatten_nil, List.nil_append] at h
  unfold TaskList.compile_batches
  simp only
  split_ifs with he
  · rw [List.isEmpty_iff] at he
    rw [he, List.append_nil] at h
    exact h
  · rw [List.flatten_append]
    simpa using h

theorem validate_tasks_ok (tl : TaskList) (k : AccessClassifier) :
    ∀ tasks : List TaskInfo, tl.validate_tasks k tasks = Except.ok () →
      ∀ t ∈ tasks, tl.validate_task k t = Except.ok () := by
  intro tasks
  induction tasks with
  | nil => intro _ t ht; simp at ht
  | cons x rest ih =>
    intro h t ht
    unfold TaskList.validate_tasks at h
    cases hx : tl.validate_task k x with
    | error e => rw [hx] at h; cases h
    | ok v =>
      rw [hx] at h
      rcases List.mem_cons.1 ht with rfl | hmem
      · exact hx
      · exact ih h t hmem

theorem validate_task_ids (tl : TaskList) (k : AccessClassifier) (t : TaskInfo)
    (h : tl.validate_task k t = Except.ok ()) :
    (∀ u ∈ t.resources.buffers, tl.has_buffer u.id = true) ∧
    (∀ u ∈ t.resources.images, tl.has_image u.id = true) := by
  unfold TaskList.validate_task at h
  split_ifs at h with h1 h2 h3
  simp only [Bool.and_eq_true, List.all_eq_true] at h1
  exact h1

theorem image_uses_valid (tl : TaskList) (k : AccessClassifier)
    (h : tl.validate_tasks k tl.tasks = Except.ok ()) :
    ∀ v ∈ image_uses tl.tasks, tl.has_image v.id = true := by
  intro v hv
  unfold image_uses at hv
  rw [List.mem_flatMap] at hv
  obtain ⟨t, ht, hvt⟩ := hv
  exact (validate_task_ids tl k t (validate_tasks_ok tl k tl.tasks h t ht)).2 v hvt

theorem image_id_eq_of_index (a b : TaskImageId)
    (h1 : a.task_list_index = b.task_list_index) (h2 : a.index = b.index) : a = b := by
  obtain ⟨⟨a1, a2⟩⟩ := a
  obtain ⟨⟨b1, b2⟩⟩ := b
  simp_all

/-- Walking a list of image uses leaves every sub-resource that the slice of
the last use of an image covers in the access and layout of that use. -/
theorem foldl_track_image_use_last (tl : TaskList) (k : AccessClassifier) (T : Nat) :
    ∀ (uses : List TaskImageUseInfo) (st : Nat → SubResource → Access × ImageLayout)
      (id : TaskImageId) (u : TaskImageUseInfo) (r : SubResource),
      (∀ v ∈ uses, v.id.task_list_index = T) →
      (uses.filter (fun v => decide (v.id = id))).getLast? = some u →
      (tl.use_slice u).covers r = true →
      (uses.foldl (tl.track_image_use k) st) id.index r
        = k.image_access_to_stage_access_layout u.access := by
  intro uses
  induction uses using List.reverseRecOn with
  | nil => intro st id u r _ h; simp at h
  | append_singleton l x ih =>
    intro st id u r hT h hr
    rw [List.foldl_append, List.foldl_cons, List.foldl_nil]
    rw [List.filter_append] at h
    by_cases hx : x.id = id
    · have : List.filter (fun v => decide (v.id = id)) [x] = [x] := by simp [hx]
      rw [this, List.getLast?_concat] at h
      cases h
      simp [TaskList.track_image_use, ← hx, hr]
    · have hf : List.filter (fun v => decide (v.id = id)) [x] = [] := by simp [hx]
      rw [hf, List.append_nil] at h
      have hu : u ∈ l.filter (fun v => decide (v.id = id)) := List.mem_of_getLast?_eq_some h
      rw [List.mem_filter] at hu
      have huid : u.id = id := by simpa using hu.2
      have hidT : id.task_list_index = T := by
        rw [← huid]; exact hT u (List.mem_append_left _ hu.1)
      have hxT : x.id.task_list_index = T := hT x (by simp)
      have hne : id.index ≠ x.id.index := by
        intro he
        exact hx (image_id_eq_of_index _ _ (by rw [hxT, hidT]) he.symm)
      have := ih st id u r (fun v hv => hT v (List.mem_append_left _ hv)) h hr
      have hcond : ¬ (id.index = x.id.index ∧ (tl.use_slice x).covers r = true) :=
        fun hc => hne hc.1
      simp only [TaskList.track_image_use, if_neg hcond]
      exact this

theorem covers_of_mem_subresources (s : ImageMipArraySlice) (r : SubResource)
    (h : r ∈ s.subresources) : s.covers r = true := by
  unfold ImageMipArraySlice.subresources at h
  simp only [List.mem_flatMap, List.mem_filter, List.mem_range, List.mem_map,
    List.mem_range'_1] at h
  obtain ⟨a, ⟨_, ha⟩, m, hm, l, hl, rfl⟩ := h
  simp [ImageMipArraySlice.covers, ha, hm.1, hm.2, hl.1, hl.2]

theorem covers_iff (s : ImageMipArraySlice) (r : SubResource) :
    s.covers r = true ↔
      s.base_mip_level ≤ r.mip ∧ r.mip < s.base_mip_level + s.level_count ∧
      s.base_array_layer ≤ r.layer ∧ r.layer < s.base_array_layer + s.layer_count ∧
      s.image_aspect.testBit r.aspect = true := by
  simp [ImageMipArraySlice.covers, and_assoc]

theorem contains_covers (outer inner : ImageMipArraySlice) (r : SubResource)
    (h : outer.contains inner = true) (hr : inner.covers r = true) : outer.covers r = true := by
  rw [covers_iff] at hr ⊢
  simp only [ImageMipArraySlice.contains, Bool.and_eq_true, decide_eq_true_eq] at h
  obtain ⟨⟨⟨⟨h1, h2⟩, h3⟩, h4⟩, h5⟩ := h
  obtain ⟨r1, r2, r3, r4, r5⟩ := hr
  refine ⟨by omega, by omega, by omega, by omega, ?_⟩
  rw [← h5, Nat.testBit_land] at r5
  simp only [Bool.and_eq_true] at r5
  exact r5.2

theorem uniform_value_map_const {α β : Type} [DecidableEq β] (f : α → β) (c : β) :
    ∀ l : List α, l ≠ [] → (∀ x ∈ l, f x = c) → uniform_value (l.map f) = some c := by
  intro l hne hall
  cases l with
  | nil => exact absurd rfl hne
  | cons x rest =>
    have hx : f x = c := hall x (by simp)
    have hrest : ∀ y ∈ rest, f y = c := fun y hy => hall y (by simp [hy])
    simp only [List.map_cons, uniform_value, hx]
    rw [if_pos]
    simp only [List.all_eq_true, List.mem_map, decide_eq_true_eq]
    rintro y ⟨z, hz, rfl⟩
    exact hrest z hz

theorem compile_ok (tl tl1 : TaskList) (k : AccessClassifier)
    (h : tl.compile k = Except.ok tl1) :
    tl.state = TaskListState.Building ∧
    tl.validate_tasks k tl.tasks = Except.ok () ∧
    tl1 = { tl with state := TaskListState.Compiled, plan := tl.compile_batches k tl.tasks } := by
  unfold TaskList.compile at h
  split_ifs at h with hs
  cases hv : tl.validate_tasks k tl.tasks with
  | error e => rw [hv] at h; cases h
  | ok v =>
    rw [hv] at h
    injection h with h
    exact ⟨hs, rfl, h.symm⟩

theorem execute_ok (tl tl2 : TaskList) (k : AccessClassifier) (cmds : List (List String))
    (h : tl.execute k = Except.ok (tl2, cmds)) :
    tl.state = TaskListState.Compiled ∧
    tl2 = { tl with
      state := TaskListState.Compiled,
      buffer_access :=
        (buffer_uses tl.plan.flatten).foldl (track_buffer_use k) tl.initial_buffer_access,
      image_state :=
        (image_uses tl.plan.flatten).foldl (tl.track_image_use k) tl.initial_image_state } := by
  unfold TaskList.execute at h
  split_ifs at h with hs
  injection h with h
  injection h with h1 h2
  exact ⟨hs, h1.symm⟩

theorem last_access_image_of_uniform (tl : TaskList) (id : TaskImageId)
    (q : Option ImageMipArraySlice) (a : Access)
    (hs : tl.state = TaskListState.Compiled) (hid : tl.has_image id = true)
    (hu : uniform_value (((q.getD (tl.image_slice id)).subresources).map
        (fun r => (tl.image_state id.index r).1)) = some a) :
    tl.last_access_image id q = Except.ok a := by
  unfold TaskList.last_access_image
  simp [hs, hid, hu]

theorem last_layout_of_uniform (tl : TaskList) (id : TaskImageId)
    (q : Option ImageMipArraySlice) (l : ImageLayout)
    (hs : tl.state = TaskListState.Compiled) (hid : tl.has_image id = true)
    (hu : uniform_value (((q.getD (tl.image_slice id)).subresources).map
        (fun r => (tl.image_state id.index r).2)) = some l) :
    tl.last_layout id q = Except.ok l := by
  unfold TaskList.last_layout
  simp [hs, hid, hu]

/-- The batches of Scenario E and of the FSR2 sample under the classifier table
`specAccessClassifier`: every task conflicts with the task before it, so each
task is a batch of its own, three batches for Scenario E. -/
theorem scenario_E_batches :
    (scenario_E specAccessClassifier).map TaskList.batch_names
      = Except.ok [["T1"], ["T2"], ["T3"]] ∧
    (record_loop_task_list specAccessClassifier).map (fun r => r.1.batch_names)
      = Except.ok [["Input MemMap"], ["Input Transfer"], ["Draw Task"],
          ["Blit Task (render to display)"], ["Upscale Task"],
          ["Blit Task (display to swapchain)"], ["ImGui Task"]] :=
  ⟨rfl, rfl⟩

/-! ## Theorems: the Slice Tracker -/

theorem covers_not_empty (s : ImageMipArraySlice) (r : SubResource)
    (h : s.covers r = true) : s.is_empty = false := by
  rw [covers_iff] at h
  obtain ⟨h1, h2, h3, h4, h5⟩ := h
  have ha : s.image_aspect ≠ 0 := by
    intro h0
    rw [h0] at h5
    simp at h5
  simp [ImageMipArraySlice.is_empty, ha]
  omega

theorem covers_and_not_empty (s : ImageMipArraySlice) (r : SubResource) :
    (s.covers r && ! s.is_empty) = s.covers r := by
  cases h : s.covers r
  · simp
  · simp [covers_not_empty s r h]

set_option maxHeartbeats 2000000 in
/-- The slices of `a.subtract b` cover exactly the part of `a` outside `b`, each
sub-resource of it once. -/
theorem subtract_cover_count (a b : ImageMipArraySlice) (r : SubResource) :
    (a.subtract b).countP (fun s => s.covers r)
      = if a.covers r = true ∧ ¬ b.covers r = true then 1 else 0 := by
  unfold ImageMipArraySlice.subtract
  simp only [List.countP_filter, covers_and_not_empty, List.countP_cons, List.countP_nil]
  simp only [covers_iff, Nat.testBit_land, Nat.testBit_xor]
  obtain ⟨aa, am, ac, al, an⟩ := a
  obtain ⟨ba, bm, bc, bl, bn⟩ := b
  obtain ⟨rm, rl, ra⟩ := r
  simp only []
  cases hA : aa.testBit ra <;> cases hB : ba.testBit ra <;>
    simp only [Bool.and_true, Bool.and_false, Bool.true_and, Bool.false_and, Bool.xor_false,
      Bool.xor_true, Bool.not_true, Bool.not_false, Bool.false_eq_true, and_false, and_true,
      false_and, true_and, if_false, if_true, not_false_eq_true, not_true_eq_false,
      Bool.false_xor, Bool.true_xor, Nat.zero_add, Nat.add_zero]
  have e1 : (max am bm ≤ rm ∧ rm < max am bm + (min (am + ac) (bm + bc) - max am bm) ∧
      max al (bl + bn) ≤ rl ∧ rl < max al (bl + bn) + (al + an - max al (bl + bn))) ↔
      (am ≤ rm ∧ rm < am + ac ∧ bm ≤ rm ∧ rm < bm + bc ∧ al ≤ rl ∧ rl < al + an ∧
        bl + bn ≤ rl) := by omega
  have e2 : (max am bm ≤ rm ∧ rm < max am bm + (min (am + ac) (bm + bc) - max am bm) ∧
      al ≤ rl ∧ rl < al + (min (al + an) bl - al)) ↔
      (am ≤ rm ∧ rm < am + ac ∧ bm ≤ rm ∧ rm < bm + bc ∧ al ≤ rl ∧ rl < al + an ∧
        rl < bl) := by omega
  have e3 : (max am (bm + bc) ≤ rm ∧ rm < max am (bm + bc) + (am + ac - max am (bm + bc)) ∧
      al ≤ rl ∧ rl < al + an) ↔
      (am ≤ rm ∧ rm < am + ac ∧ bm + bc ≤ rm ∧ al ≤ rl ∧ rl < al + an) := by omega
  have e4 : (am ≤ rm ∧ rm < am + (min (am + ac) bm - am) ∧ al ≤ rl ∧ rl < al + an) ↔
      (am ≤ rm ∧ rm < am + ac ∧ rm < bm ∧ al ≤ rl ∧ rl < al + an) := by omega
  simp only [e1, e2, e3, e4]
  split_ifs <;> omega

theorem replace_covered_cover_count (state : ImageState) (new : ImageSliceState)
    (r : SubResource) :
    (state.replace_covered new).cover_count r
      = state.countP (fun old => old.slice.covers r && ! new.slice.covers r)
        + if new.slice.covers r = true then 1 else 0 := by
  unfold ImageState.replace_covered ImageState.cover_count
  rw [List.countP_append]
  congr 1
  · induction state with
    | nil => rfl
    | cons old rest ih =>
      rw [List.flatMap_cons, List.countP_append, ih, List.countP_cons, List.countP_map]
      have h : (List.countP ((fun s : ImageSliceState => s.slice.covers r) ∘
          fun rest => { old with slice := rest }) (old.slice.subtract new.slice))
          = List.countP (fun s => s.covers r) (old.slice.subtract new.slice) := rfl
      rw [h, subtract_cover_count]
      cases h1 : old.slice.covers r <;> cases h2 : new.slice.covers r <;> simp
      omega
  · simp [List.countP_cons]

/-- Replacing the covered partitions keeps the invariant when the new slice
lies within the full extent. -/
theorem covers_once_replace_covered (extent : ImageMipArraySlice) (state : ImageState)
    (new : ImageSliceState) (h : state.covers_once extent)
    (hin : extent.contains new.slice = true) :
    (state.replace_covered new).covers_once extent := by
  intro r
  rw [replace_covered_cover_count]
  cases hn : new.slice.covers r
  · have := h r
    unfold ImageState.cover_count at this
    simpa using this
  · have he := contains_covers extent new.slice r hin hn
    simp [he]

/-- A merged partition covers what the two merged partitions cover, and these
do not overlap. -/
theorem merge_cover (a b m : ImageSliceState) (h : a.merge b = some m) (r : SubResource) :
    (if m.slice.covers r = true then 1 else 0)
      = (if a.slice.covers r = true then 1 else 0) + if b.slice.covers r = true then 1 else 0 := by
  unfold ImageSliceState.merge at h
  split_ifs at h with h0 h1 h2 h3
  · cases h
    simp only [covers_iff]
    obtain ⟨e1, e2, e3, e4⟩ := h1
    rw [← e1, ← e2, ← e3, ← e4]
    cases a.slice.image_aspect.testBit r.aspect
    · simp
    · simp only [and_true]
      split_ifs <;> omega
  · cases h
    simp only [covers_iff]
    obtain ⟨e1, e2, e3, e4⟩ := h2
    rw [← e1, ← e2, ← e3, ← e4]
    cases a.slice.image_aspect.testBit r.aspect
    · simp
    · simp only [and_true]
      split_ifs <;> omega
  · cases h
    simp only [covers_iff, Nat.testBit_lor]
    obtain ⟨e0, e1, e2, e3, e4⟩ := h3
    rw [← e1, ← e2, ← e3, ← e4]
    have hbit : ¬ (a.slice.image_aspect.testBit r.aspect = true ∧
        b.slice.image_aspect.testBit r.aspect = true) := by
      intro hb
      have : (a.slice.image_aspect &&& b.slice.image_aspect).testBit r.aspect = true := by
        rw [Nat.testBit_land, hb.1, hb.2]; rfl
      rw [e0] at this
      simp at this
    cases hA : a.slice.image_aspect.testBit r.aspect <;>
      cases hB : b.slice.image_aspect.testBit r.aspect
    · simp
    · simp
    · simp
    · exact absurd ⟨hA, hB⟩ hbit

theorem merge_with_first_cover_count (a : ImageSliceState) :
    ∀ (l done : ImageState), ImageState.merge_with_first a l = some done →
      ∀ r, done.cover_count r = (if a.slice.covers r = true then 1 else 0) + l.cover_count r := by
  intro l
  induction l with
  | nil => intro done h; simp [ImageState.merge_with_first] at h
  | cons b rest ih =>
    intro done h r
    unfold ImageState.merge_with_first at h
    cases hm : a.merge b with
    | some merged =>
      rw [hm] at h
      cases h
      have := merge_cover a b merged hm r
      simp only [ImageState.cover_count, List.countP_cons] at *
      omega
    | none =>
      rw [hm] at h
      cases hrec : ImageState.merge_with_first a rest with
      | none => rw [hrec] at h; cases h
      | some d =>
        rw [hrec] at h
        cases h
        have := ih d hrec r
        simp only [ImageState.cover_count, List.countP_cons] at *
        omega

theorem merge_pass_cover_count :
    ∀ (l done : ImageState), ImageState.merge_pass l = some done →
      ∀ r, done.cover_count r = l.cover_count r := by
  intro l
  induction l with
  | nil => intro done h; simp [ImageState.merge_pass] at h
  | cons a rest ih =>
    intro done h r
    unfold ImageState.merge_pass at h
    cases hm : ImageState.merge_with_first a rest with
    | some d =>
      rw [hm] at h
      have hd : d = done := Option.some.inj h
      subst hd
      have := merge_with_first_cover_count a rest d hm r
      simp only [ImageState.cover_count, List.countP_cons] at *
      omega
    | none =>
      rw [hm] at h
      cases hrec : ImageState.merge_pass rest with
      | none => rw [hrec] at h; cases h
      | some d =>
        rw [hrec] at h
        cases h
        have := ih d hrec r
        simp only [ImageState.cover_count, List.countP_cons] at *
        omega

theorem sort_cover_count (l : ImageState) (r : SubResource) :
    ImageState.cover_count (List.insertionSort ImageSliceState.key_le l) r = l.cover_count r :=
  List.Perm.countP_eq _ (List.perm_insertionSort _ l)

theorem merge_adjacent_cover_count :
    ∀ (fuel : Nat) (l : ImageState) (r : SubResource),
      (ImageState.merge_adjacent fuel l).cover_count r = l.cover_count r := by
  intro fuel
  induction fuel with
  | zero => intro l r; exact sort_cover_count l r
  | succ n ih =>
    intro l r
    unfold ImageState.merge_adjacent
    cases hm : ImageState.merge_pass (List.insertionSort ImageSliceState.key_le l) with
    | none => exact sort_cover_count l r
    | some merged =>
      simp only
      rw [ih merged r, merge_pass_cover_count _ merged hm r, sort_cover_count]

/-- An update of the tracker within the full extent keeps the invariant. -/
theorem covers_once_update (extent : ImageMipArraySlice) (state : ImageState)
    (new : ImageSliceState) (h : state.covers_once extent)
    (hin : extent.contains new.slice = true) :
    (state.update new).covers_once extent := by
  intro r
  unfold ImageState.update
  rw [merge_adjacent_cover_count]
  exact covers_once_replace_covered extent state new h hin r

theorem covers_once_apply_updates (extent : ImageMipArraySlice) :
    ∀ (updates : List ImageSliceState) (state : ImageState), state.covers_once extent →
      (ImageState.apply_updates extent state updates).covers_once extent := by
  intro updates
  induction updates with
  | nil => intro state h; exact h
  | cons new rest ih =>
    intro state h
    unfold ImageState.apply_updates
    rw [List.foldl_cons]
    apply ih
    unfold ImageState.try_update
    by_cases hin : extent.contains new.slice = true
    · simp only [hin, if_true]
      exact covers_once_update extent state new h hin
    · simp only [hin]
      exact h

theorem cover_count_le_one_of_pairwise :
    ∀ (state : ImageState), state.Pairwise (fun a b => a.slice.disjoint b.slice) →
      ∀ r, state.cover_count r ≤ 1 := by
  intro state
  induction state with
  | nil => intro _ r; simp [ImageState.cover_count]
  | cons a rest ih =>
    intro h r
    rw [List.pairwise_cons] at h
    have hrest := ih h.2 r
    simp only [ImageState.cover_count, List.countP_cons] at hrest ⊢
    by_cases ha : a.slice.covers r = true
    · have hz : List.countP (fun s : ImageSliceState => s.slice.covers r) rest = 0 := by
        rw [List.countP_eq_zero]
        intro b hb hbr
        exact h.1 b hb r ⟨ha, hbr⟩
      simp [ha, hz]
    · simp [ha]
      exact hrest

theorem pairwise_of_cover_count_le_one :
    ∀ (state : ImageState), (∀ r, state.cover_count r ≤ 1) →
      state.Pairwise (fun a b => a.slice.disjoint b.slice) := by
  intro state
  induction state with
  | nil => intro _; exact List.Pairwise.nil
  | cons a rest ih =>
    intro h
    rw [List.pairwise_cons]
    constructor
    · intro b hb r hab
      have hr := h r
      simp only [ImageState.cover_count, List.countP_cons, hab.1, if_true] at hr
      have hpos : 0 < List.countP (fun s : ImageSliceState => s.slice.covers r) rest :=
        List.countP_pos_iff.2 ⟨b, hb, hab.2⟩
      omega
    · apply ih
      intro r
      have hr := h r
      simp only [ImageState.cover_count, List.countP_cons] at hr ⊢
      omega

/-- The invariant in the words of the spec and the invariant by counting say the same. -/
theorem specPartitions_iff_covers_once (extent : ImageMipArraySlice) (state : ImageState) :
    specPartitions extent state ↔ state.covers_once extent := by
  constructor
  · rintro ⟨hunion, hpair⟩ r
    have hle := cover_count_le_one_of_pairwise state hpair r
    by_cases he : extent.covers r = true
    · have hpos : 0 < state.cover_count r := List.countP_pos_iff.2 ((hunion r).1 he)
      simp only [he, if_true]
      omega
    · have hz : state.cover_count r = 0 := by
        unfold ImageState.cover_count
        rw [List.countP_eq_zero]
        intro s hs hsr
        exact he ((hunion r).2 ⟨s, hs, hsr⟩)
      simp [he, hz]
  · intro h
    constructor
    · intro r
      have hr := h r
      constructor
      · intro he
        rw [if_pos he] at hr
        exact List.countP_pos_iff.1 (by unfold ImageState.cover_count at hr; omega)
      · intro hex
        have hpos : 0 < state.cover_count r := List.countP_pos_iff.2 hex
        by_contra hne
        rw [if_neg hne] at hr
        omega
    · apply pairwise_of_cover_count_le_one
      intro r
      rw [h r]
      split_ifs <;> omega

theorem initial_partitions (extent : ImageMipArraySlice) :
    specPartitions extent (ImageState.initial extent) := by
  rw [specPartitions_iff_covers_once]
  intro r
  simp [ImageState.initial, ImageState.cover_count, List.countP_cons]

/-- Claim C11: starting from an image state whose slice states partition the full
extent of the image (their union is the full extent and any two of them are
disjoint), the image state after any finite sequence of tracker updates
(new-slice, new-access, new-layout) partitions the full extent again: the
union of its slices is the full extent and any two distinct slices are
disjoint. An update whose slice is out of the range of the image is the error
"slice out of range" and leaves the state as it was. -/
theorem slice_partition_invariant (extent : ImageMipArraySlice) (state : ImageState)
    (updates : List ImageSliceState) (h : specPartitions extent state) :
    specPartitions extent (ImageState.apply_updates extent state updates) := by
  rw [specPartitions_iff_covers_once] at h ⊢
  exact covers_once_apply_updates extent updates state h

/-- Witness of `slice_partition_invariant`: the fresh state of an image of four
mips and two layers is a partition, and after a write of mip 1, a read of
layer 1 of the mips 1 and 2, and a rejected update of mip 7 the state, now of
five slices, is a partition again. -/
theorem slice_partition_invariant_witness :
    specPartitions sampleExtent (ImageState.initial sampleExtent) ∧
    (ImageState.apply_updates sampleExtent (ImageState.initial sampleExtent)
      sampleUpdates).length = 5 ∧
    specPartitions sampleExtent
      (ImageState.apply_updates sampleExtent (ImageState.initial sampleExtent) sampleUpdates) :=
  ⟨initial_partitions sampleExtent, by decide,
    slice_partition_invariant sampleExtent (ImageState.initial sampleExtent) sampleUpdates
      (initial_partitions sampleExtent)⟩

/-! ## Theorems: batches -/

theorem intersects_iff (a b : ImageMipArraySlice) :
    a.intersects b = true ↔ ∃ r : SubResource, a.covers r = true ∧ b.covers r = true := by
  simp only [ImageMipArraySlice.intersects, Bool.and_eq_true, decide_eq_true_eq, covers_iff]
  constructor
  · rintro ⟨⟨h1, h2⟩, h3⟩
    obtain ⟨i, hi⟩ := Nat.ne_zero_implies_bit_true h3
    rw [Nat.testBit_land, Bool.and_eq_true] at hi
    exact ⟨⟨max a.base_mip_level b.base_mip_level, max a.base_array_layer b.base_array_layer, i⟩,
      ⟨by simp only []; omega, by simp only []; omega, by simp only []; omega,
        by simp only []; omega, hi.1⟩,
      ⟨by simp only []; omega, by simp only []; omega, by simp only []; omega,
        by simp only []; omega, hi.2⟩⟩
  · rintro ⟨r, ⟨a1, a2, a3, a4, a5⟩, ⟨b1, b2, b3, b4, b5⟩⟩
    refine ⟨⟨by omega, by omega⟩, ?_⟩
    intro h0
    have : (a.image_aspect &&& b.image_aspect).testBit r.aspect = true := by
      rw [Nat.testBit_land, a5, b5]; rfl
    rw [h0] at this
    simp at this

theorem conflicts_iff (x y : Access) :
    x.conflicts y = true ↔ specAccessesConflict x y := by
  simp [Access.conflicts, specAccessesConflict]

theorem specAccessesConflict_symm (x y : Access) :
    specAccessesConflict x y ↔ specAccessesConflict y x := by
  unfold specAccessesConflict
  exact Or.comm

/-- The conflict test of the compiler decides the conflict of two tasks as the spec words it. -/
theorem tasks_conflict_iff (tl : TaskList) (k : AccessClassifier) (a b : TaskInfo) :
    tl.tasks_conflict k a b = true ↔ tl.specTasksConflict k a b := by
  simp only [TaskList.tasks_conflict, TaskList.specTasksConflict, Bool.or_eq_true,
    List.any_eq_true, buffer_uses_conflict, TaskList.image_uses_conflict, Bool.and_eq_true,
    decide_eq_true_eq, conflicts_iff, intersects_iff, ne_eq, and_assoc]

theorem specTasksConflict_symm (tl : TaskList) (k : AccessClassifier) (a b : TaskInfo) :
    tl.specTasksConflict k a b → tl.specTasksConflict k b a := by
  rintro (⟨v, hv, u, hu, hid, hc⟩ | ⟨v, hv, u, hu, hid, ⟨r, hr1, hr2⟩, hc⟩)
  · exact Or.inl ⟨u, hu, v, hv, hid.symm, (specAccessesConflict_symm _ _).1 hc⟩
  · refine Or.inr ⟨u, hu, v, hv, hid.symm, ⟨r, hr2, hr1⟩, ?_⟩
    rcases hc with hc | hc
    · exact Or.inl ((specAccessesConflict_symm _ _).1 hc)
    · exact Or.inr (fun h => hc h.symm)

theorem foldl_place_task_conflict_free (tl : TaskList) (k : AccessClassifier) :
    ∀ (tasks : List TaskInfo) (acc : List (List TaskInfo) × List TaskInfo),
      (∀ batch ∈ acc.1, batch.Pairwise (fun a b => ¬ tl.specTasksConflict k a b)) →
      acc.2.Pairwise (fun a b => ¬ tl.specTasksConflict k a b) →
      (∀ batch ∈ (tasks.foldl (tl.place_task k) acc).1,
        batch.Pairwise (fun a b => ¬ tl.specTasksConflict k a b)) ∧
      (tasks.foldl (tl.place_task k) acc).2.Pairwise (fun a b => ¬ tl.specTasksConflict k a b) := by
  intro tasks
  induction tasks with
  | nil => intro acc h1 h2; exact ⟨h1, h2⟩
  | cons t rest ih =>
    intro acc h1 h2
    rw [List.foldl_cons]
    apply ih
    · unfold TaskList.place_task
      split_ifs with hc
      · intro batch hb
        rcases List.mem_append.1 hb with hb | hb
        · exact h1 batch hb
        · rw [List.mem_singleton] at hb
          rw [hb]
          exact h2
      · exact h1
    · unfold TaskList.place_task
      split_ifs with hc
      · exact List.pairwise_singleton _ _
      · rw [List.pairwise_append]
        refine ⟨h2, List.pairwise_singleton _ _, ?_⟩
        intro a ha b hb
        rw [List.mem_singleton] at hb
        rw [hb]
        intro hconf
        apply hc
        rw [List.any_eq_true]
        exact ⟨a, ha, (tasks_conflict_iff tl k a t).2 hconf⟩

/-- No batch of the batches the compiler forms holds two conflicting tasks. -/
theorem compile_batches_conflict_free (tl : TaskList) (k : AccessClassifier)
    (tasks : List TaskInfo) :
    ∀ batch ∈ tl.compile_batches k tasks,
      batch.Pairwise (fun a b => ¬ tl.specTasksConflict k a b) := by
  have h := foldl_place_task_conflict_free tl k tasks ([], [])
    (by intro batch hb; simp at hb) List.Pairwise.nil
  unfold TaskList.compile_batches
  simp only
  split_ifs
  · exact h.1
  · intro batch hb
    rcases List.mem_append.1 hb with hb | hb
    · exact h.1 batch hb
    · rw [List.mem_singleton] at hb
      rw [hb]
      exact h.2

theorem record_loop_task_list_ok (k : AccessClassifier) (tl1 : TaskList) (ids : AppTaskIds)
    (h : record_loop_task_list k = Except.ok (tl1, ids)) :
    fsr2_tasks_recorded.compile k = Except.ok tl1 ∧ ids = fsr2_ids := by
  have h1 : record_loop_tasks k = Except.ok (fsr2_tasks_recorded, fsr2_ids) := rfl
  unfold record_loop_task_list at h
  simp only [h1, bind, Except.bind, pure, Except.pure] at h
  cases hc : fsr2_tasks_recorded.compile k with
  | error e => rw [hc] at h; cases h
  | ok t =>
    rw [hc] at h
    simp only [Except.ok.injEq, Prod.mk.injEq] at h
    exact ⟨by rw [h.1], h.2.symm⟩

/-- The "Draw Task" and the "Blit Task" of the FSR2 sample conflict on the colour
image as soon as the classifier decodes `COLOR_ATTACHMENT` to a write and
`TRANSFER_READ` to a read. -/
theorem fsr2_draw_blit_conflict (k : AccessClassifier)
    (hw : (k.image_access_to_stage_access_layout TaskImageAccess.COLOR_ATTACHMENT).1.is_write
      = true)
    (hr : (k.image_access_to_stage_access_layout TaskImageAccess.TRANSFER_READ).1.is_read
      = true) :
    fsr2_tasks_recorded.specTasksConflict k fsr2_draw_task fsr2_blit_task := by
  refine Or.inr ⟨{ id := { index := 1 }, access := TaskImageAccess.COLOR_ATTACHMENT }, ?_,
    { id := { index := 1 }, access := TaskImageAccess.TRANSFER_READ }, ?_, rfl,
    ⟨⟨0, 0, 0⟩, by decide, by decide⟩, Or.inl (Or.inl ⟨hw, Or.inl hr⟩)⟩
  · simp [fsr2_draw_task]
  · simp [fsr2_blit_task]

/-- Claim C12: in every compiled plan no batch holds two tasks with conflicting
accesses to a shared resource (one writes a buffer or an overlapping image
slice that the other reads or writes, or they need different layouts on an
overlapping image slice). In the FSR2 sample the "Draw Task", which uses the
colour image as COLOR_ATTACHMENT, and the "Blit Task" after it, which uses it
as TRANSFER_READ, are in no common batch, for every classifier that decodes
the first to a write and the second to a read, as the table
`specAccessClassifier` does. -/
theorem batches_are_conflict_free :
    (∀ (k : AccessClassifier) (tl tl1 : TaskList), tl.compile k = Except.ok tl1 →
      ∀ batch ∈ tl1.plan, batch.Pairwise (fun a b =>
        ¬ tl.specTasksConflict k a b ∧ ¬ tl.specTasksConflict k b a)) ∧
    (∀ (k : AccessClassifier) (tl1 : TaskList) (ids : AppTaskIds),
      (k.image_access_to_stage_access_layout TaskImageAccess.COLOR_ATTACHMENT).1.is_write = true →
      (k.image_access_to_stage_access_layout TaskImageAccess.TRANSFER_READ).1.is_read = true →
      record_loop_task_list k = Except.ok (tl1, ids) →
      fsr2_draw_task ∈ tl1.tasks ∧ fsr2_blit_task ∈ tl1.tasks ∧
      ∀ batch ∈ tl1.plan, ¬ (fsr2_draw_task ∈ batch ∧ fsr2_blit_task ∈ batch)) ∧
    (specAccessClassifier.image_access_to_stage_access_layout
      TaskImageAccess.COLOR_ATTACHMENT).1.is_write = true ∧
    (specAccessClassifier.image_access_to_stage_access_layout
      TaskImageAccess.TRANSFER_READ).1.is_read = true ∧
    (∃ tl1 ids, record_loop_task_list specAccessClassifier = Except.ok (tl1, ids)) := by
  have general : ∀ (k : AccessClassifier) (tl tl1 : TaskList), tl.compile k = Except.ok tl1 →
      ∀ batch ∈ tl1.plan, batch.Pairwise (fun a b =>
        ¬ tl.specTasksConflict k a b ∧ ¬ tl.specTasksConflict k b a) := by
    intro k tl tl1 hc batch hb
    obtain ⟨_, _, h1⟩ := compile_ok tl tl1 k hc
    rw [h1] at hb
    have := compile_batches_conflict_free tl k tl.tasks batch hb
    exact this.imp (fun {a b} hab => ⟨hab, fun hba => hab (specTasksConflict_symm tl k b a hba)⟩)
  refine ⟨general, ?_, by decide, by decide, ?_⟩
  · intro k tl1 ids hw hr hrec
    obtain ⟨hc, _⟩ := record_loop_task_list_ok k tl1 ids hrec
    obtain ⟨_, _, h1⟩ := compile_ok _ tl1 k hc
    have hd : fsr2_draw_task ∈ tl1.tasks := by rw [h1]; simp [fsr2_tasks_recorded, fsr2_draw_task]
    have hbl : fsr2_blit_task ∈ tl1.tasks := by
      rw [h1]; simp [fsr2_tasks_recorded, fsr2_blit_task]
    refine ⟨hd, hbl, ?_⟩
    intro batch hb ⟨h2, h3⟩
    have hp := general k _ tl1 hc batch hb
    have hsymm : Symmetric (fun a b : TaskInfo =>
        ¬ fsr2_tasks_recorded.specTasksConflict k a b ∧
        ¬ fsr2_tasks_recorded.specTasksConflict k b a) := fun a b h => ⟨h.2, h.1⟩
    have hne : fsr2_draw_task ≠ fsr2_blit_task := by decide
    exact (hp.forall hsymm h2 h3 hne).1 (fsr2_draw_blit_conflict k hw hr)
  · obtain ⟨tl1, hc⟩ : ∃ tl1, fsr2_tasks_recorded.compile specAccessClassifier = Except.ok tl1 :=
      ⟨_, rfl⟩
    refine ⟨tl1, fsr2_ids, ?_⟩
    have h1 : record_loop_tasks specAccessClassifier
        = Except.ok (fsr2_tasks_recorded, fsr2_ids) := rfl
    unfold record_loop_task_list
    simp only [h1, hc, bind, Except.bind, pure, Except.pure]

/-- Witness of `batches_are_conflict_free` on the FSR2 sample with the table
`specAccessClassifier`: the task list compiles to seven batches of one task
each, the "Draw Task" and the "Blit Task" in different ones. -/
theorem batches_are_conflict_free_witness :
    ∃ (tl1 : TaskList) (ids : AppTaskIds),
      record_loop_task_list specAccessClassifier = Except.ok (tl1, ids) ∧
      tl1.plan.length = 7 ∧
      (∀ batch ∈ tl1.plan, batch.Pairwise (fun a b =>
        ¬ fsr2_tasks_recorded.specTasksConflict specAccessClassifier a b ∧
        ¬ fsr2_tasks_recorded.specTasksConflict specAccessClassifier b a)) ∧
      (∀ batch ∈ tl1.plan, ¬ (fsr2_draw_task ∈ batch ∧ fsr2_blit_task ∈ batch)) := by
  obtain ⟨tl1, ids, hrec⟩ := batches_are_conflict_free.2.2.2.2
  obtain ⟨hc, _⟩ := record_loop_task_list_ok specAccessClassifier tl1 ids hrec
  have hlen : tl1.plan.length = 7 := by
    obtain ⟨_, _, h1⟩ := compile_ok _ tl1 _ hc
    rw [h1]
    rfl
  exact ⟨tl1, ids, hrec, hlen, batches_are_conflict_free.1 specAccessClassifier _ tl1 hc,
    (batches_are_conflict_free.2.1 specAccessClassifier tl1 ids (by decide) (by decide) hrec).2.2⟩

/-! ## Theorems: the state machine -/

theorem run_append (k : AccessClassifier) (c1 c2 : List ApiCall) :
    ∀ tl : TaskList, tl.run k (c1 ++ c2)
      = (((tl.run k c1).1.run k c2).1, (tl.run k c1).2 && ((tl.run k c1).1.run k c2).2) := by
  induction c1 with
  | nil => intro tl; simp [TaskList.run]
  | cons c rest ih =>
    intro tl
    have h := ih (tl.apply k c).1
    simp only [List.cons_append, TaskList.run, List.append_eq]
    rw [h]
    simp only [Bool.and_assoc]

theorem fsr2_record_run (k : AccessClassifier) :
    ∃ tl1, fsr2_tasks_recorded.compile k = Except.ok tl1 ∧
      (TaskList.new 0 "task_list").run k fsr2_record_calls = (tl1, true) :=
  ⟨_, rfl, rfl⟩

theorem accepted_iff {α : Type} (x : Except String α) :
    accepted x = true ↔ ∃ a, x = Except.ok a := by
  cases x with
  | ok a => simp [accepted]
  | error e => simp [accepted]

/-- In the Compiled state the builder calls and `compile` fail, and no call
changes the registry, the tasks, the plan or the state. -/
theorem apply_compiled (tl : TaskList) (k : AccessClassifier) (call : ApiCall)
    (h : tl.state = TaskListState.Compiled) :
    (tl.apply k call).1.state = TaskListState.Compiled ∧
    (tl.apply k call).1.task_list_index = tl.task_list_index ∧
    (tl.apply k call).1.buffers = tl.buffers ∧
    (tl.apply k call).1.images = tl.images ∧
    (tl.apply k call).1.tasks = tl.tasks ∧
    (tl.apply k call).1.plan = tl.plan := by
  cases call with
  | create_task_buffer info => simp [TaskList.apply, TaskList.create_task_buffer, h]
  | create_task_image info => simp [TaskList.apply, TaskList.create_task_image, h]
  | add_task task => simp [TaskList.apply, TaskList.add_task, h]
  | compile => simp [TaskList.apply, TaskList.compile, h]
  | execute => simp [TaskList.apply, TaskList.execute, h]
  | last_access id => simp [TaskList.apply, h]
  | last_access_image id slice => simp [TaskList.apply, h]
  | last_layout id slice => simp [TaskList.apply, h]

theorem run_compiled (k : AccessClassifier) (calls : List ApiCall) :
    ∀ tl : TaskList, tl.state = TaskListState.Compiled →
      (tl.run k calls).1.state = TaskListState.Compiled ∧
      (tl.run k calls).1.task_list_index = tl.task_list_index ∧
      (tl.run k calls).1.buffers = tl.buffers ∧
      (tl.run k calls).1.images = tl.images ∧
      (tl.run k calls).1.tasks = tl.tasks ∧
      (tl.run k calls).1.plan = tl.plan := by
  induction calls with
  | nil => intro tl h; exact ⟨h, rfl, rfl, rfl, rfl, rfl⟩
  | cons c rest ih =>
    intro tl h
    obtain ⟨a1, a2, a3, a4, a5, a6⟩ := apply_compiled tl k c h
    obtain ⟨b1, b2, b3, b4, b5, b6⟩ := ih (tl.apply k c).1 a1
    simp only [TaskList.run]
    exact ⟨b1, b2.trans a2, b3.trans a3, b4.trans a4, b5.trans a5, b6.trans a6⟩

theorem validate_tasks_congr (tl tl2 : TaskList) (k : AccessClassifier)
    (h : ∀ t, tl2.validate_task k t = tl.validate_task k t) :
    ∀ tasks : List TaskInfo, tl2.validate_tasks k tasks = tl.validate_tasks k tasks := by
  intro tasks
  induction tasks with
  | nil => rfl
  | cons t rest ih =>
    unfold TaskList.validate_tasks
    rw [h t, ih]

theorem compile_frozen (tl tl1 : TaskList) (k : AccessClassifier)
    (h : tl.compile k = Except.ok tl1) : tl1.frozen k := by
  obtain ⟨_, hv, h1⟩ := compile_ok tl tl1 k h
  rw [h1]
  refine ⟨rfl, ?_, compile_batches_flatten tl k tl.tasks⟩
  have key : ∀ t2 : TaskList, (∀ t, t2.validate_task k t = tl.validate_task k t) →
      t2.validate_tasks k tl.tasks = Except.ok () :=
    fun t2 h => (validate_tasks_congr tl t2 k h _).trans hv
  apply key
  intro t
  rfl

/-- In the Compiled state `execute()` is accepted and returns the task list in
the Compiled state, with the same registry, tasks and plan. -/
theorem execute_frozen (tl : TaskList) (k : AccessClassifier) (h : tl.frozen k) :
    ∃ tl2 cmds, tl.execute k = Except.ok (tl2, cmds) ∧ tl2.frozen k ∧
      tl2.task_list_index = tl.task_list_index ∧ tl2.buffers = tl.buffers ∧
      tl2.images = tl.images ∧ tl2.tasks = tl.tasks ∧ tl2.plan = tl.plan := by
  obtain ⟨hs, hv, hp⟩ := h
  unfold TaskList.execute
  rw [if_pos hs]
  refine ⟨_, _, rfl, ⟨rfl, ?_, hp⟩, rfl, rfl, rfl, rfl, rfl⟩
  have key : ∀ t2 : TaskList, (∀ t, t2.validate_task k t = tl.validate_task k t) →
      t2.validate_tasks k tl.tasks = Except.ok () :=
    fun t2 h => (validate_tasks_congr tl t2 k h _).trans hv
  apply key
  intro t
  rfl

/-- After `execute()` of a task list that was compiled, whether or not it was
executed before, an image is in the state of its last use. -/
theorem last_use_frozen (k : AccessClassifier) (tl tl2 : TaskList) (cmds : List (List String))
    (hf : tl.frozen k) (he : tl.execute k = Except.ok (tl2, cmds)) :
    ∀ (id : TaskImageId) (u : TaskImageUseInfo) (q : Option ImageMipArraySlice),
      ((image_uses tl.tasks).filter (fun v => decide (v.id = id))).getLast? = some u →
      q.getD (tl.image_slice id) = tl.use_slice u →
      (tl.use_slice u).subresources ≠ [] →
      tl2.last_access_image id q
        = Except.ok (k.image_access_to_stage_access_layout u.access).1 ∧
      tl2.last_layout id q
        = Except.ok (k.image_access_to_stage_access_layout u.access).2 := by
  obtain ⟨_, hv, hp⟩ := hf
  obtain ⟨_, h2⟩ := execute_ok tl tl2 k cmds he
  have hstate : tl2.state = TaskListState.Compiled := by rw [h2]
  have himages : tl2.has_image = tl.has_image := by rw [h2]; rfl
  have hslice : tl2.image_slice = tl.image_slice := by rw [h2]; rfl
  have hist : tl2.image_state
      = (image_uses tl.tasks).foldl (tl.track_image_use k) tl.initial_image_state := by
    rw [h2, ← hp]
  intro id u q hlast hq hne
  have hu := List.mem_of_getLast?_eq_some hlast
  rw [List.mem_filter] at hu
  have huid : u.id = id := by simpa using hu.2
  have hvalid := image_uses_valid tl k hv
  have hid : tl.has_image id = true := by rw [← huid]; exact hvalid u hu.1
  have hT : ∀ v ∈ image_uses tl.tasks, v.id.task_list_index = tl.task_list_index := by
    intro v hv2
    have := hvalid v hv2
    simp only [TaskList.has_image, Bool.and_eq_true, decide_eq_true_eq] at this
    exact this.1
  have key : ∀ r ∈ (tl.use_slice u).subresources,
      ((image_uses tl.tasks).foldl (tl.track_image_use k) tl.initial_image_state) id.index r
        = k.image_access_to_stage_access_layout u.access := by
    intro r hr
    exact foldl_track_image_use_last tl k tl.task_list_index (image_uses tl.tasks)
      tl.initial_image_state id u r hT hlast (covers_of_mem_subresources _ r hr)
  constructor
  · apply last_access_image_of_uniform tl2 id q _ hstate (by rw [himages]; exact hid)
    rw [hslice, hq, hist]
    exact uniform_value_map_const _ _ _ hne (fun r hr => by rw [key r hr])
  · apply last_layout_of_uniform tl2 id q _ hstate (by rw [himages]; exact hid)
    rw [hslice, hq, hist]
    exact uniform_value_map_const _ _ _ hne (fun r hr => by rw [key r hr])

/-- One `draw` of the FSR2 sample on its compiled task list: all three calls are
accepted and the task list stays compiled, with the same registry and tasks. -/
theorem fsr2_draw_run (k : AccessClassifier) (tl : TaskList) (hf : tl.frozen k)
    (hidx : tl.task_list_index = 0) (himg : tl.images = fsr2_tasks_recorded.images)
    (htasks : tl.tasks = fsr2_tasks_recorded.tasks) :
    (tl.run k fsr2_draw_calls).2 = true ∧ (tl.run k fsr2_draw_calls).1.frozen k ∧
    (tl.run k fsr2_draw_calls).1.task_list_index = 0 ∧
    (tl.run k fsr2_draw_calls).1.images = fsr2_tasks_recorded.images ∧
    (tl.run k fsr2_draw_calls).1.tasks = fsr2_tasks_recorded.tasks := by
  obtain ⟨tl2, cmds, he, hf2, e1, e2, e3, e4, e5⟩ := execute_frozen tl k hf
  have hlast := last_use_frozen k tl tl2 cmds hf he fsr2_ids.task_swapchain_image
    { id := { index := 0 }, access := TaskImageAccess.COLOR_ATTACHMENT } Option.none
    (by rw [htasks]; rfl)
    (by simp only [TaskList.use_slice, TaskList.image_slice, himg]; rfl)
    (by simp only [TaskList.use_slice, TaskList.image_slice, himg]; decide)
  simp only [fsr2_draw_calls, TaskList.run, TaskList.apply, he, hlast.1, hlast.2, accepted,
    Bool.and_self, true_and]
  exact ⟨hf2, e1.trans hidx, e3.trans himg, e4.trans htasks⟩

theorem fsr2_draws_run (k : AccessClassifier) (n : Nat) :
    ∀ tl : TaskList, tl.frozen k → tl.task_list_index = 0 →
      tl.images = fsr2_tasks_recorded.images → tl.tasks = fsr2_tasks_recorded.tasks →
      (tl.run k (List.replicate n fsr2_draw_calls).flatten).2 = true := by
  induction n with
  | zero => intro tl _ _ _ _; rfl
  | succ m ih =>
    intro tl hf hidx himg htasks
    obtain ⟨h1, h2, h3, h4, h5⟩ := fsr2_draw_run k tl hf hidx himg htasks
    rw [List.replicate_succ, List.flatten_cons, run_append]
    simp only [h1, Bool.true_and]
    exact ih _ h2 h3 h4 h5


/-- Claim C13: once `compile()` has succeeded the task list is in the Compiled
state and stays there whatever calls follow; at every later moment `add_task`,
`create_task_buffer` and `create_task_image` fail and leave the task list as it
is, with the registry, the tasks and the plan of the compiled task list.
`execute()` is accepted exactly in the Compiled state, and `last_access` and
`last_layout` are accepted only there. The call sequence of the FSR2 sample
with any number of drawn frames is accepted call by call, for every
classifier. -/
theorem compiled_is_final (k : AccessClassifier) :
    (∀ (tl tl1 : TaskList) (calls : List ApiCall), tl.compile k = Except.ok tl1 →
      tl1.state = TaskListState.Compiled ∧
      (tl1.run k calls).1.state = TaskListState.Compiled ∧
      (tl1.run k calls).1.buffers = tl1.buffers ∧
      (tl1.run k calls).1.images = tl1.images ∧
      (tl1.run k calls).1.tasks = tl1.tasks ∧
      (tl1.run k calls).1.plan = tl1.plan ∧
      (∀ t : TaskInfo,
        (tl1.run k calls).1.add_task k t
          = Except.error "add_task: the task list is already compiled" ∧
        (tl1.run k calls).1.apply k (ApiCall.add_task t) = ((tl1.run k calls).1, false)) ∧
      (∀ info : TaskBufferInfo,
        (tl1.run k calls).1.create_task_buffer info
          = Except.error "create_task_buffer: the task list is already compiled" ∧
        (tl1.run k calls).1.apply k (ApiCall.create_task_buffer info)
          = ((tl1.run k calls).1, false)) ∧
      (∀ info : TaskImageInfo,
        (tl1.run k calls).1.create_task_image info
          = Except.error "create_task_image: the task list is already compiled" ∧
        (tl1.run k calls).1.apply k (ApiCall.create_task_image info)
          = ((tl1.run k calls).1, false))) ∧
    (∀ tl : TaskList,
      (accepted (tl.execute k) = true ↔ tl.state = TaskListState.Compiled) ∧
      (∀ id, accepted (tl.last_access id) = true → tl.state = TaskListState.Compiled) ∧
      (∀ id q, accepted (tl.last_access_image id q) = true →
        tl.state = TaskListState.Compiled) ∧
      (∀ id q, accepted (tl.last_layout id q) = true → tl.state = TaskListState.Compiled)) ∧
    (∀ n : Nat, ((TaskList.new 0 "task_list").run k (fsr2_calls n)).2 = true) := by
  refine ⟨?_, ?_, ?_⟩
  · intro tl tl1 calls h
    have hs : tl1.state = TaskListState.Compiled := (compile_frozen tl tl1 k h).1
    obtain ⟨a1, _, a3, a4, a5, a6⟩ := run_compiled k calls tl1 hs
    refine ⟨hs, a1, a3, a4, a5, a6, ?_, ?_, ?_⟩
    · intro t
      have e : (tl1.run k calls).1.add_task k t
          = Except.error "add_task: the task list is already compiled" := by
        simp [TaskList.add_task, a1]
      exact ⟨e, by simp only [TaskList.apply, e]⟩
    · intro info
      have e : (tl1.run k calls).1.create_task_buffer info
          = Except.error "create_task_buffer: the task list is already compiled" := by
        simp [TaskList.create_task_buffer, a1]
      exact ⟨e, by simp only [TaskList.apply, e]⟩
    · intro info
      have e : (tl1.run k calls).1.create_task_image info
          = Except.error "create_task_image: the task list is already compiled" := by
        simp [TaskList.create_task_image, a1]
      exact ⟨e, by simp only [TaskList.apply, e]⟩
  · intro tl
    refine ⟨?_, ?_, ?_, ?_⟩
    · by_cases h : tl.state = TaskListState.Compiled
      · simp [TaskList.execute, h, accepted]
      · simp [TaskList.execute, h, accepted]
    · intro id
      by_cases h : tl.state = TaskListState.Compiled
      · intro _; exact h
      · simp [TaskList.last_access, h, accepted]
    · intro id q
      by_cases h : tl.state = TaskListState.Compiled
      · intro _; exact h
      · simp [TaskList.last_access_image, h, accepted]
    · intro id q
      by_cases h : tl.state = TaskListState.Compiled
      · intro _; exact h
      · simp [TaskList.last_layout, h, accepted]
  · intro n
    obtain ⟨tl1, hc, hr⟩ := fsr2_record_run k
    obtain ⟨_, _, h1⟩ := compile_ok fsr2_tasks_recorded tl1 k hc
    have hf := compile_frozen fsr2_tasks_recorded tl1 k hc
    unfold fsr2_calls
    rw [run_append, hr]
    simp only [Bool.true_and]
    exact fsr2_draws_run k n tl1 hf (by rw [h1]; rfl) (by rw [h1]) (by rw [h1])

theorem compiled_is_final_witness :
    (∃ tl1, fsr2_tasks_recorded.compile specAccessClassifier = Except.ok tl1 ∧
      (tl1.run specAccessClassifier fsr2_draw_calls).1.state = TaskListState.Compiled ∧
      (tl1.run specAccessClassifier fsr2_draw_calls).1.add_task specAccessClassifier
          fsr2_blit_task
        = Except.error "add_task: the task list is already compiled") ∧
    ((TaskList.new 0 "task_list").run specAccessClassifier (fsr2_calls 2)).2 = true :=
  ⟨⟨_, rfl,
    ((compiled_is_final specAccessClassifier).1 fsr2_tasks_recorded _ fsr2_draw_calls rfl).2.1,
    (((compiled_is_final specAccessClassifier).1 fsr2_tasks_recorded _ fsr2_draw_calls
      rfl).2.2.2.2.2.2.1 fsr2_blit_task).1⟩,
   (compiled_is_final specAccessClassifier).2.2 2⟩
/-! ## Theorems: the predicates of the Access Classifier -/

/-- The add-time validation accepts a task with two uses of one registered
buffer exactly when the two accesses are compatible. -/
theorem validate_task_using_twice (tl : TaskList) (k : AccessClassifier) (id : TaskBufferId)
    (a b : TaskBufferAccess) (h : tl.has_buffer id = true) :
    tl.validate_task k (task_using_twice id a b) = Except.ok () ↔
      a.is_compatible k b = true := by
  cases hc : a.is_compatible k b <;>
    simp [TaskBufferAccess.is_compatible] at hc <;>
    simp [TaskList.validate_task, task_using_twice, orderedPairs, h, hc]

/-- Claim C14: for every classifier and every pair of buffer accesses, and
likewise of image accesses, `is_compatible(a, b)` is true iff `is_read(a)` and
`is_read(b)` both hold; `is_read` and `is_write` are functions on the whole
enumeration. With the tables of the spec every enumerator whose identifier
ends in `_READ_WRITE` satisfies both `is_read` and `is_write`; these are the
seven read-write entries of the shader matrix in each enumeration. The add-time
validation accepts two uses of one registered buffer in one task exactly when
both accesses are reads. -/
theorem is_compatible_iff_both_read :
    (∀ (k : AccessClassifier) (a b : TaskBufferAccess),
      a.is_compatible k b = true ↔ a.is_read k = true ∧ b.is_read k = true) ∧
    (∀ (k : AccessClassifier) (a b : TaskImageAccess),
      a.is_compatible k b = true ↔ a.is_read k = true ∧ b.is_read k = true) ∧
    (∀ a : TaskBufferAccess, ends_in_READ_WRITE a.name = true →
      a.is_read specAccessClassifier = true ∧ a.is_write specAccessClassifier = true) ∧
    (∀ a : TaskImageAccess, ends_in_READ_WRITE a.name = true →
      a.is_read specAccessClassifier = true ∧ a.is_write specAccessClassifier = true) ∧
    (∀ a : TaskBufferAccess, ends_in_READ_WRITE a.name = true ↔
      a ∈ [TaskBufferAccess.SHADER_READ_WRITE, TaskBufferAccess.VERTEX_SHADER_READ_WRITE,
        TaskBufferAccess.TESSELLATION_CONTROL_SHADER_READ_WRITE,
        TaskBufferAccess.TESSELLATION_EVALUATION_SHADER_READ_WRITE,
        TaskBufferAccess.GEOMETRY_SHADER_READ_WRITE,
        TaskBufferAccess.FRAGMENT_SHADER_READ_WRITE,
        TaskBufferAccess.COMPUTE_SHADER_READ_WRITE]) ∧
    (∀ a : TaskImageAccess, ends_in_READ_WRITE a.name = true ↔
      a ∈ [TaskImageAccess.SHADER_READ_WRITE, TaskImageAccess.VERTEX_SHADER_READ_WRITE,
        TaskImageAccess.TESSELLATION_CONTROL_SHADER_READ_WRITE,
        TaskImageAccess.TESSELLATION_EVALUATION_SHADER_READ_WRITE,
        TaskImageAccess.GEOMETRY_SHADER_READ_WRITE,
        TaskImageAccess.FRAGMENT_SHADER_READ_WRITE,
        TaskImageAccess.COMPUTE_SHADER_READ_WRITE]) ∧
    (∀ (tl : TaskList) (k : AccessClassifier) (id : TaskBufferId) (a b : TaskBufferAccess),
      tl.has_buffer id = true →
      (tl.validate_task k (task_using_twice id a b) = Except.ok () ↔
        a.is_read k = true ∧ b.is_read k = true)) := by
  have hb : ∀ (k : AccessClassifier) (a b : TaskBufferAccess),
      a.is_compatible k b = true ↔ a.is_read k = true ∧ b.is_read k = true := by
    intro k a b
    simp [TaskBufferAccess.is_compatible, TaskBufferAccess.is_read, Access.is_compatible]
  refine ⟨hb, ?_, by decide, by decide, by decide, by decide, ?_⟩
  · intro k a b
    simp [TaskImageAccess.is_compatible, TaskImageAccess.is_read, Access.is_compatible]
  · intro tl k id a b h
    rw [validate_task_using_twice tl k id a b h]
    exact hb k a b

theorem is_compatible_iff_both_read_witness :
    TaskImageAccess.COMPUTE_SHADER_READ_WRITE.is_read specAccessClassifier = true ∧
    TaskImageAccess.COMPUTE_SHADER_READ_WRITE.is_write specAccessClassifier = true ∧
    (TaskBufferAccess.TRANSFER_READ.is_compatible specAccessClassifier
        TaskBufferAccess.TRANSFER_WRITE = true ↔
      TaskBufferAccess.TRANSFER_READ.is_read specAccessClassifier = true ∧
      TaskBufferAccess.TRANSFER_WRITE.is_read specAccessClassifier = true) ∧
    TaskBufferAccess.TRANSFER_WRITE.is_read specAccessClassifier = false :=
  ⟨(is_compatible_iff_both_read.2.2.2.1 TaskImageAccess.COMPUTE_SHADER_READ_WRITE
      (by decide)).1,
   (is_compatible_iff_both_read.2.2.2.1 TaskImageAccess.COMPUTE_SHADER_READ_WRITE
      (by decide)).2,
   is_compatible_iff_both_read.1 specAccessClassifier TaskBufferAccess.TRANSFER_READ
      TaskBufferAccess.TRANSFER_WRITE,
   by decide⟩
/-! ## Theorems: the round trip through the generic view -/

/-- Claim C15: for every `TaskBufferUse` `u` the generic view `u.to_generic()`
is tagged `BUFFER`, `TaskBufferUse::from` of it passes the tag assertion and
is `u` itself, with the id, the access and the attached buffers of `u`; for
every `TaskImageUse` `v` the generic view is tagged `IMAGE`,
`TaskImageUse::from` of it passes and is `v` itself, with the id, access,
slice, view type, attached images and views of `v`. The cast to the other kind
trips the assertion. -/
theorem from_to_generic_round_trip :
    (∀ u : TaskBufferUse,
      u.to_generic.type = TaskResourceUseType.BUFFER ∧
      tripped (TaskBufferUse.from u.to_generic) = false ∧
      TaskBufferUse.from u.to_generic = Except.ok u ∧
      (∀ w, TaskBufferUse.from u.to_generic = Except.ok w →
        w.id = u.id ∧ w.access = u.access ∧ w.buffers = u.buffers) ∧
      TaskImageUse.from u.to_generic = Except.error "invalid TaskResourceUse cast") ∧
    (∀ v : TaskImageUse,
      v.to_generic.type = TaskResourceUseType.IMAGE ∧
      tripped (TaskImageUse.from v.to_generic) = false ∧
      TaskImageUse.from v.to_generic = Except.ok v ∧
      (∀ w, TaskImageUse.from v.to_generic = Except.ok w →
        w.id = v.id ∧ w.access = v.access ∧ w.slice = v.slice ∧ w.view_type = v.view_type ∧
        w.images = v.images ∧ w.views = v.views) ∧
      TaskBufferUse.from v.to_generic = Except.error "invalid TaskResourceUse cast") := by
  constructor
  · intro u
    refine ⟨rfl, rfl, rfl, ?_, rfl⟩
    intro w h
    have e : u = w := Except.ok.inj h
    subst e
    exact ⟨rfl, rfl, rfl⟩
  · intro v
    refine ⟨rfl, rfl, rfl, ?_, rfl⟩
    intro w h
    have e : v = w := Except.ok.inj h
    subst e
    exact ⟨rfl, rfl, rfl, rfl, rfl, rfl⟩

theorem from_to_generic_round_trip_witness :
    TaskBufferUse.from attachedBufferUse.to_generic = Except.ok attachedBufferUse ∧
    attachedBufferUse.buffers = [{ value := 7 }] ∧
    TaskImageUse.from attachedImageUse.to_generic = Except.ok attachedImageUse ∧
    attachedImageUse.views = [{ value := 9 }] :=
  ⟨(from_to_generic_round_trip.1 attachedBufferUse).2.2.1,
   ((from_to_generic_round_trip.1 attachedBufferUse).2.2.2.1 attachedBufferUse rfl).2.2,
   (from_to_generic_round_trip.2 attachedImageUse).2.2.1,
   ((from_to_generic_round_trip.2 attachedImageUse).2.2.2.1 attachedImageUse rfl).2.2.2.2.2⟩
/-! ## Theorems: the resource accessors -/

theorem buffer_of_attached (u : TaskBufferUse) (i : Nat) (h : 0 < u.buffers.length) :
    u.buffer i = Except.ok u.buffers[i]? := by
  simp [TaskBufferUse.buffer, DAXA_DBG_ASSERT_TRUE_M, h, bind, Except.bind, pure, Except.pure]

theorem image_of_attached (u : TaskImageUse) (i : Nat) (h : 0 < u.images.length) :
    u.image i = Except.ok u.images[i]? := by
  simp [TaskImageUse.image, DAXA_DBG_ASSERT_TRUE_M, h, bind, Except.bind, pure, Except.pure]

theorem view_of_attached (u : TaskImageUse) (i : Nat) (h : 0 < u.views.length) :
    u.view i = Except.ok u.views[i]? := by
  simp [TaskImageUse.view, DAXA_DBG_ASSERT_TRUE_M, h, bind, Except.bind, pure, Except.pure]

theorem buffer_tripped_iff (u : TaskBufferUse) (i : Nat) :
    tripped (u.buffer i) = false ↔ 0 < u.buffers.length := by
  by_cases h : 0 < u.buffers.length
  · simp [buffer_of_attached u i h, tripped, h]
  · simp [TaskBufferUse.buffer, DAXA_DBG_ASSERT_TRUE_M, h, bind, Except.bind, tripped]

theorem image_tripped_iff (u : TaskImageUse) (i : Nat) :
    tripped (u.image i) = false ↔ 0 < u.images.length := by
  by_cases h : 0 < u.images.length
  · simp [image_of_attached u i h, tripped, h]
  · simp [TaskImageUse.image, DAXA_DBG_ASSERT_TRUE_M, h, bind, Except.bind, tripped]

theorem view_tripped_iff (u : TaskImageUse) (i : Nat) :
    tripped (u.view i) = false ↔ 0 < u.views.length := by
  by_cases h : 0 < u.views.length
  · simp [view_of_attached u i h, tripped, h]
  · simp [TaskImageUse.view, DAXA_DBG_ASSERT_TRUE_M, h, bind, Except.bind, tripped]

/-- Claim C16 fails as stated: on a buffer use with one attached buffer
`buffer(1)` passes its assertion, although index 1 is not less than the number
of attached buffers, and what it reads lies outside the span; the same holds
for `image(1)` and `view(1)` on an image use with one attached image and view. -/
theorem accessor_assertion_does_not_bound_index :
    tripped (attachedBufferUse.buffer 1) = false ∧
    ¬ 1 < attachedBufferUse.buffers.length ∧
    attachedBufferUse.buffer 1 = Except.ok Option.none ∧
    tripped (attachedImageUse.image 1) = false ∧
    ¬ 1 < attachedImageUse.images.length ∧
    attachedImageUse.image 1 = Except.ok Option.none ∧
    tripped (attachedImageUse.view 1) = false ∧
    ¬ 1 < attachedImageUse.views.length ∧
    attachedImageUse.view 1 = Except.ok Option.none := by
  refine ⟨rfl, by decide, rfl, rfl, by decide, rfl, rfl, by decide, rfl⟩

/-- Claim C16, amended: the assertion of `buffer(i)` passes exactly when at least
one buffer is attached to the use, whatever `i` is; when it passes, every index
`i` below the number of attached buffers is read inside the span and
`buffer(i)` returns the `i`-th attached buffer, in particular `buffer(0)`, the
default, returns the first one. Likewise `image(i)` and `view(i)` with respect
to the attached images and views. -/
theorem accessors_return_attached_resource :
    (∀ (u : TaskBufferUse) (i : Nat),
      (tripped (u.buffer i) = false ↔ 0 < u.buffers.length) ∧
      (tripped (u.buffer i) = false → ∃ b, u.buffers[0]? = some b ∧
        u.buffer = Except.ok (some b)) ∧
      (∀ h : i < u.buffers.length, u.buffer i = Except.ok (some (u.buffers.get ⟨i, h⟩)))) ∧
    (∀ (u : TaskImageUse) (i : Nat),
      (tripped (u.image i) = false ↔ 0 < u.images.length) ∧
      (tripped (u.image i) = false → ∃ b, u.images[0]? = some b ∧
        u.image = Except.ok (some b)) ∧
      (∀ h : i < u.images.length, u.image i = Except.ok (some (u.images.get ⟨i, h⟩)))) ∧
    (∀ (u : TaskImageUse) (i : Nat),
      (tripped (u.view i) = false ↔ 0 < u.views.length) ∧
      (tripped (u.view i) = false → ∃ b, u.views[0]? = some b ∧
        u.view = Except.ok (some b)) ∧
      (∀ h : i < u.views.length, u.view i = Except.ok (some (u.views.get ⟨i, h⟩)))) := by
  refine ⟨?_, ?_, ?_⟩
  · intro u i
    refine ⟨buffer_tripped_iff u i, ?_, ?_⟩
    · intro ht
      have h := (buffer_tripped_iff u i).mp ht
      refine ⟨u.buffers.get ⟨0, h⟩, List.getElem?_eq_getElem h, ?_⟩
      rw [buffer_of_attached u 0 h, List.getElem?_eq_getElem h]
      rfl
    · intro h
      rw [buffer_of_attached u i (by omega), List.getElem?_eq_getElem h]
      rfl
  · intro u i
    refine ⟨image_tripped_iff u i, ?_, ?_⟩
    · intro ht
      have h := (image_tripped_iff u i).mp ht
      refine ⟨u.images.get ⟨0, h⟩, List.getElem?_eq_getElem h, ?_⟩
      rw [image_of_attached u 0 h, List.getElem?_eq_getElem h]
      rfl
    · intro h
      rw [image_of_attached u i (by omega), List.getElem?_eq_getElem h]
      rfl
  · intro u i
    refine ⟨view_tripped_iff u i, ?_, ?_⟩
    · intro ht
      have h := (view_tripped_iff u i).mp ht
      refine ⟨u.views.get ⟨0, h⟩, List.getElem?_eq_getElem h, ?_⟩
      rw [view_of_attached u 0 h, List.getElem?_eq_getElem h]
      rfl
    · intro h
      rw [view_of_attached u i (by omega), List.getElem?_eq_getElem h]
      rfl

theorem accessors_return_attached_resource_witness :
    attachedBufferUse.buffer 0 = Except.ok (some { value := 7 }) ∧
    attachedImageUse.image 0 = Except.ok (some { value := 8 }) ∧
    attachedImageUse.view 0 = Except.ok (some { value := 9 }) :=
  ⟨(accessors_return_attached_resource.1 attachedBufferUse 0).2.2 (by decide),
   (accessors_return_attached_resource.2.1 attachedImageUse 0).2.2 (by decide),
   (accessors_return_attached_resource.2.2 attachedImageUse 0).2.2 (by decide)⟩
/-! ## Theorems: the two overloads of `for_each` -/

theorem for_each_loop_const_eq (s : UseSpan) :
    ∀ (fuel index : Nat) (calls : List TaskUseCall),
      for_each_loop_const s fuel index calls = for_each_loop s fuel index calls := by
  intro fuel
  induction fuel with
  | zero => intro index calls; rfl
  | succ f ih =>
    intro index calls
    unfold for_each_loop_const for_each_loop
    simp only [ih]

/-- Callbacks that leave the uses as they are leave the memory as it is, and
the run is the one of `for_each_loop`. -/
theorem for_each_loop_mut_id (s : UseSpan) :
    ∀ (fuel index : Nat) (calls : List TaskUseCall),
      for_each_loop_mut (fun _ u => u) (fun _ u => u) s fuel index calls
        = (s, for_each_loop s fuel index calls) := by
  intro fuel
  induction fuel with
  | zero => intro index calls; rfl
  | succ f ih =>
    intro index calls
    unfold for_each_loop_mut for_each_loop
    by_cases hlt : index < s.size
    · simp only [if_pos hlt]
      cases hget : s.data[index]? with
      | none => rfl
      | some use =>
        have hset : s.data.set index use = s.data := by
          apply List.ext_getElem?
          intro i
          by_cases hi : index = i
          · subst hi
            rw [List.getElem?_set_self (List.getElem?_eq_some_iff.1 hget).1, hget]
          · rw [List.getElem?_set_ne hi]
        cases use with
        | none => simp only [GenericTaskResourceUse.type, ih]
        | constant => simp only [GenericTaskResourceUse.type, ih]
        | buffer b =>
          have hfrom : TaskBufferUse.from (GenericTaskResourceUse.buffer b) = Except.ok b := rfl
          simp only [GenericTaskResourceUse.type, TaskBufferUse.type, hfrom, hset, ih]
        | image m =>
          have hfrom : TaskImageUse.from (GenericTaskResourceUse.image m) = Except.ok m := rfl
          simp only [GenericTaskResourceUse.type, TaskImageUse.type, hfrom, hset, ih]
    · simp only [if_neg hlt]

theorem map_type_set (l : List GenericTaskResourceUse) (i : Nat) (u v : GenericTaskResourceUse)
    (h : l[i]? = some u) (ht : v.type = u.type) :
    (l.set i v).map GenericTaskResourceUse.type = l.map GenericTaskResourceUse.type := by
  apply List.ext_getElem?
  intro j
  rw [List.getElem?_map, List.getElem?_map]
  by_cases hj : i = j
  · subst hj
    rw [List.getElem?_set_self (List.getElem?_eq_some_iff.1 h).1, h]
    simp [ht]
  · rw [List.getElem?_set_ne hj]

/-- Whatever the callbacks write, after any number of loop steps the span has
the size it had, the memory holds as many uses as before, and the use at every
position has the tag it had. -/
theorem for_each_loop_mut_keeps_tags (buf_fn : Nat → TaskBufferUse → TaskBufferUse)
    (img_fn : Nat → TaskImageUse → TaskImageUse) :
    ∀ (fuel : Nat) (s : UseSpan) (index : Nat) (calls : List TaskUseCall),
      (for_each_loop_mut buf_fn img_fn s fuel index calls).1.size = s.size ∧
      (for_each_loop_mut buf_fn img_fn s fuel index calls).1.data.length = s.data.length ∧
      (for_each_loop_mut buf_fn img_fn s fuel index calls).1.data.map GenericTaskResourceUse.type
        = s.data.map GenericTaskResourceUse.type := by
  intro fuel
  induction fuel with
  | zero => intro s index calls; exact ⟨rfl, rfl, rfl⟩
  | succ f ih =>
    intro s index calls
    unfold for_each_loop_mut
    by_cases hlt : index < s.size
    · simp only [if_pos hlt]
      cases hget : s.data[index]? with
      | none => exact ⟨rfl, rfl, rfl⟩
      | some use =>
        cases use with
        | none => simp only [GenericTaskResourceUse.type]; exact ih s _ _
        | constant => simp only [GenericTaskResourceUse.type]; exact ih s _ _
        | buffer b =>
          have hfrom : TaskBufferUse.from (GenericTaskResourceUse.buffer b) = Except.ok b := rfl
          simp only [GenericTaskResourceUse.type, TaskBufferUse.type, hfrom]
          obtain ⟨h1, h2, h3⟩ := ih
            { s with data := s.data.set index (GenericTaskResourceUse.buffer (buf_fn index b)) }
            ((index + 1) % 2 ^ 32) (calls ++ [TaskUseCall.buf_fn index b])
          refine ⟨h1, ?_, ?_⟩
          · rw [h2]; simp
          · rw [h3]; exact map_type_set _ _ _ _ hget rfl
        | image m =>
          have hfrom : TaskImageUse.from (GenericTaskResourceUse.image m) = Except.ok m := rfl
          simp only [GenericTaskResourceUse.type, TaskImageUse.type, hfrom]
          obtain ⟨h1, h2, h3⟩ := ih
            { s with data := s.data.set index (GenericTaskResourceUse.image (img_fn index m)) }
            ((index + 1) % 2 ^ 32) (calls ++ [TaskUseCall.img_fn index m])
          refine ⟨h1, ?_, ?_⟩
          · rw [h2]; simp
          · rw [h3]; exact map_type_set _ _ _ _ hget rfl
    · simp only [if_neg hlt]
      simp

/-- With callbacks that write to the uses, the loop started at the end of the
already visited uses `pre` still finishes with the invocations of
`specCallsFrom` for the remaining uses: every use is handed to its callback
before anything is written to it. -/
theorem for_each_loop_mut_finishes (buf_fn : Nat → TaskBufferUse → TaskBufferUse)
    (img_fn : Nat → TaskImageUse → TaskImageUse) :
    ∀ (rest pre : List GenericTaskResourceUse) (s : UseSpan) (calls : List TaskUseCall)
      (fuel : Nat), s.size < 2 ^ 32 →
      s.data = pre ++ rest → s.size = (pre ++ rest).length → rest.length < fuel →
      (for_each_loop_mut buf_fn img_fn s fuel pre.length calls).2
        = ForEachRun.finished (calls ++ specCallsFrom pre.length rest) := by
  intro rest
  induction rest with
  | nil =>
    intro pre s calls fuel hsize hdata hlen hfuel
    obtain ⟨f, rfl⟩ : ∃ f, fuel = f + 1 := ⟨fuel - 1, by simp at hfuel; omega⟩
    simp at hlen
    simp [for_each_loop_mut, specCallsFrom, hlen]
  | cons u rest ih =>
    intro pre s calls fuel hsize hdata hlen hfuel
    obtain ⟨f, rfl⟩ : ∃ f, fuel = f + 1 := ⟨fuel - 1, by simp at hfuel; omega⟩
    have hlt : pre.length < s.size := by rw [hlen]; simp
    have hget : s.data[pre.length]? = some u := by
      rw [hdata, List.getElem?_append_right (le_refl _)]; simp
    have hnext : (pre.length + 1) % 2 ^ 32 = pre.length + 1 := by
      apply Nat.mod_eq_of_lt
      omega
    have hfuel2 : rest.length < f := by simp at hfuel; omega
    have hset : ∀ v : GenericTaskResourceUse, s.data.set pre.length v = (pre ++ [v]) ++ rest := by
      intro v
      rw [hdata]
      simp
    have hlen2 : ∀ v : GenericTaskResourceUse, s.size = ((pre ++ [v]) ++ rest).length := by
      intro v
      rw [hlen]
      simp
    have hplen : ∀ v : GenericTaskResourceUse, (pre ++ [v]).length = pre.length + 1 := by
      intro v
      simp
    unfold for_each_loop_mut
    rw [if_pos hlt]
    simp only [hget]
    cases u with
    | none =>
      simp only [GenericTaskResourceUse.type, hnext]
      have h := ih (pre ++ [GenericTaskResourceUse.none]) s calls f hsize (by simp [hdata])
        (hlen2 _) hfuel2
      rw [hplen] at h
      rw [h]
      simp [specCallsFrom, specCallAt]
    | constant =>
      simp only [GenericTaskResourceUse.type, hnext]
      have h := ih (pre ++ [GenericTaskResourceUse.constant]) s calls f hsize (by simp [hdata])
        (hlen2 _) hfuel2
      rw [hplen] at h
      rw [h]
      simp [specCallsFrom, specCallAt]
    | buffer b =>
      have hfrom : TaskBufferUse.from (GenericTaskResourceUse.buffer b) = Except.ok b := rfl
      simp only [GenericTaskResourceUse.type, TaskBufferUse.type, hfrom, hnext]
      have h := ih (pre ++ [GenericTaskResourceUse.buffer (buf_fn pre.length b)])
        ⟨s.data.set pre.length (GenericTaskResourceUse.buffer (buf_fn pre.length b)), s.size⟩
        (calls ++ [TaskUseCall.buf_fn pre.length b]) f hsize (hset _) (hlen2 _) hfuel2
      rw [hplen] at h
      rw [h]
      simp [specCallsFrom, specCallAt]
    | image m =>
      have hfrom : TaskImageUse.from (GenericTaskResourceUse.image m) = Except.ok m := rfl
      simp only [GenericTaskResourceUse.type, TaskImageUse.type, hfrom, hnext]
      have h := ih (pre ++ [GenericTaskResourceUse.image (img_fn pre.length m)])
        ⟨s.data.set pre.length (GenericTaskResourceUse.image (img_fn pre.length m)), s.size⟩
        (calls ++ [TaskUseCall.img_fn pre.length m]) f hsize (hset _) (hlen2 _) hfuel2
      rw [hplen] at h
      rw [h]
      simp [specCallsFrom, specCallAt]

/-- Claim C17: the const and the non-const overload of `for_each` make the same
run on every container, after any number of loop steps: the same callback
invocations with the same indices and uses in the same order. On a container
that holds exactly `count` uses, `count` below `2 ^ 32`, both return, with the
invocations of `specForEachCalls`, and so does the non-const overload when its
callbacks write to the uses they are given. Callbacks that do not write leave
the container as it is; whatever the callbacks write, `count`, the number of
uses and the tag at every position stay as they are. -/
theorem for_each_overloads_agree (c : GenericTaskArgsContainer) :
    (∀ fuel, c.for_each_const fuel = c.for_each fuel) ∧
    (c.memory.length = c.count → c.count < 2 ^ 32 → ∀ fuel, c.count < fuel →
      c.for_each_const fuel = ForEachRun.finished (specForEachCalls c) ∧
      c.for_each fuel = ForEachRun.finished (specForEachCalls c) ∧
      ∀ buf_fn img_fn,
        (c.for_each_mut buf_fn img_fn fuel).2 = ForEachRun.finished (specForEachCalls c)) ∧
    (∀ fuel, c.for_each_mut (fun _ u => u) (fun _ u => u) fuel = (c, c.for_each fuel)) ∧
    (∀ buf_fn img_fn fuel,
      (c.for_each_mut buf_fn img_fn fuel).1.count = c.count ∧
      (c.for_each_mut buf_fn img_fn fuel).1.memory.length = c.memory.length ∧
      ∀ i : Nat,
        ((c.for_each_mut buf_fn img_fn fuel).1.memory[i]?).map GenericTaskResourceUse.type
          = (c.memory[i]?).map GenericTaskResourceUse.type) := by
  have hconst : ∀ fuel, c.for_each_const fuel = c.for_each fuel := by
    intro fuel
    exact for_each_loop_const_eq c.span fuel 0 []
  refine ⟨hconst, ?_, ?_, ?_⟩
  · intro hmem hcount fuel hfuel
    have h := for_each_loop_finishes c.span hcount c.memory [] [] fuel rfl
      (by simp [GenericTaskArgsContainer.span, hmem]) (by omega)
    have h2 : c.for_each fuel = ForEachRun.finished (specForEachCalls c) := by
      simpa [GenericTaskArgsContainer.for_each, specForEachCalls] using h
    refine ⟨(hconst fuel).trans h2, h2, ?_⟩
    intro buf_fn img_fn
    have h3 := for_each_loop_mut_finishes buf_fn img_fn c.memory [] c.span [] fuel hcount rfl
      (by simp [GenericTaskArgsContainer.span, hmem]) (by omega)
    simpa [GenericTaskArgsContainer.for_each_mut, specForEachCalls] using h3
  · intro fuel
    simp only [GenericTaskArgsContainer.for_each_mut, for_each_loop_mut_id]
    rfl
  · intro buf_fn img_fn fuel
    obtain ⟨_, h2, h3⟩ := for_each_loop_mut_keeps_tags buf_fn img_fn fuel c.span 0 []
    refine ⟨rfl, h2, ?_⟩
    intro i
    have h4 := congrArg (fun l => l[i]?) h3
    simpa [GenericTaskArgsContainer.for_each_mut, List.getElem?_map] using h4

theorem for_each_overloads_agree_witness :
    sampleContainer.for_each_const 5 = ForEachRun.finished (specForEachCalls sampleContainer) ∧
    sampleContainer.for_each 5 = ForEachRun.finished (specForEachCalls sampleContainer) ∧
    (sampleContainer.for_each_mut sample_buf_fn sample_img_fn 5).2
      = ForEachRun.finished (specForEachCalls sampleContainer) ∧
    (sampleContainer.for_each_mut sample_buf_fn sample_img_fn 5).1.memory
      ≠ sampleContainer.memory :=
  ⟨((for_each_overloads_agree sampleContainer).2.1 (by decide) (by decide) 5 (by decide)).1,
   ((for_each_overloads_agree sampleContainer).2.1 (by decide) (by decide) 5 (by decide)).2.1,
   ((for_each_overloads_agree sampleContainer).2.1 (by decide) (by decide) 5 (by decide)).2.2
     sample_buf_fn sample_img_fn,
   by decide⟩
/-! ## Theorems: the add-time validation of the FSR2 sample -/

/-- An accepted `add_task` call passed the add-time validation. -/
theorem apply_add_task_accepted (tl : TaskList) (k : AccessClassifier) (t : TaskInfo)
    (h : (tl.apply k (ApiCall.add_task t)).2 = true) :
    tl.state = TaskListState.Building ∧ tl.validate_task k t = Except.ok () := by
  simp only [TaskList.apply, TaskList.add_task] at h
  by_cases hs : tl.state = TaskListState.Building
  · rw [if_pos hs] at h
    cases hv : tl.validate_task k t with
    | ok v => exact ⟨hs, rfl⟩
    | error e => rw [hv] at h; cases h
  · rw [if_neg hs] at h
    cases h

/-- When every call of a sequence is accepted, each of its `add_task` calls
passes the add-time validation on the task list as it stands after the calls
made before it. -/
theorem run_accepted_add_task (tl : TaskList) (k : AccessClassifier)
    (pre post : List ApiCall) (t : TaskInfo)
    (h : (tl.run k (pre ++ ApiCall.add_task t :: post)).2 = true) :
    (tl.run k pre).2 = true ∧ (tl.run k pre).1.state = TaskListState.Building ∧
    (tl.run k pre).1.validate_task k t = Except.ok () := by
  rw [run_append] at h
  simp only [TaskList.run, Bool.and_eq_true] at h
  obtain ⟨h1, h2, _⟩ := h
  exact ⟨h1, apply_add_task_accepted _ k t h2⟩

/-- The ids each task of the sample refers to are ids the sample received from
`create_task_buffer` and `create_task_image`, and no id occurs twice in the
buffer uses or in the image uses of a task. -/
theorem fsr2_task_ids :
    ∀ t ∈ fsr2_tasks_recorded.tasks,
      (∀ u ∈ t.resources.buffers, u.id ∈ fsr2_ids.buffer_ids) ∧
      (∀ u ∈ t.resources.images, u.id ∈ fsr2_ids.image_ids) ∧
      (t.resources.buffers.map (fun u => u.id)).Nodup ∧
      (t.resources.images.map (fun u => u.id)).Nodup := by
  decide

theorem fsr2_add_task_mem (t : TaskInfo) (h : ApiCall.add_task t ∈ fsr2_record_calls) :
    t ∈ fsr2_tasks_recorded.tasks := by
  simpa [fsr2_record_calls] using h

/-- Claim C18: the recording of the FSR2 sample is accepted call by call, for
every classifier. Each of its `add_task` calls passes the add-time validation
on the task list as it stands when the call is made: every task buffer or task
image id the task refers to exists in the registry at that time and is one of
the ids the sample received from `create_task_buffer` or `create_task_image`
on this task list, and no id occurs twice in the buffer uses or in the image
uses of the task. -/
theorem fsr2_add_tasks_pass_validation (k : AccessClassifier) :
    record_loop_tasks k = Except.ok (fsr2_tasks_recorded, fsr2_ids) ∧
    ((TaskList.new 0 "task_list").run k fsr2_record_calls).2 = true ∧
    (fsr2_record_calls.filter ApiCall.is_add_task).length = 7 ∧
    (∀ (pre post : List ApiCall) (t : TaskInfo),
      fsr2_record_calls = pre ++ ApiCall.add_task t :: post →
      ((TaskList.new 0 "task_list").run k pre).2 = true ∧
      ((TaskList.new 0 "task_list").run k pre).1.validate_task k t = Except.ok () ∧
      (∀ u ∈ t.resources.buffers,
        ((TaskList.new 0 "task_list").run k pre).1.has_buffer u.id = true ∧
        u.id ∈ fsr2_ids.buffer_ids) ∧
      (∀ u ∈ t.resources.images,
        ((TaskList.new 0 "task_list").run k pre).1.has_image u.id = true ∧
        u.id ∈ fsr2_ids.image_ids) ∧
      (t.resources.buffers.map (fun u => u.id)).Nodup ∧
      (t.resources.images.map (fun u => u.id)).Nodup) := by
  have hrun : ((TaskList.new 0 "task_list").run k fsr2_record_calls).2 = true := by
    obtain ⟨tl1, _, hr⟩ := fsr2_record_run k
    rw [hr]
  refine ⟨rfl, hrun, rfl, ?_⟩
  · intro pre post t hsplit
    rw [hsplit] at hrun
    obtain ⟨h1, _, h3⟩ := run_accepted_add_task _ k pre post t hrun
    obtain ⟨hb, hi⟩ := validate_task_ids _ k t h3
    have hmem : t ∈ fsr2_tasks_recorded.tasks :=
      fsr2_add_task_mem t (by rw [hsplit]; simp)
    obtain ⟨g1, g2, g3, g4⟩ := fsr2_task_ids t hmem
    exact ⟨h1, h3, fun u hu => ⟨hb u hu, g1 u hu⟩, fun u hu => ⟨hi u hu, g2 u hu⟩, g3, g4⟩

theorem fsr2_add_tasks_pass_validation_witness :
    ((TaskList.new 0 "task_list").run specAccessClassifier
        (fsr2_record_calls.take 9)).1.validate_task specAccessClassifier fsr2_draw_task
      = Except.ok () ∧
    (fsr2_draw_task.resources.images.map (fun u => u.id)).Nodup :=
  ⟨((fsr2_add_tasks_pass_validation specAccessClassifier).2.2.2 (fsr2_record_calls.take 9)
      (fsr2_record_calls.drop 10) fsr2_draw_task rfl).2.1,
   ((fsr2_add_tasks_pass_validation specAccessClassifier).2.2.2 (fsr2_record_calls.take 9)
      (fsr2_record_calls.drop 10) fsr2_draw_task rfl).2.2.2.2.2⟩
/-! ## Theorems: the access identifiers of the FSR2 sample -/

/-- Claim C19 does not hold on the sample: of the four buffer accesses it names,
`VERTEX_SHADER_READ_ONLY` is no enumerator of `TaskBufferAccess`, and of the
twelve image accesses it names, the three `SHADER_READ_ONLY` and the one
`SHADER_WRITE_ONLY` are no enumerators of `TaskImageAccess`; the header
declares `VERTEX_SHADER_READ`, `SHADER_READ` and `SHADER_WRITE`. Every other
access the sample names is an enumerator of the enumeration it is taken from. -/
theorem fsr2_names_undeclared_accesses :
    fsr2_buffer_access_names.length = 4 ∧
    fsr2_image_access_names.length = 12 ∧
    fsr2_buffer_access_names.filter (fun s => ! TaskBufferAccess.declares s)
      = ["VERTEX_SHADER_READ_ONLY"] ∧
    fsr2_image_access_names.filter (fun s => ! TaskImageAccess.declares s)
      = ["SHADER_READ_ONLY", "SHADER_READ_ONLY", "SHADER_READ_ONLY", "SHADER_WRITE_ONLY"] ∧
    (∀ a : TaskBufferAccess, a.name ≠ "VERTEX_SHADER_READ_ONLY") ∧
    (∀ a : TaskImageAccess, a.name ≠ "SHADER_READ_ONLY" ∧ a.name ≠ "SHADER_WRITE_ONLY") ∧
    TaskBufferAccess.VERTEX_SHADER_READ.name = "VERTEX_SHADER_READ" ∧
    TaskImageAccess.SHADER_READ.name = "SHADER_READ" ∧
    TaskImageAccess.SHADER_WRITE.name = "SHADER_WRITE" := by
  refine ⟨rfl, rfl, by decide, by decide, by decide, by decide, rfl, rfl, rfl⟩
/-! ## Theorems: the render context of DaxaMeshview -/

/-- Claim C20 does not hold on the code: after `resize(1024, 768)` of a context
constructed for a window of 800 x 600 the swapchain, the acquired swapchain
image and the depth image are 1024 x 768, as they are in a context constructed
for a window of 1024 x 768, but `normalsBuffer` is still the 800 x 600 image
of the constructor. `resize` never changes `normalsBuffer`, and the depth image
it makes names a memory property that the one of the constructor leaves out. -/
theorem resize_keeps_the_old_normalsBuffer :
    (((RenderContext.new { width := 800, height := 600 }).resize 1024 768).swapchain.width,
     ((RenderContext.new { width := 800, height := 600 }).resize 1024 768).swapchain.height)
      = (1024, 768) ∧
    ((RenderContext.new { width := 800, height := 600 }).resize 1024 768).swapchainImage
      = (RenderContext.new { width := 1024, height := 768 }).swapchainImage ∧
    ((RenderContext.new { width := 800, height := 600 }).resize 1024 768).depthImage.extent
      = (1024, 768) ∧
    ((RenderContext.new { width := 800, height := 600 }).resize 1024 768).normalsBuffer.extent
      = (800, 600) ∧
    (RenderContext.new { width := 1024, height := 768 }).normalsBuffer.extent = (1024, 768) ∧
    (RenderContext.new { width := 1024, height := 768 }).depthImage.extent = (1024, 768) ∧
    (∀ (rc : RenderContext) (width height : Nat),
      (rc.resize width height).normalsBuffer = rc.normalsBuffer ∧
      (rc.resize width height).depthImage.extent = (width, height) ∧
      ((rc.resize width height).swapchain.width, (rc.resize width height).swapchain.height)
        = (width, height)) ∧
    ((RenderContext.new { width := 800, height := 600 }).resize 1024 768).depthImage
      ≠ (RenderContext.new { width := 1024, height := 768 }).depthImage := by
  refine ⟨rfl, rfl, rfl, rfl, rfl, rfl, fun _ _ _ => ⟨rfl, rfl, rfl⟩, by decide⟩
/-! ## Theorems: the size of a task use and `TaskUses::USE_COUNT` -/

theorem struct_align_ge (alignas : Nat) (members : List Member) :
    alignas ≤ struct_align alignas members := by
  have key : ∀ (ms : List Member) (a : Nat),
      a ≤ ms.foldl (fun a m => max a m.align) a := by
    intro ms
    induction ms with
    | nil => intro a; exact le_refl a
    | cons m rest ih =>
      intro a
      exact le_trans (le_max_left a m.align) (ih (max a m.align))
  exact le_trans (le_max_left alignas 1) (key members (max alignas 1))

/-- A struct declared `alignas(128)` whose size is 128 has the alignment 128. -/
theorem struct_align_of_sizeof (members : List Member)
    (h : struct_sizeof 128 members = 128) : struct_align 128 members = 128 := by
  have hge := struct_align_ge 128 members
  unfold struct_sizeof align_up at h
  generalize struct_align 128 members = a at h hge
  generalize (max (layout_end members) 1 + a - 1) / a = q at h
  have hq : 0 < q := by
    rcases Nat.eq_zero_or_pos q with h0 | h0
    · rw [h0] at h; simp at h
    · exact h0
  have hle : a ≤ q * a := Nat.le_mul_of_pos_left a hq
  omega

theorem use_members_of_static_asserts (abi : Abi) (h : header_static_asserts abi = true) :
    member_TaskBufferUse abi = { size := 128, align := 128 } ∧
    member_TaskImageUse abi = { size := 128, align := 128 } := by
  simp only [header_static_asserts, Bool.and_eq_true, decide_eq_true_eq,
    TASK_INPUT_FIELD_SIZE] at h
  obtain ⟨h1, h2⟩ := h
  have h3 : TASK_IMAGE_INPUT_SIZE abi = 128 := by rw [← h1]; exact h2
  have a1 := struct_align_of_sizeof (members_TaskBufferUse abi) h2
  have a2 := struct_align_of_sizeof (members_TaskImageUse abi) h3
  simp only [member_TaskBufferUse, member_TaskImageUse, TASK_INPUT_FIELD_SIZE, h2, h3, a1, a2,
    and_self]

theorem layout_end_of_fields (members : List Member)
    (h : ∀ m ∈ members, m = { size := 128, align := 128 }) :
    layout_end members = 128 * members.length := by
  have key : ∀ (ms : List Member) (k : Nat),
      (∀ m ∈ ms, m = { size := 128, align := 128 }) →
      ms.foldl (fun offset m => align_up offset m.align + m.size) (128 * k)
        = 128 * (k + ms.length) := by
    intro ms
    induction ms with
    | nil => intro k _; simp
    | cons m rest ih =>
      intro k hm
      have e := hm m (List.mem_cons_self m rest)
      have hrest : ∀ x ∈ rest, x = { size := 128, align := 128 } :=
        fun x hx => hm x (List.mem_cons_of_mem m hx)
      have hstep : align_up (128 * k) m.align + m.size = 128 * (k + 1) := by
        rw [e]
        simp only [align_up]
        omega
      simp only [List.foldl_cons, hstep, List.length_cons]
      rw [ih (k + 1) hrest]
      omega
  have := key members 0 h
  simpa [layout_end] using this

theorem struct_align_of_fields (members : List Member) (hne : members ≠ [])
    (h : ∀ m ∈ members, m = { size := 128, align := 128 }) :
    struct_align 0 members = 128 := by
  have key : ∀ (ms : List Member) (a : Nat), a ≤ 128 →
      (∀ m ∈ ms, m = { size := 128, align := 128 }) → ms ≠ [] →
      ms.foldl (fun a m => max a m.align) a = 128 := by
    intro ms
    induction ms with
    | nil => intro a _ _ hn; exact absurd rfl hn
    | cons m rest ih =>
      intro a ha hm _
      have e := hm m (List.mem_cons_self m rest)
      have hrest : ∀ x ∈ rest, x = { size := 128, align := 128 } :=
        fun x hx => hm x (List.mem_cons_of_mem m hx)
      have hmax : max a m.align = 128 := by rw [e]; simp; omega
      simp only [List.foldl_cons, hmax]
      cases rest with
      | nil => rfl
      | cons r rs => exact ih 128 (le_refl 128) hrest (by simp)
  exact key members (max 0 1) (by decide) h hne

/-- A struct of `n` fields of 128 bytes with the alignment 128, `n` at least 1,
has the size `128 * n`. -/
theorem struct_sizeof_of_fields (members : List Member) (hne : members ≠ [])
    (h : ∀ m ∈ members, m = { size := 128, align := 128 }) :
    struct_sizeof 0 members = 128 * members.length := by
  have hlen : 0 < members.length := List.length_pos.2 hne
  unfold struct_sizeof
  rw [layout_end_of_fields members h, struct_align_of_fields members hne h]
  simp only [align_up]
  omega

theorem sizeof_uses_eq (abi : Abi) (h : header_static_asserts abi = true)
    (fields : List UseField) (hne : fields ≠ []) :
    sizeof_uses abi fields = 128 * fields.length := by
  obtain ⟨hb, hi⟩ := use_members_of_static_asserts abi h
  have hm : ∀ m ∈ fields.map (UseField.member abi), m = { size := 128, align := 128 } := by
    intro m hmem
    rw [List.mem_map] at hmem
    obtain ⟨f, _, rfl⟩ := hmem
    cases f
    · exact hb
    · exact hi
  unfold sizeof_uses
  rw [struct_sizeof_of_fields _ (by simpa using hne) hm, List.length_map]

theorem USE_COUNT_ok (size : Nat) (h0 : size ≠ 0) (hm : size % 128 = 0) :
    TaskUses.USE_COUNT size = Except.ok (size / 128) := by
  simp [TaskUses.USE_COUNT, static_assert, TASK_INPUT_FIELD_SIZE, h0, hm, bind, Except.bind,
    pure, Except.pure]

theorem USE_COUNT_rejects (size : Nat) (h : size = 0 ∨ size % 128 ≠ 0) :
    tripped (TaskUses.USE_COUNT size) = true := by
  by_cases h0 : size = 0
  · subst h0
    rfl
  · have hm : size % 128 ≠ 0 := by
      rcases h with h | h
      · exact absurd h h0
      · exact h
    simp [TaskUses.USE_COUNT, static_assert, TASK_INPUT_FIELD_SIZE, h0, hm, bind, Except.bind,
      tripped]

/-- Claim C21: `TASK_INPUT_FIELD_SIZE` is 128 and `sizeof(GenericTaskResourceUse)`
is 128; on every platform on which the `static_assert`s of the header hold,
`sizeof(TaskBufferUse)` and `sizeof(TaskImageUse)` are 128 too, and they hold
on the platforms with 64-bit and with 32-bit pointers. There a uses struct
made of `n` task-use fields, `n` at least 1, has the size `128 * n` and
`TaskUses::USE_COUNT` is `n`. `USE_COUNT` is `sizeof / 128` for every size that
is a positive multiple of 128, and a size that is zero or no multiple of 128 is
rejected by a `static_assert`. For `ShaderIntegrationTaskListUses`, one image
use and one buffer use, `USE_COUNT` is 2. -/
theorem USE_COUNT_counts_the_fields :
    TASK_INPUT_FIELD_SIZE = 128 ∧
    sizeof_GenericTaskResourceUse = TASK_INPUT_FIELD_SIZE ∧
    (∀ abi : Abi, header_static_asserts abi = true →
      TASK_BUFFER_INPUT_SIZE abi = TASK_INPUT_FIELD_SIZE ∧
      TASK_IMAGE_INPUT_SIZE abi = TASK_INPUT_FIELD_SIZE) ∧
    header_static_asserts Abi.pointers_64 = true ∧
    header_static_asserts Abi.pointers_32 = true ∧
    (∀ (abi : Abi) (fields : List UseField), header_static_asserts abi = true → fields ≠ [] →
      sizeof_uses abi fields = 128 * fields.length ∧
      TaskUses.USE_COUNT (sizeof_uses abi fields) = Except.ok fields.length ∧
      sizeof_uses abi fields / 128 = fields.length) ∧
    (∀ size : Nat, size ≠ 0 → size % 128 = 0 →
      TaskUses.USE_COUNT size = Except.ok (size / 128)) ∧
    (∀ size : Nat, tripped (TaskUses.USE_COUNT size) = true ↔ (size = 0 ∨ size % 128 ≠ 0)) ∧
    TaskUses.USE_COUNT 0 = Except.error "TaskUse must be non zero size" ∧
    (∀ size : Nat, size % 128 ≠ 0 →
      TaskUses.USE_COUNT size = Except.error "TaskUse struct must only contain task uses!") ∧
    ShaderIntegrationTaskListUses.length = 2 ∧
    (∀ abi : Abi, header_static_asserts abi = true →
      sizeof_uses abi ShaderIntegrationTaskListUses = 256 ∧
      TaskUses.USE_COUNT (sizeof_uses abi ShaderIntegrationTaskListUses) = Except.ok 2) := by
  have hcount : ∀ (abi : Abi) (fields : List UseField), header_static_asserts abi = true →
      fields ≠ [] →
      sizeof_uses abi fields = 128 * fields.length ∧
      TaskUses.USE_COUNT (sizeof_uses abi fields) = Except.ok fields.length ∧
      sizeof_uses abi fields / 128 = fields.length := by
    intro abi fields h hne
    have hs := sizeof_uses_eq abi h fields hne
    have hlen : 0 < fields.length := List.length_pos.2 hne
    have hdiv : sizeof_uses abi fields / 128 = fields.length := by rw [hs]; omega
    refine ⟨hs, ?_, hdiv⟩
    rw [USE_COUNT_ok _ (by rw [hs]; omega) (by rw [hs]; omega), hdiv]
  refine ⟨rfl, by decide, ?_, by decide, by decide, hcount, USE_COUNT_ok, ?_, rfl, ?_, rfl, ?_⟩
  · intro abi h
    simp only [header_static_asserts, Bool.and_eq_true, decide_eq_true_eq] at h
    exact ⟨h.2, by rw [← h.1]; exact h.2⟩
  · intro size
    constructor
    · intro ht
      by_contra hcon
      have h0 : size ≠ 0 := fun h => hcon (Or.inl h)
      have hm : size % 128 = 0 := by
        by_contra hm
        exact hcon (Or.inr hm)
      rw [USE_COUNT_ok size h0 hm] at ht
      simp [tripped] at ht
    · exact USE_COUNT_rejects size
  · intro size hm
    have h0 : size ≠ 0 := by
      intro h
      rw [h] at hm
      exact hm rfl
    simp [TaskUses.USE_COUNT, static_assert, TASK_INPUT_FIELD_SIZE, h0, hm, bind, Except.bind]
  · intro abi h
    obtain ⟨h1, h2, _⟩ := hcount abi ShaderIntegrationTaskListUses h (by decide)
    exact ⟨h1, h2⟩

theorem USE_COUNT_counts_the_fields_witness :
    TASK_BUFFER_INPUT_SIZE Abi.pointers_64 = 128 ∧
    TASK_IMAGE_INPUT_SIZE Abi.pointers_64 = 128 ∧
    sizeof_uses Abi.pointers_64 [UseField.buffer, UseField.image, UseField.image] = 384 ∧
    TaskUses.USE_COUNT (sizeof_uses Abi.pointers_64 ShaderIntegrationTaskListUses)
      = Except.ok 2 ∧
    TaskUses.USE_COUNT 200 = Except.error "TaskUse struct must only contain task uses!" :=
  ⟨(USE_COUNT_counts_the_fields.2.2.1 Abi.pointers_64 (by decide)).1,
   (USE_COUNT_counts_the_fields.2.2.1 Abi.pointers_64 (by decide)).2,
   (USE_COUNT_counts_the_fields.2.2.2.2.2.1 Abi.pointers_64
     [UseField.buffer, UseField.image, UseField.image] (by decide) (by decide)).1,
   (USE_COUNT_counts_the_fields.2.2.2.2.2.2.2.2.2.2.2 Abi.pointers_64 (by decide)).2,
   USE_COUNT_counts_the_fields.2.2.2.2.2.2.2.2.2.1 200 (by decide)⟩
end daxa
